import Mathlib

/-!
# Verification of the Figma-to-AI-JSON transformation pipeline

A shallow embedding of the plugin's core pipeline (token registry,
style/geometry extractors, semantic/pattern/responsive classifiers, tree
transformer and export envelope) together with proofs about the claims of
the specification.

Conventions of the embedding:
* JavaScript numbers are modelled as rationals (`ℚ`); `Math.round` is
  `jsRound` (round half towards positive infinity, as in JavaScript).
* JavaScript objects destined for `JSON.stringify` are modelled by the
  inductive type `J`; object fields whose value is `undefined` are omitted,
  matching `JSON.stringify`'s treatment of `undefined` members.
* `Map<string,string>` insertion order is modelled by association lists
  that append on first insertion, matching `forEach`'s iteration order.
* Optional TypeScript fields become `Option` values; JavaScript truthiness
  of a numeric option is `truthyQ` (absent or `0` is falsy).
-/

/-- JSON-like values: the shape of the objects the plugin serializes. -/
inductive J where
  | null : J
  | b : Bool → J
  | num : ℚ → J
  | str : String → J
  | arr : List J → J
  | obj : List (String × J) → J
deriving BEq

/-- `Math.round` in JavaScript: round half towards positive infinity. -/
def jsRound (q : ℚ) : ℤ := ⌊q + 1 / 2⌋

/-- Round a rational to two decimal places, JavaScript
`Math.round(x * 100) / 100`. -/
def roundTo2 (q : ℚ) : ℚ := (jsRound (q * 100) : ℚ) / 100

/-- `String.padStart(2, '0')` from JavaScript. -/
def padStart2 (s : String) : String :=
  if s.length < 2 then String.mk (List.replicate (2 - s.length) '0') ++ s else s

/-- `n.toString(16)` for an integer: lowercase hex digits, possibly a sign. -/
def intToHexLower (n : ℤ) : String :=
  if n < 0 then "-" ++ (Nat.toDigits 16 n.natAbs).asString
  else (Nat.toDigits 16 n.toNat).asString

/-- `Number.prototype.toFixed(2)` on the idealized (rational) value:
round to the nearest hundredth, ties towards the larger value, and print
with exactly two decimal digits. -/
def toFixed2 (q : ℚ) : String :=
  let n : ℤ := ⌊q * 100 + 1 / 2⌋
  if n < 0 then
    "-" ++ Nat.repr (n.natAbs / 100) ++ "." ++ padStart2 (Nat.repr (n.natAbs % 100))
  else
    Nat.repr (n.toNat / 100) ++ "." ++ padStart2 (Nat.repr (n.toNat % 100))

/-- Decimal digits of the fractional part of a non-negative rational,
with bounded precision (20 digits), used to model JavaScript's
number-to-string conversion for the finite decimals this pipeline emits. -/
def fracDigits : Nat → ℚ → String
  | 0, _ => ""
  | fuel + 1, q =>
    if q = 0 then ""
    else
      let d : ℤ := ⌊q * 10⌋
      Nat.repr d.toNat ++ fracDigits fuel (q * 10 - d)

/-- JavaScript number-to-string conversion (template-literal coercion),
modelled exactly for integers and terminating decimals, which are the only
values this pipeline interpolates into strings. -/
def jsNumRepr (q : ℚ) : String :=
  if q < 0 then "-" ++ Nat.repr ⌊-q⌋.toNat ++
    (if (-q).den = 1 then "" else "." ++ fracDigits 20 (-q - ⌊-q⌋))
  else Nat.repr ⌊q⌋.toNat ++
    (if q.den = 1 then "" else "." ++ fracDigits 20 (q - ⌊q⌋))

/-- JavaScript numeric truthiness for an optional number: `undefined` and
`0` are falsy. -/
def truthyQ (o : Option ℚ) : Bool :=
  match o with
  | none => false
  | some q => decide (q ≠ 0)

/-- `String.prototype.toUpperCase`, modelled character-wise (the values
this pipeline upper-cases are ASCII). -/
def jsToUpper (s : String) : String := ⟨s.data.map Char.toUpper⟩

/-- `String.prototype.toLowerCase`, modelled character-wise. -/
def jsToLower (s : String) : String := ⟨s.data.map Char.toLower⟩

/-- `String.prototype.trim`: strip leading and trailing whitespace. -/
def jsTrim (s : String) : String :=
  ⟨((s.data.dropWhile Char.isWhitespace).reverse.dropWhile
    Char.isWhitespace).reverse⟩

/-- `String.prototype.startsWith`. -/
def jsStartsWith (s p : String) : Bool := p.data.isPrefixOf s.data

/-- One kind's interning table of the `TokenExtractor`
(`Map<string,string>` from normalized value to token, plus the counter). -/
structure KindMap where
  entries : List (String × String)
  counter : Nat
deriving DecidableEq

/-- `intern`: look up the normalized value; on a miss allocate
`pfx ++ counter` and record the mapping (`tokens.ts`, the shared shape of
`addColor`/`addFont`/`addShadow`). -/
def KindMap.intern (norm : String → String) (pfx : String) (m : KindMap)
    (v : String) : String × KindMap :=
  let n := norm v
  match m.entries.lookup n with
  | some t => (t, m)
  | none =>
    let token := pfx ++ Nat.repr m.counter
    (token, ⟨m.entries ++ [(n, token)], m.counter + 1⟩)

/-- The token registry state (`TokenExtractor` in `src/tokens.ts`). -/
structure TokenExtractor where
  colors : KindMap
  fonts : KindMap
  shadows : KindMap
deriving DecidableEq

/-- A fresh registry (`new TokenExtractor()`). -/
def TokenExtractor.empty : TokenExtractor := ⟨⟨[], 0⟩, ⟨[], 0⟩, ⟨[], 0⟩⟩

/-- `addColor`: normalize by upper-casing, then intern with prefix `$c`. -/
def TokenExtractor.addColor (st : TokenExtractor) (color : String) :
    String × TokenExtractor :=
  let (t, m) := st.colors.intern jsToUpper "$c" color
  (t, { st with colors := m })

/-- `addFont`: normalize by trimming, then intern with prefix `$f`. -/
def TokenExtractor.addFont (st : TokenExtractor) (fontFamily : String) :
    String × TokenExtractor :=
  let (t, m) := st.fonts.intern jsTrim "$f" fontFamily
  (t, { st with fonts := m })

/-- `addShadow`: normalize by trimming, then intern with prefix `$s`. -/
def TokenExtractor.addShadow (st : TokenExtractor) (shadow : String) :
    String × TokenExtractor :=
  let (t, m) := st.shadows.intern jsTrim "$s" shadow
  (t, { st with shadows := m })

/-- The drained token dictionary (`DesignTokens` in `src/types.ts`): three
identifier-to-value maps in insertion order. -/
structure DesignTokens where
  colors : List (String × String)
  fonts : List (String × String)
  shadows : List (String × String)
deriving DecidableEq

/-- `getTokens`: each kind's `Map` is read out in insertion order, keyed by
the token with its `$` stripped (`token.substring(1)`). -/
def TokenExtractor.getTokens (st : TokenExtractor) : DesignTokens :=
  ⟨st.colors.entries.map (fun p => (p.2.drop 1, p.1)),
   st.fonts.entries.map (fun p => (p.2.drop 1, p.1)),
   st.shadows.entries.map (fun p => (p.2.drop 1, p.1))⟩

/-- `optimizeTokens` from `src/tokens.ts`: keep each kind's map only when
it is non-empty (an empty map is replaced by the empty map). -/
def optimizeTokens (tokens : DesignTokens) : DesignTokens :=
  ⟨if tokens.colors.length > 0 then tokens.colors else [],
   if tokens.fonts.length > 0 then tokens.fonts else [],
   if tokens.shadows.length > 0 then tokens.shadows else []⟩

/-!
## A small matcher for the source's name-classification regexes

Every regex in the source is (after distributing groups) an alternation of
sequences of literal words and `.?` (one optional non-newline character),
tested case-insensitively anywhere in the name.  `RAtom`/`RSeq`/`RAlts`
represent exactly that class; `reTest` lowercases the subject, matching
the `/i` flag over the ASCII patterns used.
-/

/-- One regex atom: a literal character run, or `.?`. -/
inductive RAtom where
  | lit : List Char → RAtom
  | anyOpt : RAtom

/-- One alternative of a regex: a sequence of atoms. -/
abbrev RSeq := List RAtom

/-- A regex: alternatives, first match anywhere in the subject wins. -/
abbrev RAlts := List RSeq

/-- Match a sequence of atoms starting exactly at the head of `s`. -/
def matchSeqAt : RSeq → List Char → Bool
  | [], _ => true
  | .lit cs :: rest, s => cs.isPrefixOf s && matchSeqAt rest (s.drop cs.length)
  | .anyOpt :: rest, s =>
    matchSeqAt rest s ||
      match s with
      | [] => false
      | c :: tail => decide (c ≠ '\n') && matchSeqAt rest tail

/-- Match any alternative at any start position. -/
def searchRe (alts : RAlts) : List Char → Bool
  | [] => alts.any (fun q => matchSeqAt q [])
  | c :: tail => alts.any (fun q => matchSeqAt q (c :: tail)) || searchRe alts tail

/-- `regex.test(subject)` for a case-insensitive regex. -/
def reTest (alts : RAlts) (subject : String) : Bool :=
  searchRe alts (jsToLower subject).data

/-- A plain-word regex alternative. -/
def rw_ (s : String) : RSeq := [.lit s.toList]

/-- An `a.?b` regex alternative. -/
def rOpt (a b : String) : RSeq := [.lit a.toList, .anyOpt, .lit b.toList]

/-!
## The raw node record (`RawNodeData` in `src/parser.ts`)

String-literal union types are modelled as `String`; optional fields as
`Option`; numbers as `ℚ`.
-/

/-- An opaque RGB color with channels in `0…1` (`{r, g, b}`). -/
structure Color where
  r : ℚ
  g : ℚ
  b : ℚ
deriving DecidableEq

/-- An RGBA color with channels in `0…1` and alpha (`{r, g, b, a}`). -/
structure RGBA where
  r : ℚ
  g : ℚ
  b : ℚ
  a : ℚ
deriving DecidableEq

/-- One gradient stop. -/
structure GradientStop where
  position : ℚ
  color : RGBA
deriving DecidableEq

/-- A 2×3 transform matrix `[[a, b, tx], [c, d, ty]]`. -/
structure Mat2x3 where
  a : ℚ
  b : ℚ
  tx : ℚ
  c : ℚ
  d : ℚ
  ty : ℚ
deriving DecidableEq

/-- A paint entry (fill or stroke). -/
structure Paint where
  type : String
  visible : Option Bool := none
  opacity : Option ℚ := none
  color : Option Color := none
  gradientStops : Option (List GradientStop) := none
  gradientTransform : Option Mat2x3 := none
  imageRef : Option String := none
  scaleMode : Option String := none
  imageTransform : Option Mat2x3 := none
  scalingFactor : Option ℚ := none
deriving DecidableEq

/-- An effect entry (shadow or blur). -/
structure Effect where
  type : String
  visible : Option Bool := none
  radius : Option ℚ := none
  offset : Option (ℚ × ℚ) := none
  spread : Option ℚ := none
  color : Option RGBA := none
deriving DecidableEq

/-- A font name (`{family, style}`). -/
structure FontName where
  family : String
  style : String
deriving DecidableEq

/-- `lineHeight`: value plus unit (`PIXELS`/`PERCENT`/`AUTO`). -/
structure LineHeight where
  value : ℚ
  unit : String
deriving DecidableEq

/-- `letterSpacing`: value plus unit (`PIXELS`/`PERCENT`). -/
structure LetterSpacing where
  value : ℚ
  unit : String
deriving DecidableEq

/-- A hyperlink target on a text segment. -/
structure Hyperlink where
  type : String
  value : String
deriving DecidableEq

/-- One styled text segment of `styledTextSegments`. -/
structure TextSegment where
  characters : String
  start : ℚ
  stop : ℚ
  fontName : Option FontName := none
  fontSize : Option ℚ := none
  fontWeight : Option ℚ := none
  fills : Option (List Paint) := none
  textDecoration : Option String := none
  hyperlink : Option Hyperlink := none
deriving DecidableEq

/-- The linked main component of an instance node. -/
structure MainComponent where
  name : String
  description : Option String := none
  variantProperties : Option (List (String × String)) := none
deriving DecidableEq

/-- One prototype reaction. -/
structure Reaction where
  trigger : String
  action : String
  destinationId : Option String := none
  destinationName : Option String := none
  url : Option String := none
  transition : Option String := none
deriving DecidableEq

/-- Layout constraints (`{horizontal, vertical}`). -/
structure Constraints where
  horizontal : String
  vertical : String
deriving DecidableEq

/-- All fields of a raw node record, parameterized by the child type so
that `RawNodeData` below can tie the recursive knot. -/
structure RawNodeF (α : Type) where
  id : String
  name : String
  type : String
  x : ℚ := 0
  y : ℚ := 0
  width : ℚ := 0
  height : ℚ := 0
  layoutMode : Option String := none
  primaryAxisSizingMode : Option String := none
  counterAxisSizingMode : Option String := none
  primaryAxisAlignItems : Option String := none
  counterAxisAlignItems : Option String := none
  paddingLeft : Option ℚ := none
  paddingRight : Option ℚ := none
  paddingTop : Option ℚ := none
  paddingBottom : Option ℚ := none
  itemSpacing : Option ℚ := none
  layoutWrap : Option String := none
  fills : Option (List Paint) := none
  strokes : Option (List Paint) := none
  strokeWeight : Option ℚ := none
  strokeAlign : Option String := none
  dashPattern : Option (List ℚ) := none
  blendMode : Option String := none
  rotation : Option ℚ := none
  orderIndex : Option ℚ := none
  siblingCount : Option ℚ := none
  layoutGrow : Option ℚ := none
  parentLayoutMode : Option String := none
  description : Option String := none
  devNotes : Option String := none
  pluginData : Option (List (String × String)) := none
  imageRef : Option String := none
  imageTransform : Option Mat2x3 := none
  cornerRadius : Option ℚ := none
  topLeftRadius : Option ℚ := none
  topRightRadius : Option ℚ := none
  bottomRightRadius : Option ℚ := none
  bottomLeftRadius : Option ℚ := none
  effects : Option (List Effect) := none
  opacity : Option ℚ := none
  visible : Option Bool := none
  clipsContent : Option Bool := none
  constraints : Option Constraints := none
  layoutPositioning : Option String := none
  characters : Option String := none
  fontSize : Option ℚ := none
  fontName : Option FontName := none
  fontWeight : Option ℚ := none
  lineHeight : Option LineHeight := none
  letterSpacing : Option LetterSpacing := none
  textAlignHorizontal : Option String := none
  textAlignVertical : Option String := none
  textDecoration : Option String := none
  textCase : Option String := none
  textTruncation : Option String := none
  maxLines : Option ℚ := none
  paragraphSpacing : Option ℚ := none
  textAutoResize : Option String := none
  styledTextSegments : Option (List TextSegment) := none
  children : Option (List α) := none
  mainComponent : Option MainComponent := none
  reactions : Option (List Reaction) := none

/-- A raw node record tree (`RawNodeData`). -/
inductive RawNodeData where
  | mk : RawNodeF RawNodeData → RawNodeData

/-- Unpack the fields of a raw node record. -/
def RawNodeData.f : RawNodeData → RawNodeF RawNodeData
  | .mk d => d

/-- `sub.includes`-style substring test (`String.prototype.includes`). -/
def jsIncludes (s sub : String) : Bool := decide (sub.toList <:+: s.toList)

/-- `/^\d+$/.test(text)`: one or more ASCII digits and nothing else. -/
def isAllDigits (s : String) : Bool :=
  decide (s.toList ≠ []) && s.toList.all (fun c => c.isDigit)

/-!
## Pattern classifier (`src/patterns.ts`)
-/

/-- `PATTERN_NAME_HINTS`: name-keyword table, in source (priority) order. -/
def PATTERN_NAME_HINTS : List (String × RAlts) :=
  [("grid", [rw_ "grid", rw_ "cards", rw_ "products", rw_ "gallery"]),
   ("list", [rw_ "list", rw_ "items", rw_ "rows", rw_ "feed"]),
   ("carousel", [rw_ "carousel", rw_ "slider", rw_ "swiper", rw_ "slides"]),
   ("tabs", [rw_ "tabs", rw_ "tabbar", rOpt "tab" "list", rw_ "segments"]),
   ("accordion", [rw_ "accordion", rw_ "collapse", rw_ "expandable", rw_ "faq"]),
   ("form", [rw_ "form", rw_ "login", rw_ "signup", rw_ "register",
             rw_ "checkout", rw_ "contact"]),
   ("table", [rw_ "table", rw_ "datagrid", rOpt "data" "table"]),
   ("breadcrumbs", [rw_ "breadcrumb", rw_ "crumbs", rw_ "path"]),
   ("pagination", [rw_ "pagination", rw_ "pager", rw_ "pages"]),
   ("stepper", [rw_ "stepper", rw_ "steps", rw_ "wizard", rw_ "progress"]),
   ("gallery", [rw_ "gallery", rw_ "photos", rw_ "images"])]

/-- `detectPatternFromName`: first table entry whose regex matches wins. -/
def detectPatternFromName (name : String) : Option String :=
  (PATTERN_NAME_HINTS.find? (fun p => reTest p.2 name)).map (fun p => p.1)

/-- `PatternInfo` (`src/types.ts`). -/
structure PatternInfo where
  pattern : String
  itemCount : Option ℚ := none
  columns : Option ℚ := none
  rows : Option ℚ := none
deriving DecidableEq

/-- `areSimilarNodes`: same type tag, both dimensions within 10 units, and
child counts differing by at most 1. -/
def areSimilarNodes (a b : RawNodeData) : Bool :=
  if a.f.type ≠ b.f.type then false
  else
    let widthDiff := |a.f.width - b.f.width|
    let heightDiff := |a.f.height - b.f.height|
    if widthDiff > 10 ∨ heightDiff > 10 then false
    else
      let aChildCount : ℤ := ((a.f.children.getD []).length : ℤ)
      let bChildCount : ℤ := ((b.f.children.getD []).length : ℤ)
      if |aChildCount - bChildCount| > 1 then false
      else true

/-- `countSimilarChildren`: the first child is the reference and counts
itself; every later child similar to it is counted. -/
def countSimilarChildren (children : List RawNodeData) : Nat :=
  match children with
  | [] => 0
  | [_] => 0
  | reference :: rest => 1 + rest.countP (fun c => areSimilarNodes reference c)

/-- `detectGridPattern`: wrapping layout, ≥4 mostly-similar children. -/
def detectGridPattern (raw : RawNodeData) : Option PatternInfo :=
  match raw.f.children with
  | none => none
  | some cs =>
    if cs.length < 2 then none
    else
      let isWrap := raw.f.layoutWrap = some "WRAP"
      let similarCount := countSimilarChildren cs
      let hasMostlySimilar := (similarCount : ℚ) ≥ (cs.length : ℚ) * (7 / 10)
      if isWrap ∧ hasMostlySimilar ∧ cs.length ≥ 4 then
        match cs with
        | [] => none
        | firstChild :: _ =>
          let containerWidth := raw.f.width
          let itemWidth := firstChild.f.width
          let gap := raw.f.itemSpacing.getD 0
          let columns : ℤ := ⌊(containerWidth + gap) / (itemWidth + gap)⌋
          let rows : ℤ := ⌈(cs.length : ℚ) / (columns : ℚ)⌉
          some ⟨"grid", some (cs.length : ℚ), some (max 1 columns : ℤ),
                some (max 1 rows : ℤ)⟩
      else none

/-- `detectListPattern`: vertical layout, ≥2 mostly-similar children. -/
def detectListPattern (raw : RawNodeData) : Option PatternInfo :=
  match raw.f.children with
  | none => none
  | some cs =>
    if cs.length < 2 then none
    else
      let isVertical := raw.f.layoutMode = some "VERTICAL"
      let similarCount := countSimilarChildren cs
      let hasMostlySimilar := (similarCount : ℚ) ≥ (cs.length : ℚ) * (7 / 10)
      if isVertical ∧ hasMostlySimilar ∧ cs.length ≥ 2 then
        some ⟨"list", some (cs.length : ℚ), none, none⟩
      else none

/-- `detectCarouselPattern`: horizontal clipped layout whose similar
children overflow the container by more than 20%. -/
def detectCarouselPattern (raw : RawNodeData) : Option PatternInfo :=
  match raw.f.children with
  | none => none
  | some cs =>
    if cs.length < 2 then none
    else
      let isHorizontal := raw.f.layoutMode = some "HORIZONTAL"
      let hasOverflow := raw.f.clipsContent = some true
      let similarCount := countSimilarChildren cs
      let hasMostlySimilar := (similarCount : ℚ) ≥ (cs.length : ℚ) * (7 / 10)
      let totalChildrenWidth := (cs.map (fun c => c.f.width)).sum
      let gap := raw.f.itemSpacing.getD 0
      let totalWidth := totalChildrenWidth + gap * ((cs.length : ℚ) - 1)
      let overflowsContainer := totalWidth > raw.f.width * (6 / 5)
      if isHorizontal ∧ hasOverflow ∧ hasMostlySimilar ∧ overflowsContainer then
        some ⟨"carousel", some (cs.length : ℚ), none, none⟩
      else none

/-- `detectTabsPattern`: ≤8 equal-height text-bearing children in a row. -/
def detectTabsPattern (raw : RawNodeData) : Option PatternInfo :=
  match raw.f.children with
  | none => none
  | some cs =>
    if cs.length < 2 then none
    else
      let isHorizontal := raw.f.layoutMode = some "HORIZONTAL"
      let hasTextChildren := cs.all (fun child =>
        child.f.type = "TEXT" ∨
          (child.f.children.isSome ∧
            (child.f.children.getD []).any (fun c => c.f.type = "TEXT")))
      match cs with
      | [] => none
      | first :: _ =>
        let allSimilarSize := cs.all (fun child =>
          |child.f.height - first.f.height| < 10)
        if isHorizontal ∧ hasTextChildren ∧ allSimilarSize ∧ cs.length ≤ 8 then
          some ⟨"tabs", some (cs.length : ℚ), none, none⟩
        else none

/-- The body of `checkNode` in `detectFormPattern`: input-likeness. -/
def formInputLike (node : RawNodeData) : Bool :=
  let name := jsToLower node.f.name
  if jsIncludes name "input" ∨ jsIncludes name "field" ∨ jsIncludes name "text" then
    true
  else
    let hasBorder := node.f.strokes.isSome ∧ (node.f.strokes.getD []).length > 0
    let hasRadius := truthyQ node.f.cornerRadius ∧ node.f.cornerRadius.getD 0 > 0
    hasBorder ∧ hasRadius ∧ (node.f.children.getD []).length = 1 ∧
      node.f.children.isSome

/-- The body of `checkNode` in `detectFormPattern`: button-likeness. -/
def formButtonLike (node : RawNodeData) : Bool :=
  let name := jsToLower node.f.name
  jsIncludes name "button" ∨ jsIncludes name "submit" ∨ jsIncludes name "btn"

/-- The node list `checkNode` visits: each child followed by its own
children. -/
def formCheckList (cs : List RawNodeData) : List RawNodeData :=
  cs.flatMap (fun child => child :: child.f.children.getD [])

/-- `detectFormPattern`: vertical layout with ≥2 input-like and ≥1
button-like nodes among children and grandchildren. -/
def detectFormPattern (raw : RawNodeData) : Option PatternInfo :=
  match raw.f.children with
  | none => none
  | some cs =>
    if cs.length < 2 then none
    else
      let isVertical := raw.f.layoutMode = some "VERTICAL"
      let inputLikeCount := (formCheckList cs).countP (fun n => formInputLike n)
      let buttonLikeCount := (formCheckList cs).countP (fun n => formButtonLike n)
      if isVertical ∧ inputLikeCount ≥ 2 ∧ buttonLikeCount ≥ 1 then
        some ⟨"form", some ((inputLikeCount + buttonLikeCount : ℕ) : ℚ), none, none⟩
      else none

/-- Stepper text test on a child: digits only, or a `step` prefix. -/
def stepperChildText (c : RawNodeData) : Bool :=
  decide (c.f.type = "TEXT") &&
    match c.f.characters with
    | none => false
    | some chars =>
      decide (chars ≠ "") &&
        (isAllDigits (jsTrim chars) || jsStartsWith (jsToLower (jsTrim chars)) "step")

/-- Stepper text test on a grandchild: digits only. -/
def stepperGrandchildText (c : RawNodeData) : Bool :=
  decide (c.f.type = "TEXT") &&
    match c.f.characters with
    | none => false
    | some chars => decide (chars ≠ "") && isAllDigits (jsTrim chars)

/-- `detectStepperPattern`: 2–7 children in a row, at least two bearing
numeric (or `step`-prefixed) text. -/
def detectStepperPattern (raw : RawNodeData) : Option PatternInfo :=
  match raw.f.children with
  | none => none
  | some cs =>
    if cs.length < 2 then none
    else
      let isHorizontal := raw.f.layoutMode = some "HORIZONTAL"
      let numberCount := (cs.map (fun child =>
        (if stepperChildText child then 1 else 0) +
          (child.f.children.getD []).countP
            (fun g => stepperGrandchildText g))).sum
      if isHorizontal ∧ numberCount ≥ 2 ∧ cs.length ≥ 2 ∧ cs.length ≤ 7 then
        some ⟨"stepper", some (cs.length : ℚ), none, none⟩
      else none

/-- `detectPattern` (`src/patterns.ts`): name hint first, then the
structural detectors in fixed priority order. -/
def detectPattern (raw : RawNodeData) : Option PatternInfo :=
  match detectPatternFromName raw.f.name with
  | some nameHint =>
    let base : PatternInfo := ⟨nameHint, none, none, none⟩
    let base :=
      match raw.f.children with
      | none => base
      | some cs =>
        let base := { base with itemCount := some (cs.length : ℚ) }
        if nameHint = "grid" ∧ raw.f.layoutWrap = some "WRAP" then
          match cs with
          | [] => base
          | firstChild :: _ =>
            let gap := raw.f.itemSpacing.getD 0
            let columns : ℤ := ⌊(raw.f.width + gap) / (firstChild.f.width + gap)⌋
            let cols : ℤ := max 1 columns
            { base with
                columns := some (cols : ℚ)
                rows := some ((⌈(cs.length : ℚ) / (cols : ℚ)⌉ : ℤ) : ℚ) }
        else base
    some base
  | none =>
    match detectGridPattern raw with
    | some p => some p
    | none =>
      match detectCarouselPattern raw with
      | some p => some p
      | none =>
        match detectTabsPattern raw with
        | some p => some p
        | none =>
          match detectStepperPattern raw with
          | some p => some p
          | none =>
            match detectFormPattern raw with
            | some p => some p
            | none =>
              match detectListPattern raw with
              | some p => some p
              | none => none

/-!
## Semantic classifier (`src/semantic.ts`)
-/

/-- `ROLE_PATTERNS`: role-keyword table, in source (priority) order. -/
def ROLE_PATTERNS : List (String × RAlts) :=
  [("button", [rw_ "btn", rw_ "button", rw_ "cta", rw_ "submit", rw_ "action"]),
   ("input", [rw_ "input", rw_ "field", rw_ "textbox", rw_ "search",
              rw_ "textarea"]),
   ("card", [rw_ "card", rw_ "tile", rw_ "item", rw_ "product"]),
   ("nav", [rw_ "nav", rw_ "navigation", rw_ "menu", rw_ "sidebar",
            rw_ "breadcrumb"]),
   ("header", [rw_ "header", rw_ "topbar", rw_ "appbar", rw_ "toolbar"]),
   ("footer", [rw_ "footer", rOpt "bottom" "bar"]),
   ("modal", [rw_ "modal", rw_ "dialog", rw_ "popup", rw_ "overlay",
              rw_ "drawer", rw_ "sheet"]),
   ("badge", [rw_ "badge", rw_ "tag", rw_ "chip", rw_ "label", rw_ "pill"]),
   ("avatar", [rw_ "avatar", rOpt "profile" "img", rOpt "profile" "image",
               rOpt "profile" "pic", rOpt "user" "img", rOpt "user" "image"]),
   ("icon", [rw_ "icon", rw_ "ico", rw_ "svg", rw_ "glyph"]),
   ("link", [rw_ "link", rw_ "anchor", rw_ "href"]),
   ("list", [rw_ "list", rw_ "grid", rw_ "collection", rw_ "items"]),
   ("listItem", [rOpt "list" "item", rw_ "row", rw_ "cell"]),
   ("tab", [rw_ "tab", rw_ "segment"]),
   ("menu", [rw_ "menu", rOpt "dropdown" "menu", rOpt "context" "menu"]),
   ("tooltip", [rw_ "tooltip", rw_ "hint", rw_ "popover"]),
   ("dropdown", [rw_ "dropdown", rw_ "select", rw_ "combobox", rw_ "picker"])]

/-- `STATE_PATTERNS`: component-state keyword table, in source order. -/
def STATE_PATTERNS : List (String × RAlts) :=
  [("default", [rw_ "default", rw_ "normal", rw_ "rest"]),
   ("hover", [rw_ "hover", rw_ "hovered", rw_ "over"]),
   ("active", [rw_ "active", rw_ "pressed", rw_ "down"]),
   ("disabled", [rw_ "disabled", rw_ "inactive", rw_ "unavailable"]),
   ("focus", [rw_ "focus", rw_ "focused"]),
   ("selected", [rw_ "selected", rw_ "checked", rw_ "on"]),
   ("loading", [rw_ "loading", rw_ "spinner", rw_ "skeleton"])]

/-- `detectSemanticRole`: first matching role keyword wins. -/
def detectSemanticRole (name : String) : Option String :=
  (ROLE_PATTERNS.find? (fun p => reTest p.2 name)).map (fun p => p.1)

/-- `detectComponentState`: first matching state keyword wins. -/
def detectComponentState (name : String) : Option String :=
  (STATE_PATTERNS.find? (fun p => reTest p.2 name)).map (fun p => p.1)

/-- `isLikelyButton`: fill + radius + text child + auto-layout. -/
def isLikelyButton (raw : RawNodeData) : Bool :=
  let hasBackground := raw.f.fills.isSome ∧
    (raw.f.fills.getD []).any (fun f =>
      f.visible ≠ some false ∧ (f.type = "SOLID" ∨ jsStartsWith f.type "GRADIENT"))
  let hasRadius :=
    (truthyQ raw.f.cornerRadius ∧ raw.f.cornerRadius.getD 0 > 0) ∨
      (truthyQ raw.f.topLeftRadius ∧ raw.f.topLeftRadius.getD 0 > 0)
  let hasText := (raw.f.children.getD []).any (fun c => c.f.type = "TEXT")
  let isAutoLayout := raw.f.layoutMode.isSome ∧ raw.f.layoutMode ≠ some "NONE"
  let isSingleTextChild : Bool := decide ((raw.f.children.getD []).length = 1) &&
    (match (raw.f.children.getD []).head? with
     | some c => decide (c.f.type = "TEXT")
     | none => false)
  hasBackground ∧ hasRadius ∧ (hasText ∨ isSingleTextChild = true) ∧ isAutoLayout

/-- `isLikelyInput`: stroke + radius + placeholder-ish text child. -/
def isLikelyInput (raw : RawNodeData) : Bool :=
  let hasBorder := raw.f.strokes.isSome ∧ (raw.f.strokes.getD []).length > 0 ∧
    truthyQ raw.f.strokeWeight
  let hasRadius :=
    (truthyQ raw.f.cornerRadius ∧ raw.f.cornerRadius.getD 0 > 0) ∨
      (truthyQ raw.f.topLeftRadius ∧ raw.f.topLeftRadius.getD 0 > 0)
  let hasPlaceholderText := (raw.f.children.getD []).any (fun c =>
    c.f.type = "TEXT" ∧
      (jsIncludes (jsToLower c.f.name) "placeholder" ∨
        jsIncludes (jsToLower c.f.name) "label" ∨
        (c.f.fills.isSome ∧ (c.f.fills.getD []).any (fun f =>
          truthyQ f.opacity ∧ f.opacity.getD 0 < 7 / 10))))
  hasBorder ∧ hasRadius ∧ hasPlaceholderText

/-- `isLikelyCard`: solid fill, shadow or radius, several children. -/
def isLikelyCard (raw : RawNodeData) : Bool :=
  let hasBackground := raw.f.fills.isSome ∧
    (raw.f.fills.getD []).any (fun f => f.visible ≠ some false ∧ f.type = "SOLID")
  let hasShadow := raw.f.effects.isSome ∧
    (raw.f.effects.getD []).any (fun e =>
      e.type = "DROP_SHADOW" ∧ e.visible ≠ some false)
  let hasMultipleChildren := raw.f.children.isSome ∧
    (raw.f.children.getD []).length > 1
  let hasRadius := truthyQ raw.f.cornerRadius ∧ raw.f.cornerRadius.getD 0 > 0
  hasBackground ∧ (hasShadow ∨ hasRadius) ∧ hasMultipleChildren

/-- `isLikelyIcon`: vector-family type, or small square of vectors. -/
def isLikelyIcon (raw : RawNodeData) : Bool :=
  let isVector := raw.f.type = "VECTOR" ∨ raw.f.type = "BOOLEAN_OPERATION" ∨
    raw.f.type = "LINE" ∨ raw.f.type = "POLYGON" ∨ raw.f.type = "STAR"
  let isSmall := raw.f.width ≤ 48 ∧ raw.f.height ≤ 48
  let isSquareish := |raw.f.width - raw.f.height| ≤ 8
  let hasOnlyVectorChildren := raw.f.children.isSome ∧
    (raw.f.children.getD []).all (fun c =>
      c.f.type = "VECTOR" ∨ c.f.type = "BOOLEAN_OPERATION")
  isVector ∨ (isSmall ∧ isSquareish ∧ hasOnlyVectorChildren)

/-- `isLikelyAvatar`: image fill or circular, small and square. -/
def isLikelyAvatar (raw : RawNodeData) : Bool :=
  let hasImageFill := (raw.f.fills.getD []).any (fun f => f.type = "IMAGE")
  let isCircular := raw.f.type = "ELLIPSE" ∨
    (truthyQ raw.f.cornerRadius ∧ raw.f.width ≠ 0 ∧
      raw.f.cornerRadius.getD 0 ≥ raw.f.width / 2)
  let isSmallSquare := raw.f.width ≤ 120 ∧ raw.f.height ≤ 120 ∧
    |raw.f.width - raw.f.height| ≤ 4
  (hasImageFill ∨ isCircular) ∧ isSmallSquare

/-- The interaction-verb regex `/click|tap|press|toggle|switch/i`. -/
def INTERACTIVE_NAME_RE : RAlts :=
  [rw_ "click", rw_ "tap", rw_ "press", rw_ "toggle", rw_ "switch"]

/-- `detectInteractive`: interactive role, or an interaction verb in the
name. -/
def detectInteractive (raw : RawNodeData) (role : Option String) : Bool :=
  let interactiveRoles := ["button", "input", "link", "tab", "menu",
    "dropdown", "listItem"]
  match role with
  | some r => if interactiveRoles.contains r then true
      else reTest INTERACTIVE_NAME_RE raw.f.name
  | none => reTest INTERACTIVE_NAME_RE raw.f.name

/-- `SemanticAnalysis` (`src/semantic.ts`). -/
structure SemanticAnalysis where
  role : Option String := none
  interactive : Option Bool := none
  state : Option String := none
deriving DecidableEq

/-- `analyzeSemantics`: name-based role, then structural heuristics in
fixed order; `default` state suppressed; empty result omitted. -/
def analyzeSemantics (raw : RawNodeData) : Option SemanticAnalysis :=
  let role0 := detectSemanticRole raw.f.name
  let role :=
    match role0 with
    | some r => some r
    | none =>
      if isLikelyButton raw then some "button"
      else if isLikelyInput raw then some "input"
      else if isLikelyCard raw then some "card"
      else if isLikelyIcon raw then some "icon"
      else if isLikelyAvatar raw then some "avatar"
      else none
  let state := detectComponentState raw.f.name
  let interactive := detectInteractive raw role
  if role = none ∧ state = none ∧ interactive = false then none
  else
    let result : SemanticAnalysis :=
      { role := role
        interactive := if interactive then some true else none
        state :=
          match state with
          | some st => if st ≠ "default" then some st else none
          | none => none }
    if result.role = none ∧ result.interactive = none ∧ result.state = none
    then none else some result

/-!
## Responsive analyzer (the `responsive` module)
-/

/-- `BREAKPOINT_PATTERNS`: breakpoint keyword table, in source order. -/
def BREAKPOINT_PATTERNS : List (String × RAlts) :=
  [("mobile", [rw_ "mobile", rw_ "phone", rw_ "sm", rw_ "small", rw_ "320",
               rw_ "375", rw_ "390", rw_ "414"]),
   ("tablet", [rw_ "tablet", rw_ "ipad", rw_ "md", rw_ "medium", rw_ "768",
               rw_ "834", rw_ "820"]),
   ("desktop", [rw_ "desktop", rw_ "lg", rw_ "large", rw_ "1024", rw_ "1280",
                rw_ "1440"]),
   ("wide", [rw_ "wide", rw_ "xl", rOpt "extra" "large", rw_ "1920",
             rw_ "2560"])]

/-- `BREAKPOINT_WIDTHS`: width buckets, in source order; the missing upper
bound of `wide` (`Infinity` in the source) is `none`. -/
def BREAKPOINT_WIDTHS : List (String × ℚ × Option ℚ) :=
  [("mobile", 0, some 767),
   ("tablet", 768, some 1023),
   ("desktop", 1024, some 1919),
   ("wide", 1920, none)]

/-- `detectBreakpointFromName`: first matching keyword wins. -/
def detectBreakpointFromName (name : String) : Option String :=
  (BREAKPOINT_PATTERNS.find? (fun p => reTest p.2 name)).map (fun p => p.1)

/-- `detectBreakpointFromWidth`: first bucket containing the width wins. -/
def detectBreakpointFromWidth (width : ℚ) : Option String :=
  (BREAKPOINT_WIDTHS.find? (fun p =>
    decide (width ≥ p.2.1) &&
      match p.2.2 with
      | some m => decide (width ≤ m)
      | none => true)).map (fun p => p.1)

/-- `isFluidWidth`: horizontal stretch/scale constraints, unless the
node's own width axis auto-sizes. -/
def isFluidWidth (raw : RawNodeData) : Bool :=
  let autoSized :=
    if raw.f.layoutMode.isSome ∧ raw.f.layoutMode ≠ some "NONE" then
      let isHorizontal := raw.f.layoutMode = some "HORIZONTAL"
      let sizingMode := if isHorizontal then raw.f.counterAxisSizingMode
        else raw.f.primaryAxisSizingMode
      sizingMode = some "AUTO"
    else false
  if autoSized then false
  else
    match raw.f.constraints with
    | some c => c.horizontal = "STRETCH" ∨ c.horizontal = "SCALE"
    | none => false

/-- `detectFlexGrow`: a positive declared `layoutGrow` under a laid-out
parent (both directions behave identically in the source). -/
def detectFlexGrow (raw : RawNodeData) (parentLayout : Option String) :
    Option ℚ :=
  match parentLayout with
  | none => none
  | some pl =>
    if pl = "NONE" then none
    else
      let isParentHorizontal := pl = "HORIZONTAL"
      if isParentHorizontal then
        match raw.f.layoutGrow with
        | some g => if g > 0 then some g else none
        | none => none
      else
        match raw.f.layoutGrow with
        | some g => if g > 0 then some g else none
        | none => none

/-- `ResponsiveInfo` (`src/types.ts`). -/
structure ResponsiveInfo where
  breakpoint : Option String := none
  fluid : Option Bool := none
  grow : Option ℚ := none
  shrink : Option ℚ := none
deriving DecidableEq

/-- `analyzeResponsive`: breakpoint from name, else from width when at
least 1024 and not `mobile`; fluid/grow/shrink flags; empty block
omitted. -/
def analyzeResponsive (raw : RawNodeData) (parentLayout : Option String) :
    Option ResponsiveInfo :=
  let breakpoint :=
    match detectBreakpointFromName raw.f.name with
    | some bp => some bp
    | none =>
      if raw.f.width ≥ 1024 then
        match detectBreakpointFromWidth raw.f.width with
        | some bp => if bp ≠ "mobile" then some bp else none
        | none => none
      else none
  let fluid := if isFluidWidth raw then some true else none
  let grow :=
    match detectFlexGrow raw parentLayout with
    | some g => if g > 0 then some g else none
    | none => none
  let shrink :=
    if raw.f.layoutGrow = some 0 ∧ parentLayout.isSome ∧
        parentLayout ≠ some "NONE" then some (0 : ℚ)
    else none
  let info : ResponsiveInfo := ⟨breakpoint, fluid, grow, shrink⟩
  if info.breakpoint = none ∧ info.fluid = none ∧ info.grow = none ∧
      info.shrink = none then none
  else some info

/-!
## Tree transformer (`src/transformer.ts`)
-/

/-- The two transcendental `Math` calls of the transformer
(`Math.atan2(b, a) * 180 / π` rounded, and `Math.sqrt`), which no claim
depends on; kept abstract as a parameter of the embedding. -/
structure JsMath where
  atan2deg : ℚ → ℚ → ℤ
  sqrt : ℚ → ℚ

/-- `rgbToHex`: channels scaled to 0–255, rounded, two lowercase hex
digits each, then the whole string upper-cased. -/
def rgbToHex (r g b : ℚ) : String :=
  jsToUpper ("#" ++ padStart2 (intToHexLower (jsRound (r * 255))) ++
    padStart2 (intToHexLower (jsRound (g * 255))) ++
    padStart2 (intToHexLower (jsRound (b * 255))))

/-- `rgbaToString`: hex when fully opaque, else
`rgba(r,g,b,a)` with integer channels and two-decimal alpha. -/
def rgbaToString (r g b a : ℚ) : String :=
  if a = 1 then rgbToHex r g b
  else "rgba(" ++ (jsRound (r * 255)).repr ++ "," ++ (jsRound (g * 255)).repr ++
    "," ++ (jsRound (b * 255)).repr ++ "," ++ toFixed2 a ++ ")"

/-- `mapNodeType`: the fixed type-tag table, defaulting to `frame`. -/
def mapNodeType (figmaType : String) : String :=
  if figmaType = "FRAME" then "frame"
  else if figmaType = "GROUP" then "group"
  else if figmaType = "RECTANGLE" then "rect"
  else if figmaType = "ELLIPSE" then "ellipse"
  else if figmaType = "TEXT" then "text"
  else if figmaType = "VECTOR" then "vector"
  else if figmaType = "INSTANCE" then "instance"
  else if figmaType = "COMPONENT" then "frame"
  else if figmaType = "COMPONENT_SET" then "frame"
  else if figmaType = "LINE" then "vector"
  else if figmaType = "POLYGON" then "vector"
  else if figmaType = "STAR" then "vector"
  else if figmaType = "BOOLEAN_OPERATION" then "vector"
  else "frame"

/-- `mapJustify`: main-axis alignment table (no default). -/
def mapJustify (align : Option String) : Option String :=
  match align with
  | none => none
  | some a =>
    if a = "MIN" then some "start"
    else if a = "CENTER" then some "center"
    else if a = "MAX" then some "end"
    else if a = "SPACE_BETWEEN" then some "between"
    else none

/-- `mapAlign`: cross-axis alignment table (no default). -/
def mapAlign (align : Option String) : Option String :=
  match align with
  | none => none
  | some a =>
    if a = "MIN" then some "start"
    else if a = "CENTER" then some "center"
    else if a = "MAX" then some "end"
    else if a = "BASELINE" then some "start"
    else none

/-- `mapConstraintH`: horizontal constraint table, defaulting to `left`. -/
def mapConstraintH (constraint : String) : String :=
  if constraint = "MIN" then "left"
  else if constraint = "MAX" then "right"
  else if constraint = "CENTER" then "center"
  else if constraint = "STRETCH" then "stretch"
  else if constraint = "SCALE" then "scale"
  else "left"

/-- `mapConstraintV`: vertical constraint table, defaulting to `top`. -/
def mapConstraintV (constraint : String) : String :=
  if constraint = "MIN" then "top"
  else if constraint = "MAX" then "bottom"
  else if constraint = "CENTER" then "center"
  else if constraint = "STRETCH" then "stretch"
  else if constraint = "SCALE" then "scale"
  else "top"

/-- `mapTrigger`: reaction trigger table, defaulting to `click`. -/
def mapTrigger (trigger : String) : String :=
  if trigger = "ON_CLICK" then "click"
  else if trigger = "ON_HOVER" then "hover"
  else if trigger = "ON_PRESS" then "press"
  else if trigger = "ON_DRAG" then "drag"
  else if trigger = "MOUSE_ENTER" then "hover"
  else if trigger = "MOUSE_LEAVE" then "hover"
  else if trigger = "MOUSE_UP" then "click"
  else if trigger = "MOUSE_DOWN" then "press"
  else "click"

/-- `mapAction`: reaction action table, defaulting to `navigate`. -/
def mapAction (action : String) : String :=
  if action = "NODE" then "navigate"
  else if action = "OVERLAY" then "overlay"
  else if action = "SWAP" then "swap"
  else if action = "SCROLL_TO" then "scroll"
  else if action = "URL" then "url"
  else if action = "BACK" then "back"
  else if action = "CLOSE" then "close"
  else "navigate"

/-- `mapBlendMode`: blend-mode table (no default). -/
def mapBlendMode (mode : String) : Option String :=
  if mode = "MULTIPLY" then some "multiply"
  else if mode = "SCREEN" then some "screen"
  else if mode = "OVERLAY" then some "overlay"
  else if mode = "DARKEN" then some "darken"
  else if mode = "LIGHTEN" then some "lighten"
  else if mode = "COLOR_DODGE" then some "color-dodge"
  else if mode = "COLOR_BURN" then some "color-burn"
  else if mode = "HARD_LIGHT" then some "hard-light"
  else if mode = "SOFT_LIGHT" then some "soft-light"
  else if mode = "DIFFERENCE" then some "difference"
  else if mode = "EXCLUSION" then some "exclusion"
  else if mode = "HUE" then some "hue"
  else if mode = "SATURATION" then some "saturation"
  else if mode = "COLOR" then some "color"
  else if mode = "LUMINOSITY" then some "luminosity"
  else none

/-- An object field that is present only when its value is. -/
def optField (k : String) (v : Option J) : List (String × J) :=
  match v with
  | some j => [(k, j)]
  | none => []

/-- Intern a color (or keep the literal when tokens are disabled):
`ctx.useTokens ? ctx.tokenExtractor.addColor(color) : color`. -/
def internColor (uT : Bool) (st : TokenExtractor) (color : String) :
    String × TokenExtractor :=
  if uT then st.addColor color else (color, st)

/-- The same switch for fonts. -/
def internFont (uT : Bool) (st : TokenExtractor) (family : String) :
    String × TokenExtractor :=
  if uT then st.addFont family else (family, st)

/-- The same switch for shadows. -/
def internShadow (uT : Bool) (st : TokenExtractor) (shadow : String) :
    String × TokenExtractor :=
  if uT then st.addShadow shadow else (shadow, st)

/-- Compose the gradient stop objects, interning each stop color in
order. -/
def gradientStopsJ (uT : Bool) (st : TokenExtractor)
    (stops : List GradientStop) : List J × TokenExtractor :=
  match stops with
  | [] => ([], st)
  | stop :: rest =>
    let color := rgbaToString stop.color.r stop.color.g stop.color.b stop.color.a
    let (c, st1) := internColor uT st color
    let (js, st2) := gradientStopsJ uT st1 rest
    (J.obj [("pos", J.num (roundTo2 stop.position)), ("color", J.str c)] :: js,
      st2)

/-- `extractBackground`: first visible fill; solid fills intern a hex or
rgba color, gradient fills compose a stop list plus optional angle, image
fills yield no background. -/
def extractBackground (jm : JsMath) (fills : Option (List Paint)) (uT : Bool)
    (st : TokenExtractor) : Option J × TokenExtractor :=
  match fills with
  | none => (none, st)
  | some fs =>
    if fs.length = 0 then (none, st)
    else
      match fs.find? (fun f => f.visible ≠ some false) with
      | none => (none, st)
      | some visibleFill =>
        if visibleFill.type = "SOLID" ∧ visibleFill.color.isSome then
          match visibleFill.color with
          | none => (none, st)
          | some c =>
            let opacity := visibleFill.opacity.getD 1
            let color := if opacity = 1 then rgbToHex c.r c.g c.b
              else rgbaToString c.r c.g c.b opacity
            let (tok, st1) := internColor uT st color
            (some (J.str tok), st1)
        else if (visibleFill.type = "GRADIENT_LINEAR" ∨
            visibleFill.type = "GRADIENT_RADIAL") ∧
            visibleFill.gradientStops.isSome then
          let stops := visibleFill.gradientStops.getD []
          let (stopsJ, st1) := gradientStopsJ uT st stops
          let angle : ℤ :=
            match visibleFill.gradientTransform with
            | some t => jm.atan2deg t.b t.a
            | none => 0
          (some (J.obj
            ([("type", J.str (if visibleFill.type = "GRADIENT_LINEAR"
                then "linear" else "radial"))] ++
              optField "angle" (if angle ≠ 0 then some (J.num (angle : ℚ))
                else none) ++
              [("stops", J.arr stopsJ)])), st1)
        else (none, st)

/-- The emitted border (`BorderStyle` in `src/types.ts`). -/
structure BorderStyle where
  w : ℚ
  c : String
  style : String
deriving DecidableEq

/-- `extractBorder`: first visible solid stroke with a truthy stroke
weight; the dash pattern selects solid/dashed/dotted. -/
def extractBorder (strokes : Option (List Paint)) (strokeWeight : Option ℚ)
    (dashPattern : Option (List ℚ)) (uT : Bool) (st : TokenExtractor) :
    Option BorderStyle × TokenExtractor :=
  match strokes with
  | none => (none, st)
  | some ss =>
    if ss.length = 0 ∨ ¬ truthyQ strokeWeight then (none, st)
    else
      match ss.find? (fun s => s.visible ≠ some false) with
      | none => (none, st)
      | some visibleStroke =>
        if visibleStroke.type = "SOLID" ∧ visibleStroke.color.isSome then
          match visibleStroke.color with
          | none => (none, st)
          | some c =>
          let color := rgbToHex c.r c.g c.b
          let style :=
            match dashPattern with
            | some dp =>
              if dp.length = 0 then "solid"
              else if dp.length = 2 ∧ dp.head? = dp.getLast? then "dashed"
              else if dp.any (fun d => d ≤ 2) then "dotted"
              else "dashed"
            | none => "solid"
          let (tok, st1) := internColor uT st color
          (some ⟨strokeWeight.getD 0, tok, style⟩, st1)
        else (none, st)

/-- Format one shadow effect as `[inset ]x y blur spread color`. -/
def shadowString (effect : Effect) : String :=
  let x := (effect.offset.map Prod.fst).getD 0
  let y := (effect.offset.map Prod.snd).getD 0
  let blur := effect.radius.getD 0
  let spread := effect.spread.getD 0
  let color :=
    match effect.color with
    | some c => rgbaToString c.r c.g c.b c.a
    | none => "rgba(0,0,0,0.1)"
  let inset := if effect.type = "INNER_SHADOW" then "inset " else ""
  inset ++ jsNumRepr x ++ "px " ++ jsNumRepr y ++ "px " ++ jsNumRepr blur ++
    "px " ++ jsNumRepr spread ++ "px " ++ color

/-- `extractShadow`: all visible drop/inner shadows, joined with `, `,
interned as one shadow token. -/
def extractShadow (effects : Option (List Effect)) (uT : Bool)
    (st : TokenExtractor) : Option String × TokenExtractor :=
  match effects with
  | none => (none, st)
  | some es =>
    if es.length = 0 then (none, st)
    else
      let shadowEffects := es.filter (fun e =>
        (e.type = "DROP_SHADOW" ∨ e.type = "INNER_SHADOW") ∧
          e.visible ≠ some false)
      if shadowEffects.length = 0 then (none, st)
      else
        let shadowValue := String.intercalate ", "
          (shadowEffects.map shadowString)
        let (tok, st1) := internShadow uT st shadowValue
        (some tok, st1)

/-- A collapsed one-or-four-values field (padding or radius). -/
inductive NumQuad where
  | one : ℚ → NumQuad
  | four : ℚ → ℚ → ℚ → ℚ → NumQuad
deriving DecidableEq

/-- Render a `NumQuad` to JSON. -/
def NumQuad.toJ : NumQuad → J
  | .one q => J.num q
  | .four a b c d => J.arr [J.num a, J.num b, J.num c, J.num d]

/-- `extractRadius`: uniform positive radius, else the four corners
clockwise from top-left, all-zero omitted. -/
def extractRadius (raw : RawNodeData) : Option NumQuad :=
  match raw.f.cornerRadius with
  | some r =>
    if r > 0 then some (.one r) else extractRadiusCorners raw
  | none => extractRadiusCorners raw
where
  /-- The four-corner branch of `extractRadius`. -/
  extractRadiusCorners (raw : RawNodeData) : Option NumQuad :=
    if raw.f.topLeftRadius.isSome ∨ raw.f.topRightRadius.isSome ∨
        raw.f.bottomRightRadius.isSome ∨ raw.f.bottomLeftRadius.isSome then
      let tl := raw.f.topLeftRadius.getD 0
      let tr := raw.f.topRightRadius.getD 0
      let br := raw.f.bottomRightRadius.getD 0
      let bl := raw.f.bottomLeftRadius.getD 0
      if tl = tr ∧ tr = br ∧ br = bl then
        if tl > 0 then some (.one tl) else none
      else if tl > 0 ∨ tr > 0 ∨ br > 0 ∨ bl > 0 then
        some (.four tl tr br bl)
      else none
    else none

/-- `extractPadding`: all four sides absent yields nothing; all-zero
yields nothing; uniform collapses to one number; else the 4-tuple in
`[top, right, bottom, left]` order. -/
def extractPadding (raw : RawNodeData) : Option NumQuad :=
  if raw.f.paddingTop = none ∧ raw.f.paddingRight = none ∧
      raw.f.paddingBottom = none ∧ raw.f.paddingLeft = none then none
  else
    let t := raw.f.paddingTop.getD 0
    let r := raw.f.paddingRight.getD 0
    let b := raw.f.paddingBottom.getD 0
    let l := raw.f.paddingLeft.getD 0
    if t = 0 ∧ r = 0 ∧ b = 0 ∧ l = 0 then none
    else if t = r ∧ r = b ∧ b = l then some (.one t)
    else some (.four t r b l)

/-- A width/height value: symbolic `hug` or a rounded pixel count. -/
inductive Dim where
  | hug : Dim
  | px : ℤ → Dim
deriving DecidableEq

/-- Render a `Dim` to JSON. -/
def Dim.toJ : Dim → J
  | .hug => J.str "hug"
  | .px n => J.num (n : ℚ)

/-- `extractWidth`: `hug` when the width axis auto-sizes under a declared
layout mode, else the rounded width. -/
def extractWidth (raw : RawNodeData) : Dim :=
  if raw.f.layoutMode.isSome then
    let isHorizontal := raw.f.layoutMode = some "HORIZONTAL"
    let sizingMode := if isHorizontal then raw.f.primaryAxisSizingMode
      else raw.f.counterAxisSizingMode
    if sizingMode = some "AUTO" then .hug else .px (jsRound raw.f.width)
  else .px (jsRound raw.f.width)

/-- `extractHeight`: `hug` when the height axis auto-sizes under a
declared layout mode, else the rounded height. -/
def extractHeight (raw : RawNodeData) : Dim :=
  if raw.f.layoutMode.isSome then
    let isHorizontal := raw.f.layoutMode = some "HORIZONTAL"
    let sizingMode := if isHorizontal then raw.f.counterAxisSizingMode
      else raw.f.primaryAxisSizingMode
    if sizingMode = some "AUTO" then .hug else .px (jsRound raw.f.height)
  else .px (jsRound raw.f.height)

/-- The solid text-color field: the first visible solid fill's color,
interned (the identical block of `transformTextNode` and
`transformSegment`). -/
def solidColorFields (uT : Bool) (fills : Option (List Paint))
    (st : TokenExtractor) : List (String × J) × TokenExtractor :=
  if fills.isSome ∧ (fills.getD []).length > 0 then
    match (fills.getD []).find? (fun f =>
      f.visible ≠ some false ∧ f.type = "SOLID") with
    | some fill =>
      match fill.color with
      | some c =>
        let (tok, st') := internColor uT st (rgbToHex c.r c.g c.b)
        ([("color", J.str tok)], st')
      | none => ([], st)
    | none => ([], st)
  else ([], st)

/-- A segment's `underline`/`strikethrough` flag. -/
def segDecorFields (seg : TextSegment) : List (String × J) :=
  if seg.textDecoration = some "UNDERLINE" then [("underline", J.b true)]
  else if seg.textDecoration = some "STRIKETHROUGH" then
    [("strikethrough", J.b true)]
  else []

/-- A segment's hyperlink field. -/
def segLinkFields (seg : TextSegment) : List (String × J) :=
  match seg.hyperlink with
  | some hl => if hl.value ≠ "" then [("link", J.str hl.value)] else []
  | none => []

/-- One rich-text segment's output object, interning font and color. -/
def transformSegment (uT : Bool) (st : TokenExtractor) (seg : TextSegment) :
    J × TokenExtractor :=
  let textField := [("text", J.str seg.characters)]
  let (fontFields, st1) :=
    match seg.fontName with
    | some fn =>
      if fn.family ≠ "" then
        let (tok, st') := internFont uT st fn.family
        let italic := if fn.style ≠ "" ∧ jsIncludes (jsToLower fn.style) "italic"
          then [("italic", J.b true)] else []
        ([("font", J.str tok)] ++ italic, st')
      else ([], st)
    | none => ([], st)
  let sizeFields := if truthyQ seg.fontSize
    then [("size", J.num (seg.fontSize.getD 0))] else []
  let weightFields := if truthyQ seg.fontWeight
    then [("weight", J.num (seg.fontWeight.getD 0))] else []
  let (colorFields, st2) := solidColorFields uT seg.fills st1
  (J.obj (textField ++ fontFields ++ sizeFields ++ weightFields ++
    colorFields ++ segDecorFields seg ++ segLinkFields seg), st2)

/-- Transform all rich-text segments in order. -/
def transformSegments (uT : Bool) (st : TokenExtractor)
    (segs : List TextSegment) : List J × TokenExtractor :=
  match segs with
  | [] => ([], st)
  | seg :: rest =>
    let (j, st1) := transformSegment uT st seg
    let (js, st2) := transformSegments uT st1 rest
    (j :: js, st2)

/-- The text node's `lineH` field. -/
def textLineHFields (raw : RawNodeData) : List (String × J) :=
  match raw.f.lineHeight with
  | some lh =>
    if lh.unit = "PIXELS" then [("lineH", J.num lh.value)]
    else if lh.unit = "PERCENT" then
      [("lineH", J.num ((jsRound lh.value : ℚ) / 100))]
    else []
  | none => []

/-- The text node's `letterS` field. -/
def textLetterSFields (raw : RawNodeData) : List (String × J) :=
  match raw.f.letterSpacing with
  | some ls =>
    if ls.value ≠ 0 then
      if ls.unit = "PIXELS" then [("letterS", J.num ls.value)]
      else if ls.unit = "PERCENT" ∧ truthyQ raw.f.fontSize then
        [("letterS", J.num (ls.value / 100 * raw.f.fontSize.getD 0))]
      else []
    else []
  | none => []

/-- The text node's `textAlign` field. -/
def textAlignFields (raw : RawNodeData) : List (String × J) :=
  match raw.f.textAlignHorizontal with
  | some ta =>
    if ta ≠ "LEFT" then
      if ta = "CENTER" then [("textAlign", J.str "center")]
      else if ta = "RIGHT" then [("textAlign", J.str "right")]
      else if ta = "JUSTIFIED" then [("textAlign", J.str "justify")]
      else []
    else []
  | none => []

/-- The text node's `textDecor` field. -/
def textDecorFields (raw : RawNodeData) : List (String × J) :=
  match raw.f.textDecoration with
  | some td =>
    if td ≠ "NONE" then
      if td = "UNDERLINE" then [("textDecor", J.str "underline")]
      else if td = "STRIKETHROUGH" then [("textDecor", J.str "line-through")]
      else []
    else []
  | none => []

/-- The text node's `textTransform` field. -/
def textTransformFields (raw : RawNodeData) : List (String × J) :=
  match raw.f.textCase with
  | some tc =>
    if tc ≠ "ORIGINAL" then
      if tc = "UPPER" then [("textTransform", J.str "uppercase")]
      else if tc = "LOWER" then [("textTransform", J.str "lowercase")]
      else if tc = "TITLE" then [("textTransform", J.str "capitalize")]
      else []
    else []
  | none => []

/-- The text node's `truncate` field. -/
def textTruncateFields (raw : RawNodeData) : List (String × J) :=
  if raw.f.textTruncation = some "ENDING" then
    if truthyQ raw.f.maxLines ∧ raw.f.maxLines.getD 0 > 1 then
      [("truncate", J.num (raw.f.maxLines.getD 0))]
    else [("truncate", J.b true)]
  else []

/-- The text node's `paragraphSpacing` field. -/
def textParagraphFields (raw : RawNodeData) : List (String × J) :=
  if truthyQ raw.f.paragraphSpacing ∧ raw.f.paragraphSpacing.getD 0 > 0 then
    [("paragraphSpacing", J.num (raw.f.paragraphSpacing.getD 0))]
  else []

/-- The text node's `autoResize` field. -/
def textAutoResizeFields (raw : RawNodeData) : List (String × J) :=
  match raw.f.textAutoResize with
  | some ar =>
    if ar ≠ "NONE" then
      if ar = "HEIGHT" then [("autoResize", J.str "height")]
      else if ar = "WIDTH_AND_HEIGHT" then
        [("autoResize", J.str "width-height")]
      else if ar = "TRUNCATE" then [("autoResize", J.str "height")]
      else []
    else []
  | none => []

/-- `transformTextNode`: the text-variant output node. -/
def transformTextNode (uT : Bool) (raw : RawNodeData) (st : TokenExtractor) :
    J × TokenExtractor :=
  let typeFields := [("type", J.str "text"),
    ("content", J.str (raw.f.characters.getD ""))]
  let nameFields := if raw.f.name ≠ "" then [("name", J.str raw.f.name)] else []
  let (fontFields, st1) :=
    match raw.f.fontName with
    | some fn =>
      let (tok, st') := internFont uT st fn.family
      ([("font", J.str tok)], st')
    | none => ([], st)
  let sizeFields := if truthyQ raw.f.fontSize
    then [("size", J.num (raw.f.fontSize.getD 0))] else []
  let weightFields := if truthyQ raw.f.fontWeight
    then [("weight", J.num (raw.f.fontWeight.getD 0))] else []
  let (colorFields, st2) := solidColorFields uT raw.f.fills st1
  let (richTextFields, st3) :=
    match raw.f.styledTextSegments with
    | some segs =>
      if segs.length > 1 then
        let (js, st') := transformSegments uT st2 segs
        ([("richText", J.arr js)], st')
      else ([], st2)
    | none => ([], st2)
  (J.obj (typeFields ++ nameFields ++ fontFields ++ sizeFields ++
    weightFields ++ colorFields ++ textLineHFields raw ++
    textLetterSFields raw ++ textAlignFields raw ++ textDecorFields raw ++
    textTransformFields raw ++ textTruncateFields raw ++
    textParagraphFields raw ++ textAutoResizeFields raw ++ richTextFields),
    st3)

/-- `transformImageNode`: the image-variant output node (interns
nothing). -/
def transformImageNode (jm : JsMath) (raw : RawNodeData) : J :=
  let typeFields := [("type", J.str "img")]
  let nameFields := if raw.f.name ≠ "" then
    [("name", J.str raw.f.name), ("alt", J.str raw.f.name)] else []
  let whFields := [("w", (extractWidth raw).toJ), ("h", (extractHeight raw).toJ)]
  let radiusFields := optField "radius" ((extractRadius raw).map NumQuad.toJ)
  let fitFields :=
    match (raw.f.fills.getD []).find? (fun f => f.type = "IMAGE") with
    | some imageFill =>
      if imageFill.scaleMode = some "FILL" then [("fit", J.str "cover")]
      else if imageFill.scaleMode = some "FIT" then [("fit", J.str "contain")]
      else if imageFill.scaleMode = some "STRETCH" then [("fit", J.str "fill")]
      else []
    | none => []
  let imageRefFields :=
    match raw.f.imageRef with
    | some ir => if ir ≠ "" then [("imageRef", J.str ir)] else []
    | none => []
  let nodeIdFields := [("nodeId", J.str raw.f.id)]
  let originalSizeFields := [("originalSize", J.obj
    [("w", J.num (jsRound raw.f.width : ℚ)),
     ("h", J.num (jsRound raw.f.height : ℚ))])]
  let cropFields :=
    match raw.f.imageTransform with
    | some t =>
      let scaleX := jm.sqrt (t.a * t.a + t.c * t.c)
      let scaleY := jm.sqrt (t.b * t.b + t.d * t.d)
      if scaleX ≠ 1 ∨ scaleY ≠ 1 ∨ t.tx ≠ 0 ∨ t.ty ≠ 0 then
        let cropX := -t.tx / scaleX
        let cropY := -t.ty / scaleY
        let cropW := 1 / scaleX
        let cropH := 1 / scaleY
        if cropX > 1 / 100 ∨ cropY > 1 / 100 ∨ cropW < 99 / 100 ∨
            cropH < 99 / 100 then
          [("cropRect", J.obj
            [("x", J.num (roundTo2 cropX)), ("y", J.num (roundTo2 cropY)),
             ("w", J.num (roundTo2 cropW)), ("h", J.num (roundTo2 cropH))])]
        else []
      else []
    | none => []
  J.obj (typeFields ++ nameFields ++ whFields ++ radiusFields ++ fitFields ++
    imageRefFields ++ nodeIdFields ++ originalSizeFields ++ cropFields)

/-- Size bound used for the recursion of `transformNode`: a node's child
list is smaller than the node itself. -/
theorem sizeOf_children_lt (raw : RawNodeData) (cs : List RawNodeData)
    (h : raw.f.children = some cs) : sizeOf cs < sizeOf raw := by
  cases raw with
  | mk d =>
    simp only [RawNodeData.f] at h
    cases d
    simp_all only [RawNodeData.mk.sizeOf_spec, RawNodeF.mk.sizeOf_spec]
    subst h
    simp only [Option.some.sizeOf_spec]
    omega

/-- The `type` field of a frame-family node. -/
def frameTypeFields (raw : RawNodeData) : List (String × J) :=
  [("type", J.str (mapNodeType raw.f.type))]

/-- The `name` field (present when the raw name is truthy). -/
def frameNameFields (raw : RawNodeData) : List (String × J) :=
  if raw.f.name ≠ "" then [("name", J.str raw.f.name)] else []

/-- The auto-layout block: `layout`, `gap`, `p`, `justify`, `align`,
`wrap`, attached only under a declared non-`NONE` layout mode. -/
def frameLayoutFields (raw : RawNodeData) : List (String × J) :=
  if raw.f.layoutMode.isSome ∧ raw.f.layoutMode ≠ some "NONE" then
    [("layout", J.str (if raw.f.layoutMode = some "HORIZONTAL" then "row"
      else "col"))] ++
    (if truthyQ raw.f.itemSpacing ∧ raw.f.itemSpacing.getD 0 > 0 then
      [("gap", J.num (raw.f.itemSpacing.getD 0))] else []) ++
    optField "p" ((extractPadding raw).map NumQuad.toJ) ++
    (match mapJustify raw.f.primaryAxisAlignItems with
     | some j => if j ≠ "start" then [("justify", J.str j)] else []
     | none => []) ++
    (match mapAlign raw.f.counterAxisAlignItems with
     | some a => if a ≠ "start" then [("align", J.str a)] else []
     | none => []) ++
    (if raw.f.layoutWrap = some "WRAP" then [("wrap", J.b true)] else [])
  else []

/-- The always-present `w` and `h` fields. -/
def frameWhFields (raw : RawNodeData) : List (String × J) :=
  [("w", (extractWidth raw).toJ), ("h", (extractHeight raw).toJ)]

/-- The absolute-positioning block: `pos`, `x`, `y`. -/
def framePosFields (raw : RawNodeData) : List (String × J) :=
  if raw.f.layoutPositioning = some "ABSOLUTE" then
    [("pos", J.str "abs"), ("x", J.num (jsRound raw.f.x : ℚ)),
     ("y", J.num (jsRound raw.f.y : ℚ))]
  else []

/-- The `constraints` field, omitted at the `left`/`top` defaults. -/
def frameConstraintsFields (raw : RawNodeData) : List (String × J) :=
  match raw.f.constraints with
  | some c =>
    let ch := mapConstraintH c.horizontal
    let cv := mapConstraintV c.vertical
    if ch ≠ "left" ∨ cv ≠ "top" then
      [("constraints", J.obj [("h", J.str ch), ("v", J.str cv)])]
    else []
  | none => []

/-- The `opacity` field (only below 1, rounded to two decimals). -/
def frameOpacityFields (raw : RawNodeData) : List (String × J) :=
  match raw.f.opacity with
  | some o => if o < 1 then [("opacity", J.num (roundTo2 o))] else []
  | none => []

/-- The `radius` field. -/
def frameRadiusFields (raw : RawNodeData) : List (String × J) :=
  optField "radius" ((extractRadius raw).map NumQuad.toJ)

/-- The `border` field rendered from an extracted border. -/
def borderFieldsJ (border : Option BorderStyle) : List (String × J) :=
  match border with
  | some bd => [("border", J.obj [("w", J.num bd.w), ("c", J.str bd.c),
      ("style", J.str bd.style)])]
  | none => []

/-- The `blur` field (first visible background-blur effect). -/
def frameBlurFields (raw : RawNodeData) : List (String × J) :=
  match (raw.f.effects.getD []).find? (fun e =>
    e.type = "BACKGROUND_BLUR" ∧ e.visible ≠ some false) with
  | some e => if truthyQ e.radius then [("blur", J.num (e.radius.getD 0))]
      else []
  | none => []

/-- The `backdropBlur` field (first visible layer-blur effect). -/
def frameBackdropFields (raw : RawNodeData) : List (String × J) :=
  match (raw.f.effects.getD []).find? (fun e =>
    e.type = "LAYER_BLUR" ∧ e.visible ≠ some false) with
  | some e => if truthyQ e.radius then
      [("backdropBlur", J.num (e.radius.getD 0))] else []
  | none => []

/-- The `blendMode` field. -/
def frameBlendFields (raw : RawNodeData) : List (String × J) :=
  match raw.f.blendMode with
  | some m =>
    (match mapBlendMode m with
     | some mm => [("blendMode", J.str mm)]
     | none => [])
  | none => []

/-- The `rotate` field. -/
def frameRotateFields (raw : RawNodeData) : List (String × J) :=
  if truthyQ raw.f.rotation then
    [("rotate", J.num (roundTo2 (raw.f.rotation.getD 0)))]
  else []

/-- The aspect-ratio field, for near-common width/height ratios. -/
def frameAspectFields (raw : RawNodeData) : List (String × J) :=
  if raw.f.width ≠ 0 ∧ raw.f.height ≠ 0 ∧ raw.f.width ≠ raw.f.height then
    let ratio := raw.f.width / raw.f.height
    if |ratio - roundTo2 ratio| < 1 / 100 then
      if ([16 / 9, 4 / 3, 3 / 2, 1 / 1, 9 / 16, 3 / 4, 2 / 3] : List ℚ).any
          (fun r => |ratio - r| < 1 / 20) then
        [("aspectRatio", J.num (roundTo2 ratio))]
      else []
    else []
  else []

/-- The `zIndex` field for absolutely positioned nodes. -/
def frameZFields (raw : RawNodeData) : List (String × J) :=
  if raw.f.layoutPositioning = some "ABSOLUTE" ∧ raw.f.orderIndex.isSome
  then [("zIndex", J.num (raw.f.orderIndex.getD 0 + 1))]
  else []

/-- The z-order hint block: `order`, `isFirst`, `isLast`, only with more
than one sibling. -/
def frameOrderFields (raw : RawNodeData) : List (String × J) :=
  match raw.f.orderIndex, raw.f.siblingCount with
  | some oi, some sc =>
    if sc > 1 then
      [("order", J.num oi)] ++
      (if oi = 0 then [("isFirst", J.b true)] else []) ++
      (if oi = sc - 1 then [("isLast", J.b true)] else [])
    else []
  | _, _ => []

/-- The `responsive` annotation block. -/
def frameResponsiveFields (raw : RawNodeData) : List (String × J) :=
  match analyzeResponsive raw raw.f.parentLayoutMode with
  | some info => [("responsive", J.obj (
      optField "breakpoint" (info.breakpoint.map J.str) ++
      optField "fluid" (info.fluid.map J.b) ++
      optField "grow" (info.grow.map J.num) ++
      optField "shrink" (info.shrink.map J.num)))]
  | none => []

/-- The `devInfo` block (description, notes, plugin data). -/
def frameDevFields (raw : RawNodeData) : List (String × J) :=
  let d1 :=
    match raw.f.description with
    | some s => if s ≠ "" then [("description", J.str s)] else []
    | none => []
  let d2 :=
    match raw.f.devNotes with
    | some s => if s ≠ "" then [("notes", J.str s)] else []
    | none => []
  let d3 :=
    match raw.f.pluginData with
    | some kvs => if kvs.length > 0 then
        [("pluginData", J.obj (kvs.map (fun p => (p.1, J.str p.2))))]
      else []
    | none => []
  let devInfo : List (String × J) := d1 ++ d2 ++ d3
  if devInfo.length > 0 then [("devInfo", J.obj devInfo)] else []

/-- The `overflow` field for content-clipping nodes. -/
def frameOverflowFields (raw : RawNodeData) : List (String × J) :=
  if raw.f.clipsContent = some true then [("overflow", J.str "hidden")]
  else []

/-- The instance block: `componentName`, `variantProps`,
`componentDesc`. -/
def frameInstanceFields (raw : RawNodeData) : List (String × J) :=
  if raw.f.type = "INSTANCE" then
    match raw.f.mainComponent with
    | some mc =>
      [("componentName", J.str mc.name)] ++
      (match mc.variantProperties with
       | some vp => if vp.length > 0 then
           [("variantProps", J.obj (vp.map (fun p => (p.1, J.str p.2))))]
         else []
       | none => []) ++
      (match mc.description with
       | some ds => if ds ≠ "" then [("componentDesc", J.str ds)] else []
       | none => [])
    | none => []
  else []

/-- The `semantic` annotation block. -/
def frameSemanticFields (raw : RawNodeData) : List (String × J) :=
  match analyzeSemantics raw with
  | some sa => [("semantic", J.obj (
      optField "role" (sa.role.map J.str) ++
      optField "interactive" (sa.interactive.map J.b) ++
      optField "state" (sa.state.map J.str)))]
  | none => []

/-- One prototype interaction object. -/
def interactionJ (r : Reaction) : J :=
  J.obj ([("trigger", J.str (mapTrigger r.trigger)),
          ("action", J.str (mapAction r.action))] ++
    (match r.destinationName with
     | some dn => if dn ≠ "" then [("dest", J.str dn)] else []
     | none => []) ++
    (match r.url with
     | some u => if u ≠ "" then [("url", J.str u)] else []
     | none => []) ++
    (match r.transition with
     | some tr => if tr ≠ "" then [("transition", J.str (jsToLower tr))]
       else []
     | none => []))

/-- The `interactions` list. -/
def frameInteractionFields (raw : RawNodeData) : List (String × J) :=
  match raw.f.reactions with
  | some rs =>
    if rs.length > 0 then
      [("interactions", J.arr (rs.map interactionJ))]
    else []
  | none => []

/-- The `patternInfo` annotation block. -/
def framePatternFields (raw : RawNodeData) : List (String × J) :=
  match detectPattern raw with
  | some pi =>
    [("patternInfo", J.obj ([("pattern", J.str pi.pattern)] ++
      optField "itemCount" (pi.itemCount.map J.num) ++
      optField "columns" (pi.columns.map J.num) ++
      optField "rows" (pi.rows.map J.num)))]
  | none => []

/-- The non-recursive part of `transformNode`'s general (frame-family)
path: the output fields that precede the `ch` field (first component) and
those that follow it (second component), with the registry state after
the background/border/shadow interning (third component).  Field order
and interning order both follow the source's statement order. -/
def frameParts (jm : JsMath) (uT : Bool) (raw : RawNodeData)
    (st : TokenExtractor) :
    List (String × J) × List (String × J) × TokenExtractor :=
  let (bg, st1) := extractBackground jm raw.f.fills uT st
  let (border, st2) := extractBorder raw.f.strokes raw.f.strokeWeight
    raw.f.dashPattern uT st1
  let (shadow, st3) := extractShadow raw.f.effects uT st2
  (frameTypeFields raw ++ frameNameFields raw ++ frameLayoutFields raw ++
    frameWhFields raw ++ framePosFields raw ++ frameConstraintsFields raw ++
    optField "bg" bg ++ frameOpacityFields raw ++ frameRadiusFields raw ++
    borderFieldsJ border ++ optField "shadow" (shadow.map J.str) ++
    frameBlurFields raw ++ frameBackdropFields raw ++ frameBlendFields raw ++
    frameRotateFields raw ++ frameAspectFields raw ++ frameZFields raw ++
    frameOrderFields raw ++ frameResponsiveFields raw ++ frameDevFields raw ++
    frameOverflowFields raw,
   frameInstanceFields raw ++ frameSemanticFields raw ++
     frameInteractionFields raw ++ framePatternFields raw,
   st3)

mutual

/-- `transformNode` (`src/transformer.ts`): image fills win, then text
nodes, then the general (frame-family) path, whose non-`ch` fields are
computed by `frameParts` and whose children are transformed in order
between them (matching the source's statement order). -/
def transformNode (jm : JsMath) (uT : Bool) (raw : RawNodeData)
    (st : TokenExtractor) : J × TokenExtractor :=
  let hasImageFill := (raw.f.fills.getD []).any (fun f => f.type = "IMAGE")
  if hasImageFill then (transformImageNode jm raw, st)
  else if raw.f.type = "TEXT" then transformTextNode uT raw st
  else
    let parts := frameParts jm uT raw st
    let (chFields, st2) :=
      match h : raw.f.children with
      | some cs =>
        if cs.length > 0 then
          let (js, st1) := transformChildren jm uT cs parts.2.2
          ([("ch", J.arr js)], st1)
        else ([], parts.2.2)
      | none => ([], parts.2.2)
    (J.obj (parts.1 ++ chFields ++ parts.2.1), st2)
termination_by sizeOf raw
decreasing_by
  exact sizeOf_children_lt raw cs h

/-- Transform a child list left to right, threading the registry. -/
def transformChildren (jm : JsMath) (uT : Bool) (cs : List RawNodeData)
    (st : TokenExtractor) : List J × TokenExtractor :=
  match cs with
  | [] => ([], st)
  | c :: rest =>
    let (j, st1) := transformNode jm uT c st
    let (js, st2) := transformChildren jm uT rest st1
    (j :: js, st2)
termination_by sizeOf cs
decreasing_by
  · simp only [List.cons.sizeOf_spec]
    omega
  · simp only [List.cons.sizeOf_spec]
    omega

end

/-- `transformTree` (`src/transformer.ts`): transform from a fresh
registry and drain it once. -/
def transformTree (jm : JsMath) (raw : RawNodeData) (useTokens : Bool) :
    J × DesignTokens :=
  let (tree, st) := transformNode jm useTokens raw TokenExtractor.empty
  (tree, st.getTokens)

/-- `ExportOptions` (`src/types.ts`). -/
structure ExportOptions where
  includeChildren : Bool
  extractTokens : Bool
  optimizeSize : Bool
  maxDepth : ℚ
deriving DecidableEq

/-- `DEFAULT_OPTIONS` (`src/code.ts`). -/
def DEFAULT_OPTIONS : ExportOptions := ⟨true, true, true, 50⟩

/-- The constant `_meta` documentation object embedded in every export
envelope (`src/code.ts`), transcribed verbatim. -/
def META : List (String × String) :=
  [("format",
    "Figma to AI JSON - Universal format for LLMs to generate UI code in any framework/styling system. This format describes UI components with layout, styling, and semantic information."),
   ("types",
    "frame=div/section/container,text=p/span/h1-h6,img=img/Image,rect=div with bg,ellipse=rounded-full div,vector=svg,group=fragment/div,instance=reusable component"),
   ("keys",
    "Short keys: t=type,n=name,l=layout,g=gap,j=justify,al=align,wr=wrap,ps=pos,cn=constraints,o=opacity,r=radius,bd=border,sh=shadow,bl=blur,bbl=backdropBlur,bm=blendMode,rt=rotate,ar=aspectRatio,z=zIndex,ord=order,iF=isFirst,iL=isLast,rs=responsive,di=devInfo,vs=visible,of=overflow,sm=semantic,ia=interactions,pi=patternInfo,c=content,f=font,s=size,wt=weight,cl=color,lh=lineH,ls=letterS,ta=textAlign,td=textDecor,tt=textTransform,tr=truncate,psp=paragraphSpacing,ars=autoResize,rT=richText,ft=fit,iR=imageRef,oS=originalSize,cR=cropRect,nId=nodeId"),
   ("base",
    "w=width,h=height,minW/maxW=min/max-width,minH/maxH=min/max-height,p=padding(number|[t,r,b,l]),gap=gap,layout=row|col(flex-direction),justify=start|center|end|between(justify-content),align=start|center|end|stretch(align-items),wrap=flex-wrap,pos=abs|rel(position),x/y=left/top,bg=background-color,opacity=opacity,radius=border-radius,shadow=box-shadow,blur=backdrop-filter blur,overflow=overflow,ch=children array,backdropBlur=backdrop-blur,blendMode=mix-blend-mode,rotate=transform rotate,aspectRatio=aspect-ratio,zIndex=z-index,order=order,isFirst/isLast=:first/:last-child hints"),
   ("text",
    "content=text content,font=font-family,size=font-size(px),weight=font-weight(400-700),color=text-color,lineH=line-height,letterS=letter-spacing,textAlign=text-align,textDecor=text-decoration,textTransform=text-transform,truncate=text-overflow ellipsis,paragraphSpacing=margin-bottom for paragraphs,autoResize=text box behavior,richText=mixed styles array"),
   ("image",
    "src=placeholder(use imageRef for export),fit=object-fit,alt=alt text,imageRef=Figma image hash for export API,nodeId=Figma node ID for export,originalSize=\x7bw,h\x7d=original dimensions,cropRect=\x7bx,y,w,h\x7d=crop area in 0-1 range"),
   ("border",
    "border=\x7bw=border-width,c=border-color,style=solid|dashed|dotted\x7d"),
   ("tokens",
    "$cN=tokens.colors.cN(color reference),$fN=tokens.fonts.fN(font reference),$sN=tokens.shadows.sN(shadow reference)"),
   ("values",
    "fill=w-full/flex-1,hug=w-fit/h-fit,number without unit=pixels"),
   ("semantic",
    "semantic.role=HTML element hint(button/input/card/nav/header/footer/modal/badge/avatar/icon/link/list/listItem),semantic.interactive=needs onClick/onHover,semantic.state=component variant(default/hover/active/disabled/focus/selected)"),
   ("interactions",
    "interactions=[\x7btrigger,action,dest,url\x7d] - prototype links for navigation logic,trigger=click|hover|press,action=navigate|overlay|url,dest=target page/component,url=external link"),
   ("patterns",
    "patternInfo.pattern=UI pattern type for component choice,grid=CSS Grid/flex-wrap,list=map() with items,carousel=horizontal scroll/swiper,tabs=tab component,form=form with inputs,itemCount/columns/rows=layout hints"),
   ("responsive",
    "responsive.breakpoint=target screen size(mobile/tablet/desktop),responsive.fluid=w-full needed,responsive.grow=flex-grow,responsive.shrink=flex-shrink"),
   ("devInfo",
    "di.notes=designer notes from layer name [note: ...],di.description=component description from Figma,di.pluginData=data from other Figma plugins"),
   ("css",
    "CSS property mapping: l:row→display:flex;flex-direction:row,l:col→display:flex;flex-direction:column,j:center→justify-content:center,al:center→align-items:center,g:16→gap:16px,p:16→padding:16px,r:8→border-radius:8px,o:0.5→opacity:0.5,ps:abs→position:absolute"),
   ("html",
    "HTML element mapping: t:frame→<div>,t:text→<p>/<span>/<h1-h6>,t:img→<img>,t:rect→<div>,t:ellipse→<div>,t:vector→<svg>,sm.role:button→<button>,sm.role:link→<a>,sm.role:nav→<nav>,sm.role:header→<header>,sm.role:footer→<footer>")]

/-- The export envelope (`ExportResult` in `src/types.ts`): version,
`_meta`, document name, token dictionary, output tree. -/
structure ExportResult where
  v : String
  meta : List (String × String)
  name : String
  tokens : DesignTokens
  tree : J

/-- One entry of `figma.currentPage.selection`, restricted to the two
fields the export path reads. -/
structure SceneSel where
  name : String
  type : String

/-- `exportSelection` (`src/code.ts`): `null` on an empty selection or a
failed parse, else the envelope built from the transformed tree.  The
`rawData` argument stands for the awaited result of the external
extraction collaborator (`parseNode`) on the first selected node. -/
def exportSelection (jm : JsMath) (options : ExportOptions)
    (selection : List SceneSel) (rawData : Option RawNodeData) :
    Option ExportResult :=
  match selection with
  | [] => none
  | node :: _ =>
    match rawData with
    | none => none
    | some raw =>
      let (tree, tokens) := transformTree jm raw options.extractTokens
      some ⟨"1.0", META, node.name,
        (if options.extractTokens then optimizeTokens tokens
         else ⟨[], [], []⟩),
        tree⟩

/-- A message sent back to the plugin UI (the subset relevant to the
export flow of `figma.ui.onmessage`). -/
inductive UIMessage where
  | exportMsg : ExportResult → UIMessage
  | error : String → UIMessage

/-- The `export` branch of `figma.ui.onmessage`: a `null` result becomes
one human-readable error message, anything else an export message. -/
def handleExportMessage (jm : JsMath) (options : ExportOptions)
    (selection : List SceneSel) (rawData : Option RawNodeData) : UIMessage :=
  match exportSelection jm options selection rawData with
  | none => UIMessage.error "Please select a frame or component to export."
  | some result => UIMessage.exportMsg result

/-!
## Key maps and the short/long key transforms (the `shortkeys` module)
-/

/-- `KEY_MAP`: long output keys to their short forms, in source order. -/
def KEY_MAP : List (String × String) :=
  [("type", "t"), ("name", "n"), ("layout", "l"), ("gap", "g"),
   ("justify", "j"), ("align", "al"), ("wrap", "wr"), ("pos", "ps"),
   ("constraints", "cn"), ("opacity", "o"), ("radius", "r"),
   ("border", "bd"), ("shadow", "sh"), ("blur", "bl"),
   ("backdropBlur", "bbl"), ("blendMode", "bm"), ("rotate", "rt"),
   ("aspectRatio", "ar"), ("zIndex", "z"), ("order", "ord"),
   ("isFirst", "iF"), ("isLast", "iL"), ("responsive", "rs"),
   ("devInfo", "di"), ("visible", "vs"), ("overflow", "of"),
   ("semantic", "sm"), ("interactions", "ia"), ("patternInfo", "pi"),
   ("content", "c"), ("font", "f"), ("size", "s"), ("weight", "wt"),
   ("color", "cl"), ("lineH", "lh"), ("letterS", "ls"),
   ("textAlign", "ta"), ("textDecor", "td"), ("textTransform", "tt"),
   ("truncate", "tr"), ("paragraphSpacing", "psp"), ("autoResize", "ars"),
   ("richText", "rT"), ("fit", "ft"), ("imageRef", "iR"),
   ("originalSize", "oS"), ("cropRect", "cR"), ("nodeId", "nId")]

/-- `REVERSE_KEY_MAP`: the inverted entries (`Object.fromEntries` keeps
the last entry per key; `KEY_MAP`'s values are pairwise distinct, so the
association list below denotes the same map). -/
def REVERSE_KEY_MAP : List (String × String) :=
  KEY_MAP.map (fun p => (p.2, p.1))

/-- `KEY_MAP[key] ?? key`. -/
def mapShortKey (k : String) : String := (KEY_MAP.lookup k).getD k

/-- `REVERSE_KEY_MAP[key] ?? key`. -/
def mapLongKey (k : String) : String := (REVERSE_KEY_MAP.lookup k).getD k

mutual

/-- `transformToShortKeys`: rename every object key through `KEY_MAP`,
recursing into object and array values; other values (including `null`,
which the source tests for explicitly) are copied.  The source is only
ever applied to objects and arrays; on other top-level values this
embedding is the identity. -/
def transformToShortKeys : J → J
  | .arr xs => .arr (shortKeysList xs)
  | .obj kvs => .obj (shortKeysKVs kvs)
  | j => j
termination_by j => sizeOf j

/-- The array-item branch of `transformToShortKeys`. -/
def shortKeysList : List J → List J
  | [] => []
  | x :: xs =>
    (match x with
     | .arr a => transformToShortKeys (.arr a)
     | .obj o => transformToShortKeys (.obj o)
     | v => v) :: shortKeysList xs
termination_by xs => sizeOf xs

/-- The object-entry branch of `transformToShortKeys`. -/
def shortKeysKVs : List (String × J) → List (String × J)
  | [] => []
  | (k, v) :: rest =>
    (mapShortKey k,
      match v with
      | .arr a => transformToShortKeys (.arr a)
      | .obj o => transformToShortKeys (.obj o)
      | x => x) :: shortKeysKVs rest
termination_by kvs => sizeOf kvs

end

mutual

/-- `transformToLongKeys`: the inverse rename through
`REVERSE_KEY_MAP`, with the same recursion shape. -/
def transformToLongKeys : J → J
  | .arr xs => .arr (longKeysList xs)
  | .obj kvs => .obj (longKeysKVs kvs)
  | j => j
termination_by j => sizeOf j

/-- The array-item branch of `transformToLongKeys`. -/
def longKeysList : List J → List J
  | [] => []
  | x :: xs =>
    (match x with
     | .arr a => transformToLongKeys (.arr a)
     | .obj o => transformToLongKeys (.obj o)
     | v => v) :: longKeysList xs
termination_by xs => sizeOf xs

/-- The object-entry branch of `transformToLongKeys`. -/
def longKeysKVs : List (String × J) → List (String × J)
  | [] => []
  | (k, v) :: rest =>
    (mapLongKey k,
      match v with
      | .arr a => transformToLongKeys (.arr a)
      | .obj o => transformToLongKeys (.obj o)
      | x => x) :: longKeysKVs rest
termination_by kvs => sizeOf kvs

end

/-!
## Abstract intern-call sequences (for the registry claims)
-/

/-- One intern call on the registry, tagged by kind. -/
inductive TokOp where
  | color : String → TokOp
  | font : String → TokOp
  | shadow : String → TokOp
deriving DecidableEq

/-- Apply one intern call, returning the handed-back reference. -/
def TokenExtractor.applyOp (st : TokenExtractor) (op : TokOp) :
    String × TokenExtractor :=
  match op with
  | .color s => st.addColor s
  | .font s => st.addFont s
  | .shadow s => st.addShadow s

/-- Run a sequence of intern calls. -/
def runOps (st : TokenExtractor) (ops : List TokOp) : TokenExtractor :=
  ops.foldl (fun st op => (st.applyOp op).2) st

/-- Run a sequence of intern calls, recording each call with the
reference it returned. -/
def runOpsTrace (st : TokenExtractor) (ops : List TokOp) :
    List (TokOp × String) × TokenExtractor :=
  match ops with
  | [] => ([], st)
  | op :: rest =>
    let (t, st1) := st.applyOp op
    let (tr, st2) := runOpsTrace st1 rest
    ((op, t) :: tr, st2)

/-- The color arguments of a call sequence, in order. -/
def colorArgs (ops : List TokOp) : List String :=
  ops.filterMap (fun op =>
    match op with
    | .color s => some s
    | _ => none)

/-- The font arguments of a call sequence, in order. -/
def fontArgs (ops : List TokOp) : List String :=
  ops.filterMap (fun op =>
    match op with
    | .font s => some s
    | _ => none)

/-- The shadow arguments of a call sequence, in order. -/
def shadowArgs (ops : List TokOp) : List String :=
  ops.filterMap (fun op =>
    match op with
    | .shadow s => some s
    | _ => none)

/-- The kind tag of a call (used to compare calls of the same kind). -/
def TokOp.kind : TokOp → String
  | .color _ => "color"
  | .font _ => "font"
  | .shadow _ => "shadow"

/-- The argument of a call. -/
def TokOp.arg : TokOp → String
  | .color s => s
  | .font s => s
  | .shadow s => s

/-- The kind-specific normalization applied by the registry. -/
def TokOp.norm : TokOp → String
  | .color s => jsToUpper s
  | .font s => jsTrim s
  | .shadow s => jsTrim s

/-- Normalized values in first-occurrence order (the insertion order of
the registry's `Map` keys). -/
def firstOcc (norm : String → String) (vs : List String) : List String :=
  vs.foldl (fun acc v => if norm v ∈ acc then acc else acc ++ [norm v]) []

/-- The canonical interning table for a value sequence: the normalized
values in first-occurrence order, paired with sequentially allocated
tokens. -/
def canonKind (norm : String → String) (pfx : String) (vs : List String) :
    KindMap :=
  ⟨(firstOcc norm vs).enum.map (fun p => (p.2, pfx ++ Nat.repr p.1)),
   (firstOcc norm vs).length⟩

/-!
## Token references occurring in an output tree (for the reference
claims)
-/

/-- The object keys whose (string) values are token references when
token extraction is on: `bg`, the border's `c`, `shadow`, `font`, and
`color` (solid text colors, rich-text segment colors and gradient stop
colors). -/
def tokenKeys : List String := ["bg", "c", "color", "font", "shadow"]

mutual

/-- All token references in an output tree: the string values found at
the token-reference keys, anywhere in the tree, skipping the free-form
`devInfo` and `variantProps` objects whose keys the design supplies. -/
def tokenRefs : J → List String
  | .arr xs => tokenRefsList xs
  | .obj kvs => tokenRefsKVs kvs
  | _ => []
termination_by j => sizeOf j

/-- Token references of a list of values. -/
def tokenRefsList : List J → List String
  | [] => []
  | x :: xs =>
    (match x with
     | .arr a => tokenRefs (.arr a)
     | .obj o => tokenRefs (.obj o)
     | _ => []) ++ tokenRefsList xs
termination_by xs => sizeOf xs

/-- Token references of an object's entries. -/
def tokenRefsKVs : List (String × J) → List String
  | [] => []
  | (k, v) :: rest =>
    (if k = "devInfo" ∨ k = "variantProps" then []
     else if tokenKeys.contains k then
       match v with
       | .str s => [s]
       | .arr a => tokenRefs (.arr a)
       | .obj o => tokenRefs (.obj o)
       | _ => []
     else
       match v with
       | .arr a => tokenRefs (.arr a)
       | .obj o => tokenRefs (.obj o)
       | _ => []) ++ tokenRefsKVs rest
termination_by kvs => sizeOf kvs

end

/-!
## Digit-string facts

`Nat.repr` is injective; established through an explicit digit list and a
parse-back function.
-/

/-- Digit list of `n` in base 10, most significant first. -/
def digitsRec (n : ℕ) : List Char :=
  if n / 10 = 0 then [Nat.digitChar (n % 10)]
  else digitsRec (n / 10) ++ [Nat.digitChar (n % 10)]
decreasing_by exact Nat.div_lt_self (Nat.pos_of_ne_zero (by omega)) (by norm_num)

/-- Parse a base-10 digit string back to a number. -/
def parse10 (l : List Char) : ℕ := l.foldl (fun a c => a * 10 + (c.toNat - 48)) 0

theorem toDigitsCore_eq (fuel n : ℕ) (ds : List Char) (h : n < fuel) :
    Nat.toDigitsCore 10 fuel n ds = digitsRec n ++ ds := by
  induction fuel generalizing n ds with
  | zero => omega
  | succ f ih =>
    rw [Nat.toDigitsCore]
    rw [digitsRec]
    by_cases h10 : n / 10 = 0
    · simp [h10]
    · simp only [h10, if_false]
      have hn0 : n ≠ 0 := by
        intro h0
        rw [h0] at h10
        simp at h10
      have hlt : n / 10 < n := Nat.div_lt_self (Nat.pos_of_ne_zero hn0) (by norm_num)
      rw [ih (n / 10) (Nat.digitChar (n % 10) :: ds) (by omega)]
      simp

theorem digitChar_toNat (d : ℕ) (h : d < 10) : (Nat.digitChar d).toNat - 48 = d := by
  interval_cases d <;> rfl

theorem parse10_digitsRec (n : ℕ) :
    ∀ a : ℕ, (digitsRec n).foldl (fun a c => a * 10 + (c.toNat - 48)) a
      = a * 10 ^ (digitsRec n).length + n := by
  induction n using Nat.strong_induction_on with
  | _ n ih =>
    intro a
    rw [digitsRec]
    by_cases h10 : n / 10 = 0
    · simp only [h10, if_true, List.foldl_cons, List.foldl_nil, List.length_singleton]
      rw [digitChar_toNat _ (Nat.mod_lt _ (by norm_num))]
      have hmod : n % 10 = n := by omega
      rw [hmod]; ring
    · simp only [h10, if_false]
      rw [List.foldl_append]
      rw [ih (n / 10) (Nat.div_lt_self (Nat.pos_of_ne_zero (by omega)) (by norm_num)) a]
      simp only [List.foldl_cons, List.foldl_nil, List.length_append, List.length_singleton]
      rw [digitChar_toNat _ (Nat.mod_lt _ (by norm_num))]
      ring_nf
      omega

theorem parse10_digitsRec_self (n : ℕ) : parse10 (digitsRec n) = n := by
  have h := parse10_digitsRec n 0
  simpa [parse10] using h

theorem digitsRec_injective : Function.Injective digitsRec := by
  intro m n h
  have h2 : parse10 (digitsRec m) = parse10 (digitsRec n) := by rw [h]
  rwa [parse10_digitsRec_self, parse10_digitsRec_self] at h2

theorem natRepr_eq_digitsRec (n : ℕ) : Nat.repr n = (digitsRec n).asString := by
  unfold Nat.repr Nat.toDigits
  rw [toDigitsCore_eq (n + 1) n [] (by omega)]
  simp

theorem natRepr_injective : Function.Injective Nat.repr := by
  intro m n h
  rw [natRepr_eq_digitsRec, natRepr_eq_digitsRec] at h
  apply digitsRec_injective
  have h2 : (digitsRec m).asString.data = (digitsRec n).asString.data := by
    rw [h]
  simpa [List.asString] using h2

theorem string_append_left_cancel (s t u : String) (h : s ++ t = s ++ u) :
    t = u := by
  have hd : (s ++ t).data = (s ++ u).data := by rw [h]
  simp only [String.data_append] at hd
  exact String.ext (List.append_cancel_left hd)

theorem token_injective (pfx : String) {i j : ℕ}
    (h : pfx ++ Nat.repr i = pfx ++ Nat.repr j) : i = j :=
  natRepr_injective (string_append_left_cancel pfx _ _ h)

/-!
## Association-list lookup facts
-/

theorem lookup_eq_some_mem {l : List (String × String)} {k t : String}
    (h : List.lookup k l = some t) : (k, t) ∈ l := by
  induction l with
  | nil => simp [List.lookup] at h
  | cons p rest ih =>
    cases p with
    | mk a b =>
      rw [List.lookup_cons] at h
      by_cases hk : k = a
      · subst hk
        simp only [beq_self_eq_true] at h
        cases h
        exact List.mem_cons_self _ _
      · have : (k == a) = false := beq_false_of_ne hk
        rw [this] at h
        exact List.mem_cons_of_mem _ (ih h)

theorem lookup_append_some {l1 l2 : List (String × String)} {k t : String}
    (h : List.lookup k l1 = some t) :
    List.lookup k (l1 ++ l2) = some t := by
  induction l1 with
  | nil => simp [List.lookup] at h
  | cons p rest ih =>
    cases p with
    | mk a b =>
      rw [List.cons_append, List.lookup_cons] at *
      cases hk : (k == a) with
      | true => rw [hk] at h; exact h
      | false => rw [hk] at h; exact ih h

theorem lookup_append_none {l1 l2 : List (String × String)} {k : String}
    (h : List.lookup k l1 = none) :
    List.lookup k (l1 ++ l2) = List.lookup k l2 := by
  induction l1 with
  | nil => simp
  | cons p rest ih =>
    cases p with
    | mk a b =>
      rw [List.cons_append, List.lookup_cons] at *
      cases hk : (k == a) with
      | true => rw [hk] at h; cases h
      | false => rw [hk] at h; exact ih h

theorem lookup_enumFrom_mem (f : ℕ → String) (keys : List String)
    (k : String) (hk : k ∈ keys) : ∀ i : ℕ,
    ∃ t, List.lookup k ((List.enumFrom i keys).map
      (fun p => (p.2, f p.1))) = some t := by
  induction keys with
  | nil => cases hk
  | cons a rest ih =>
    intro i
    rw [List.enumFrom_cons]
    simp only [List.map_cons]
    rw [List.lookup_cons]
    by_cases hka : k = a
    · subst hka
      exact ⟨f i, by simp⟩
    · have hb : (k == a) = false := beq_false_of_ne hka
      rw [hb]
      exact ih ((List.mem_cons.mp hk).resolve_left hka) (i + 1)

theorem lookup_enumFrom_not_mem (f : ℕ → String) (keys : List String)
    (k : String) (hk : k ∉ keys) : ∀ i : ℕ,
    List.lookup k ((List.enumFrom i keys).map
      (fun p => (p.2, f p.1))) = none := by
  induction keys with
  | nil => intro i; simp [List.lookup]
  | cons a rest ih =>
    intro i
    rw [List.enumFrom_cons]
    simp only [List.map_cons]
    rw [List.lookup_cons]
    have hka : k ≠ a := fun h => hk (h ▸ List.mem_cons_self a rest)
    have hb : (k == a) = false := beq_false_of_ne hka
    rw [hb]
    exact ih (fun h => hk (List.mem_cons_of_mem a h)) (i + 1)

/-!
## Registry characterization

Running any intern-call sequence from a fresh registry produces, for each
kind, the canonical table: normalized values in first-occurrence order,
paired with sequentially allocated tokens.
-/

theorem firstOcc_concat (norm : String → String) (us : List String)
    (v : String) :
    firstOcc norm (us ++ [v]) =
      if norm v ∈ firstOcc norm us then firstOcc norm us
      else firstOcc norm us ++ [norm v] := by
  unfold firstOcc
  rw [List.foldl_concat]

theorem mem_firstOcc_lookup (norm : String → String) (pfx : String)
    (us : List String) (k : String) (hk : k ∈ firstOcc norm us) :
    ∃ t, List.lookup k (canonKind norm pfx us).entries = some t := by
  unfold canonKind
  simpa [List.enum] using
    lookup_enumFrom_mem (fun i => pfx ++ Nat.repr i) (firstOcc norm us) k hk 0

theorem not_mem_firstOcc_lookup (norm : String → String) (pfx : String)
    (us : List String) (k : String) (hk : k ∉ firstOcc norm us) :
    List.lookup k (canonKind norm pfx us).entries = none := by
  unfold canonKind
  simpa [List.enum] using
    lookup_enumFrom_not_mem (fun i => pfx ++ Nat.repr i) (firstOcc norm us) k hk 0

theorem canonKind_concat_mem (norm : String → String) (pfx : String)
    (us : List String) (v : String) (hv : norm v ∈ firstOcc norm us) :
    canonKind norm pfx (us ++ [v]) = canonKind norm pfx us := by
  unfold canonKind
  rw [firstOcc_concat, if_pos hv]

theorem canonKind_concat_not_mem (norm : String → String) (pfx : String)
    (us : List String) (v : String) (hv : norm v ∉ firstOcc norm us) :
    canonKind norm pfx (us ++ [v]) =
      ⟨(canonKind norm pfx us).entries ++
        [(norm v, pfx ++ Nat.repr (canonKind norm pfx us).counter)],
       (canonKind norm pfx us).counter + 1⟩ := by
  unfold canonKind
  rw [firstOcc_concat, if_neg hv]
  simp [List.enum_append, List.enumFrom]

theorem intern_canon (norm : String → String) (pfx : String)
    (us : List String) (v : String) :
    ((canonKind norm pfx us).intern norm pfx v).2 =
      canonKind norm pfx (us ++ [v]) := by
  unfold KindMap.intern
  dsimp only
  by_cases hv : norm v ∈ firstOcc norm us
  · obtain ⟨t, ht⟩ := mem_firstOcc_lookup norm pfx us (norm v) hv
    rw [canonKind_concat_mem norm pfx us v hv, ht]
  · rw [not_mem_firstOcc_lookup norm pfx us (norm v) hv,
      canonKind_concat_not_mem norm pfx us v hv]

/-- Fold a value sequence through `intern`. -/
def runKind (norm : String → String) (pfx : String) (m : KindMap)
    (vs : List String) : KindMap :=
  vs.foldl (fun m v => (m.intern norm pfx v).2) m

theorem runKind_canon (norm : String → String) (pfx : String)
    (us vs : List String) :
    runKind norm pfx (canonKind norm pfx us) vs =
      canonKind norm pfx (us ++ vs) := by
  induction vs generalizing us with
  | nil => simp [runKind]
  | cons v rest ih =>
    unfold runKind
    rw [List.foldl_cons]
    have h1 : ((canonKind norm pfx us).intern norm pfx v).2 =
        canonKind norm pfx (us ++ [v]) := intern_canon norm pfx us v
    rw [h1]
    have h2 := ih (us ++ [v])
    unfold runKind at h2
    rw [h2]
    simp

theorem runKind_canon_empty (norm : String → String) (pfx : String)
    (vs : List String) :
    runKind norm pfx ⟨[], 0⟩ vs = canonKind norm pfx vs := by
  have h : (⟨[], 0⟩ : KindMap) = canonKind norm pfx [] := by
    simp [canonKind, firstOcc]
  rw [h, runKind_canon]
  simp

theorem runOps_colors (st : TokenExtractor) (ops : List TokOp) :
    (runOps st ops).colors =
      runKind jsToUpper "$c" st.colors (colorArgs ops) := by
  induction ops generalizing st with
  | nil => simp [runOps, runKind, colorArgs]
  | cons op rest ih =>
    unfold runOps at *
    rw [List.foldl_cons]
    rw [ih]
    cases op with
    | color s =>
      simp only [colorArgs, List.filterMap_cons]
      unfold runKind
      rw [List.foldl_cons]
      rfl
    | font s =>
      simp only [colorArgs, List.filterMap_cons]
      rfl
    | shadow s =>
      simp only [colorArgs, List.filterMap_cons]
      rfl

theorem runOps_fonts (st : TokenExtractor) (ops : List TokOp) :
    (runOps st ops).fonts =
      runKind jsTrim "$f" st.fonts (fontArgs ops) := by
  induction ops generalizing st with
  | nil => simp [runOps, runKind, fontArgs]
  | cons op rest ih =>
    unfold runOps at *
    rw [List.foldl_cons]
    rw [ih]
    cases op with
    | color s =>
      simp only [fontArgs, List.filterMap_cons]
      rfl
    | font s =>
      simp only [fontArgs, List.filterMap_cons]
      unfold runKind
      rw [List.foldl_cons]
      rfl
    | shadow s =>
      simp only [fontArgs, List.filterMap_cons]
      rfl

theorem runOps_shadows (st : TokenExtractor) (ops : List TokOp) :
    (runOps st ops).shadows =
      runKind jsTrim "$s" st.shadows (shadowArgs ops) := by
  induction ops generalizing st with
  | nil => simp [runOps, runKind, shadowArgs]
  | cons op rest ih =>
    unfold runOps at *
    rw [List.foldl_cons]
    rw [ih]
    cases op with
    | color s =>
      simp only [shadowArgs, List.filterMap_cons]
      rfl
    | font s =>
      simp only [shadowArgs, List.filterMap_cons]
      rfl
    | shadow s =>
      simp only [shadowArgs, List.filterMap_cons]
      unfold runKind
      rw [List.foldl_cons]
      rfl

/-- The kind's table of a registry state addressed by an op's kind. -/
def kindMapOf (st : TokenExtractor) (op : TokOp) : KindMap :=
  match op with
  | .color _ => st.colors
  | .font _ => st.fonts
  | .shadow _ => st.shadows

/-- The kind's normalization addressed by an op's kind. -/
def TokOp.normFn : TokOp → (String → String)
  | .color _ => jsToUpper
  | .font _ => jsTrim
  | .shadow _ => jsTrim

/-- The kind's token prefix addressed by an op's kind. -/
def TokOp.pfx : TokOp → String
  | .color _ => "$c"
  | .font _ => "$f"
  | .shadow _ => "$s"

/-- The kind's argument selector addressed by an op's kind. -/
def TokOp.argsFn : TokOp → List TokOp → List String
  | .color _ => colorArgs
  | .font _ => fontArgs
  | .shadow _ => shadowArgs

theorem intern_lookup_self (m : KindMap) (norm : String → String)
    (pfx : String) (v : String) :
    List.lookup (norm v) ((m.intern norm pfx v).2).entries =
      some (m.intern norm pfx v).1 := by
  unfold KindMap.intern
  dsimp only
  cases h : List.lookup (norm v) m.entries with
  | some t => simpa using h
  | none =>
    simp only
    rw [lookup_append_none h]
    simp [List.lookup_cons]

theorem intern_preserves (m : KindMap) (norm : String → String)
    (pfx : String) (v k t : String)
    (h : List.lookup k m.entries = some t) :
    List.lookup k ((m.intern norm pfx v).2).entries = some t := by
  unfold KindMap.intern
  dsimp only
  cases h2 : List.lookup (norm v) m.entries with
  | some t2 => simpa using h
  | none =>
    simp only
    exact lookup_append_some h

theorem applyOp_lookup_self (st : TokenExtractor) (op : TokOp) :
    List.lookup op.norm (kindMapOf (st.applyOp op).2 op).entries =
      some (st.applyOp op).1 := by
  cases op with
  | color s =>
    exact intern_lookup_self st.colors jsToUpper "$c" s
  | font s =>
    exact intern_lookup_self st.fonts jsTrim "$f" s
  | shadow s =>
    exact intern_lookup_self st.shadows jsTrim "$s" s

theorem applyOp_preserves (st : TokenExtractor) (op op2 : TokOp)
    (k t : String) (h : List.lookup k (kindMapOf st op).entries = some t) :
    List.lookup k (kindMapOf (st.applyOp op2).2 op).entries = some t := by
  cases op <;> cases op2 <;>
    simp only [kindMapOf, TokenExtractor.applyOp, TokenExtractor.addColor,
      TokenExtractor.addFont, TokenExtractor.addShadow] at h ⊢ <;>
    first
      | exact h
      | exact intern_preserves _ _ _ _ _ _ h

theorem runOps_preserves (st : TokenExtractor) (ops : List TokOp)
    (op : TokOp) (k t : String)
    (h : List.lookup k (kindMapOf st op).entries = some t) :
    List.lookup k (kindMapOf (runOps st ops) op).entries = some t := by
  induction ops generalizing st with
  | nil => exact h
  | cons op2 rest ih =>
    unfold runOps
    rw [List.foldl_cons]
    exact ih (st.applyOp op2).2 (applyOp_preserves st op op2 k t h)

theorem runOpsTrace_state (st : TokenExtractor) (ops : List TokOp) :
    (runOpsTrace st ops).2 = runOps st ops := by
  induction ops generalizing st with
  | nil => rfl
  | cons op rest ih =>
    unfold runOpsTrace runOps
    rw [List.foldl_cons]
    have h := ih (st.applyOp op).2
    unfold runOps at h
    simpa using h

theorem trace_final_lookup (ops : List TokOp) (st : TokenExtractor)
    (p : TokOp × String) (hp : p ∈ (runOpsTrace st ops).1) :
    List.lookup p.1.norm (kindMapOf (runOps st ops) p.1).entries =
      some p.2 := by
  induction ops generalizing st with
  | nil => simp [runOpsTrace] at hp
  | cons op rest ih =>
    unfold runOpsTrace at hp
    simp only [List.mem_cons] at hp
    have hrun : runOps st (op :: rest) = runOps (st.applyOp op).2 rest := by
      unfold runOps
      rw [List.foldl_cons]
    cases hp with
    | inl heq =>
      subst heq
      rw [hrun]
      exact runOps_preserves (st.applyOp op).2 rest op _ _
        (applyOp_lookup_self st op)
    | inr hmem =>
      rw [hrun]
      exact ih (st.applyOp op).2 hmem

theorem canon_lookup_inj (norm : String → String) (pfx : String)
    (vs : List String) (k1 k2 t : String)
    (h1 : List.lookup k1 (canonKind norm pfx vs).entries = some t)
    (h2 : List.lookup k2 (canonKind norm pfx vs).entries = some t) :
    k1 = k2 := by
  have m1 := lookup_eq_some_mem h1
  have m2 := lookup_eq_some_mem h2
  unfold canonKind at m1 m2
  simp only [List.mem_map] at m1 m2
  obtain ⟨⟨i1, v1⟩, hmem1, heq1⟩ := m1
  obtain ⟨⟨i2, v2⟩, hmem2, heq2⟩ := m2
  simp only [Prod.mk.injEq] at heq1 heq2
  have hi : i1 = i2 := by
    apply token_injective pfx
    rw [heq1.2, heq2.2]
  subst hi
  rw [List.mem_enum_iff_getElem?] at hmem1 hmem2
  simp only at hmem1 hmem2
  rw [hmem1] at hmem2
  cases hmem2
  rw [← heq1.1, ← heq2.1]

theorem final_kindMap_canon (ops : List TokOp) (op : TokOp) :
    kindMapOf (runOps TokenExtractor.empty ops) op =
      canonKind op.normFn op.pfx (op.argsFn ops) := by
  cases op with
  | color s =>
    simp only [kindMapOf, TokOp.normFn, TokOp.pfx, TokOp.argsFn]
    rw [runOps_colors]
    exact runKind_canon_empty jsToUpper "$c" (colorArgs ops)
  | font s =>
    simp only [kindMapOf, TokOp.normFn, TokOp.pfx, TokOp.argsFn]
    rw [runOps_fonts]
    exact runKind_canon_empty jsTrim "$f" (fontArgs ops)
  | shadow s =>
    simp only [kindMapOf, TokOp.normFn, TokOp.pfx, TokOp.argsFn]
    rw [runOps_shadows]
    exact runKind_canon_empty jsTrim "$s" (shadowArgs ops)

theorem kind_eq_kindMapOf (st : TokenExtractor) (op1 op2 : TokOp)
    (h : op1.kind = op2.kind) : kindMapOf st op1 = kindMapOf st op2 := by
  cases op1 <;> cases op2 <;> simp_all [TokOp.kind, kindMapOf]

theorem kind_eq_normFn (op1 op2 : TokOp) (h : op1.kind = op2.kind) :
    op1.normFn = op2.normFn := by
  cases op1 <;> cases op2 <;> simp_all [TokOp.kind, TokOp.normFn]

theorem norm_eq_normFn (op : TokOp) : op.norm = op.normFn op.arg := by
  cases op <;> rfl

theorem firstOcc_foldl_mono (norm : String → String) (acc : List String)
    (ws : List String) :
    ∃ zs, ws.foldl (fun acc v => if norm v ∈ acc then acc
      else acc ++ [norm v]) acc = acc ++ zs := by
  induction ws generalizing acc with
  | nil => exact ⟨[], by simp⟩
  | cons w rest ih =>
    rw [List.foldl_cons]
    by_cases hw : norm w ∈ acc
    · rw [if_pos hw]
      exact ih acc
    · rw [if_neg hw]
      obtain ⟨zs, hzs⟩ := ih (acc ++ [norm w])
      exact ⟨[norm w] ++ zs, by rw [hzs, List.append_assoc]⟩

theorem firstOcc_append_mono (norm : String → String) (vs ws : List String) :
    ∃ zs, firstOcc norm (vs ++ ws) = firstOcc norm vs ++ zs := by
  unfold firstOcc
  rw [List.foldl_append]
  exact firstOcc_foldl_mono norm _ ws

theorem drop_dollar_c (s : String) : ("$c" ++ s).drop 1 = "c" ++ s := by
  apply String.ext
  rw [String.data_drop]
  simp [String.data_append]

theorem drop_dollar_f (s : String) : ("$f" ++ s).drop 1 = "f" ++ s := by
  apply String.ext
  rw [String.data_drop]
  simp [String.data_append]

theorem drop_dollar_s (s : String) : ("$s" ++ s).drop 1 = "s" ++ s := by
  apply String.ext
  rw [String.data_drop]
  simp [String.data_append]

theorem final_getTokens_colors (ops : List TokOp) :
    (runOps TokenExtractor.empty ops).getTokens.colors =
      (firstOcc jsToUpper (colorArgs ops)).enum.map
        (fun p => ("c" ++ Nat.repr p.1, p.2)) := by
  unfold TokenExtractor.getTokens
  rw [runOps_colors]
  rw [show TokenExtractor.empty.colors = (⟨[], 0⟩ : KindMap) from rfl]
  rw [runKind_canon_empty]
  unfold canonKind
  rw [List.map_map]
  apply List.map_congr_left
  intro a _
  simp only [Function.comp_apply]
  rw [drop_dollar_c]

theorem final_getTokens_fonts (ops : List TokOp) :
    (runOps TokenExtractor.empty ops).getTokens.fonts =
      (firstOcc jsTrim (fontArgs ops)).enum.map
        (fun p => ("f" ++ Nat.repr p.1, p.2)) := by
  unfold TokenExtractor.getTokens
  rw [runOps_fonts]
  rw [show TokenExtractor.empty.fonts = (⟨[], 0⟩ : KindMap) from rfl]
  rw [runKind_canon_empty]
  unfold canonKind
  rw [List.map_map]
  apply List.map_congr_left
  intro a _
  simp only [Function.comp_apply]
  rw [drop_dollar_f]

theorem final_getTokens_shadows (ops : List TokOp) :
    (runOps TokenExtractor.empty ops).getTokens.shadows =
      (firstOcc jsTrim (shadowArgs ops)).enum.map
        (fun p => ("s" ++ Nat.repr p.1, p.2)) := by
  unfold TokenExtractor.getTokens
  rw [runOps_shadows]
  rw [show TokenExtractor.empty.shadows = (⟨[], 0⟩ : KindMap) from rfl]
  rw [runKind_canon_empty]
  unfold canonKind
  rw [List.map_map]
  apply List.map_congr_left
  intro a _
  simp only [Function.comp_apply]
  rw [drop_dollar_s]

theorem canon_entries_prefix (norm : String → String) (pfx : String)
    (vs ws : List String) :
    ∃ zs, (canonKind norm pfx (vs ++ ws)).entries =
      (canonKind norm pfx vs).entries ++ zs := by
  obtain ⟨zs, hzs⟩ := firstOcc_append_mono norm vs ws
  unfold canonKind
  rw [hzs, List.enum_append, List.map_append]
  exact ⟨_, rfl⟩

theorem stable_getTokens_aux (norm : String → String) (pfx : String)
    (vs ws : List String) (kv : String × String)
    (h : kv ∈ (canonKind norm pfx vs).entries.map
      (fun p => (p.2.drop 1, p.1))) :
    kv ∈ (canonKind norm pfx (vs ++ ws)).entries.map
      (fun p => (p.2.drop 1, p.1)) := by
  obtain ⟨zs, hzs⟩ := canon_entries_prefix norm pfx vs ws
  rw [hzs, List.map_append]
  exact List.mem_append_left _ h

theorem getTokens_colors_stable (l r : List TokOp) (kv : String × String)
    (h : kv ∈ (runOps TokenExtractor.empty l).getTokens.colors) :
    kv ∈ (runOps TokenExtractor.empty (l ++ r)).getTokens.colors := by
  rw [final_getTokens_colors] at h ⊢
  have h1 : colorArgs (l ++ r) = colorArgs l ++ colorArgs r := by
    unfold colorArgs
    rw [List.filterMap_append]
  rw [h1]
  obtain ⟨zs, hzs⟩ := firstOcc_append_mono jsToUpper (colorArgs l)
    (colorArgs r)
  rw [hzs, List.enum_append, List.map_append]
  exact List.mem_append_left _ h

theorem getTokens_fonts_stable (l r : List TokOp) (kv : String × String)
    (h : kv ∈ (runOps TokenExtractor.empty l).getTokens.fonts) :
    kv ∈ (runOps TokenExtractor.empty (l ++ r)).getTokens.fonts := by
  rw [final_getTokens_fonts] at h ⊢
  have h1 : fontArgs (l ++ r) = fontArgs l ++ fontArgs r := by
    unfold fontArgs
    rw [List.filterMap_append]
  rw [h1]
  obtain ⟨zs, hzs⟩ := firstOcc_append_mono jsTrim (fontArgs l) (fontArgs r)
  rw [hzs, List.enum_append, List.map_append]
  exact List.mem_append_left _ h

theorem getTokens_shadows_stable (l r : List TokOp) (kv : String × String)
    (h : kv ∈ (runOps TokenExtractor.empty l).getTokens.shadows) :
    kv ∈ (runOps TokenExtractor.empty (l ++ r)).getTokens.shadows := by
  rw [final_getTokens_shadows] at h ⊢
  have h1 : shadowArgs (l ++ r) = shadowArgs l ++ shadowArgs r := by
    unfold shadowArgs
    rw [List.filterMap_append]
  rw [h1]
  obtain ⟨zs, hzs⟩ := firstOcc_append_mono jsTrim (shadowArgs l)
    (shadowArgs r)
  rw [hzs, List.enum_append, List.map_append]
  exact List.mem_append_left _ h

/-- C1: for every sequence of intern calls on a fresh token registry,
(1) two calls of the same kind return the same reference exactly when
their normalized arguments agree (deduplication, and distinct normalized
values get distinct identifiers); (2)–(4) each kind's drained dictionary
maps the sequentially allocated identifiers `c0, c1, …` (resp. `f…`,
`s…`), in first-occurrence order, to the normalized values; and (5) every
identifier-to-value entry present after any prefix of the calls is still
present, unchanged, at the end (an identifier never changes meaning). -/
theorem C1_token_registry (ops : List TokOp) :
    (∀ p q, p ∈ (runOpsTrace TokenExtractor.empty ops).1 →
        q ∈ (runOpsTrace TokenExtractor.empty ops).1 →
        p.1.kind = q.1.kind → (p.1.norm = q.1.norm ↔ p.2 = q.2)) ∧
    (runOps TokenExtractor.empty ops).getTokens.colors =
      (firstOcc jsToUpper (colorArgs ops)).enum.map
        (fun p => ("c" ++ Nat.repr p.1, p.2)) ∧
    (runOps TokenExtractor.empty ops).getTokens.fonts =
      (firstOcc jsTrim (fontArgs ops)).enum.map
        (fun p => ("f" ++ Nat.repr p.1, p.2)) ∧
    (runOps TokenExtractor.empty ops).getTokens.shadows =
      (firstOcc jsTrim (shadowArgs ops)).enum.map
        (fun p => ("s" ++ Nat.repr p.1, p.2)) ∧
    (∀ l r, ops = l ++ r → ∀ kv : String × String,
      (kv ∈ (runOps TokenExtractor.empty l).getTokens.colors →
        kv ∈ (runOps TokenExtractor.empty ops).getTokens.colors) ∧
      (kv ∈ (runOps TokenExtractor.empty l).getTokens.fonts →
        kv ∈ (runOps TokenExtractor.empty ops).getTokens.fonts) ∧
      (kv ∈ (runOps TokenExtractor.empty l).getTokens.shadows →
        kv ∈ (runOps TokenExtractor.empty ops).getTokens.shadows)) := by
  refine ⟨?_, final_getTokens_colors ops, final_getTokens_fonts ops,
    final_getTokens_shadows ops, ?_⟩
  · intro p q hp hq hkind
    have hp2 := trace_final_lookup ops TokenExtractor.empty p hp
    have hq2 := trace_final_lookup ops TokenExtractor.empty q hq
    have hmap := kind_eq_kindMapOf (runOps TokenExtractor.empty ops) p.1 q.1
      hkind
    rw [hmap] at hp2
    constructor
    · intro hnorm
      rw [hnorm] at hp2
      rw [hp2] at hq2
      exact (Option.some.injEq _ _).mp hq2
    · intro htok
      rw [final_kindMap_canon ops q.1] at hp2 hq2
      rw [htok] at hp2
      exact canon_lookup_inj q.1.normFn q.1.pfx (q.1.argsFn ops)
        p.1.norm q.1.norm q.2 hp2 hq2
  · intro l r hlr kv
    subst hlr
    exact ⟨getTokens_colors_stable l r kv, getTokens_fonts_stable l r kv,
      getTokens_shadows_stable l r kv⟩

theorem C1_token_registry_witness :
    (((TokOp.color "#fff").norm = (TokOp.color "#FFF").norm) ↔
      ("$c0" : String) = "$c0") ∧
    (runOps TokenExtractor.empty
        [TokOp.color "#fff", TokOp.color "#FFF", TokOp.font " Inter ",
         TokOp.color "#000"]).getTokens.colors =
      (firstOcc jsToUpper
        (colorArgs [TokOp.color "#fff", TokOp.color "#FFF",
          TokOp.font " Inter ", TokOp.color "#000"])).enum.map
        (fun p => ("c" ++ Nat.repr p.1, p.2)) ∧
    ("c0", "#FFF") ∈ (runOps TokenExtractor.empty
        [TokOp.color "#fff", TokOp.color "#FFF", TokOp.font " Inter ",
         TokOp.color "#000"]).getTokens.colors := by
  have h := C1_token_registry [TokOp.color "#fff", TokOp.color "#FFF",
    TokOp.font " Inter ", TokOp.color "#000"]
  refine ⟨?_, h.2.1, ?_⟩
  · exact h.1 (TokOp.color "#fff", "$c0") (TokOp.color "#FFF", "$c0")
      (by decide) (by decide) rfl
  · exact (h.2.2.2.2 [TokOp.color "#fff", TokOp.color "#FFF"]
      [TokOp.font " Inter ", TokOp.color "#000"] rfl ("c0", "#FFF")).1
      (by decide)

/-!
## Color normal forms (token dictionary values)
-/

theorem char_toNat_ofNat (n : ℕ) (h : n.isValidChar) :
    (Char.ofNat n).toNat = n := by
  unfold Char.ofNat
  rw [dif_pos h]
  rfl

theorem char_toUpper_idem (c : Char) : c.toUpper.toUpper = c.toUpper := by
  unfold Char.toUpper
  by_cases h : c.toNat ≥ 97 ∧ c.toNat ≤ 122
  · rw [if_pos h]
    have hv : (c.toNat - 32).isValidChar := by
      left
      omega
    have ht : (Char.ofNat (c.toNat - 32)).toNat = c.toNat - 32 :=
      char_toNat_ofNat _ hv
    rw [ht]
    rw [if_neg (by omega)]
  · rw [if_neg h, if_neg h]

theorem jsToUpper_idem (s : String) : jsToUpper (jsToUpper s) = jsToUpper s := by
  unfold jsToUpper
  simp only [List.map_map]
  congr 1
  apply List.map_congr_left
  intro c _
  exact char_toUpper_idem c

theorem rgbaToString_alpha1 (r g b : ℚ) :
    rgbaToString r g b 1 = rgbToHex r g b := by
  unfold rgbaToString
  rw [if_pos rfl]

theorem jsToUpper_rgbToHex (r g b : ℚ) :
    jsToUpper (rgbToHex r g b) = rgbToHex r g b := by
  unfold rgbToHex
  rw [jsToUpper_idem]

theorem firstOcc_foldl_mem (norm : String → String) (x : String) :
    ∀ (vs : List String) (acc : List String),
      x ∈ vs.foldl (fun acc v =>
        if norm v ∈ acc then acc else acc ++ [norm v]) acc →
      x ∈ acc ∨ ∃ v ∈ vs, x = norm v := by
  intro vs
  induction vs with
  | nil =>
    intro acc hacc
    exact Or.inl hacc
  | cons v rest ih =>
    intro acc hacc
    rw [List.foldl_cons] at hacc
    rcases ih _ hacc with hacc2 | hex
    · by_cases hv : norm v ∈ acc
      · rw [if_pos hv] at hacc2
        exact Or.inl hacc2
      · rw [if_neg hv] at hacc2
        rcases List.mem_append.mp hacc2 with h1 | h2
        · exact Or.inl h1
        · exact Or.inr ⟨v, List.mem_cons_self _ _, by simpa using h2⟩
    · obtain ⟨w, hw, hxw⟩ := hex
      exact Or.inr ⟨w, List.mem_cons_of_mem _ hw, hxw⟩

theorem mem_firstOcc_exists (norm : String → String) (vs : List String)
    (x : String) (h : x ∈ firstOcc norm vs) : ∃ v ∈ vs, x = norm v := by
  unfold firstOcc at h
  rcases firstOcc_foldl_mem norm x vs [] h with hacc | hex
  · cases hacc
  · exact hex

theorem colorArgs_map_color {α : Type} (l : List α) (f : α → String) :
    colorArgs (l.map (fun c => TokOp.color (f c))) = l.map f := by
  unfold colorArgs
  induction l with
  | nil => rfl
  | cons c rest ih =>
    rw [List.map_cons, List.filterMap_cons, List.map_cons]
    dsimp only
    rw [ih]

/-- C6 counterexample: interning the canonical rgba string of a
half-transparent red records the upper-cased string
`RGBA(255,0,0,0.50)` in the dictionary, not the canonical lower-case
`rgba(…)` form the claim asserts. -/
theorem C6_counterexample :
    ((1 : ℚ) / 2 < 1) ∧
    rgbaToString 1 0 0 (1 / 2) = "rgba(255,0,0,0.50)" ∧
    ((TokenExtractor.empty.addColor
        (rgbaToString 1 0 0 (1 / 2))).2).getTokens.colors =
      [("c0", "RGBA(255,0,0,0.50)")] ∧
    ("RGBA(255,0,0,0.50)" : String) ≠ rgbaToString 1 0 0 (1 / 2) := by
  refine ⟨by norm_num, by with_unfolding_all decide,
    by with_unfolding_all decide, by with_unfolding_all decide⟩

/-- C6 (amended): every color value recorded in the token dictionary by
any sequence of `addColor` calls whose arguments are the canonical color
strings produced at the call sites (`rgbaToString`, which is the hex form
when the alpha is 1) is the upper-cased image of such a string — the
upper-cased hex string itself when the opacity is 1, and
`RGBA(r,g,b,a)`, the upper-case image of the canonical two-decimal rgba
form, when the opacity is below 1. -/
theorem C6_color_values_uppercased (calls : List (ℚ × ℚ × ℚ × ℚ)) :
    ∀ kv ∈ (runOps TokenExtractor.empty
        (calls.map (fun c => TokOp.color
          (rgbaToString c.1 c.2.1 c.2.2.1 c.2.2.2)))).getTokens.colors,
      ∃ c ∈ calls,
        kv.2 = jsToUpper (rgbaToString c.1 c.2.1 c.2.2.1 c.2.2.2) ∧
        (c.2.2.2 = 1 → kv.2 = rgbToHex c.1 c.2.1 c.2.2.1) := by
  intro kv hkv
  rw [final_getTokens_colors] at hkv
  rw [colorArgs_map_color calls
    (fun c => rgbaToString c.1 c.2.1 c.2.2.1 c.2.2.2)] at hkv
  simp only [List.mem_map] at hkv
  obtain ⟨⟨i, v⟩, hmem, heq⟩ := hkv
  have hv : v ∈ firstOcc jsToUpper (calls.map (fun c =>
      rgbaToString c.1 c.2.1 c.2.2.1 c.2.2.2)) := by
    rw [List.mem_enum_iff_getElem?] at hmem
    exact List.getElem?_mem hmem
  obtain ⟨w, hw, hvw⟩ := mem_firstOcc_exists _ _ _ hv
  simp only [List.mem_map] at hw
  obtain ⟨c, hc, hcw⟩ := hw
  refine ⟨c, hc, ?_, ?_⟩
  · have : kv.2 = v := by rw [← heq]
    rw [this, hvw, ← hcw]
  · intro ha1
    have : kv.2 = v := by rw [← heq]
    rw [this, hvw, ← hcw]
    rw [ha1] at *
    rw [rgbaToString_alpha1, jsToUpper_rgbToHex]

theorem C6_color_values_uppercased_witness :
    ∃ c ∈ [((1 : ℚ), (0 : ℚ), (0 : ℚ), (1 : ℚ) / 2)],
      ("RGBA(255,0,0,0.50)" : String) =
        jsToUpper (rgbaToString c.1 c.2.1 c.2.2.1 c.2.2.2) ∧
      (c.2.2.2 = 1 → ("RGBA(255,0,0,0.50)" : String) =
        rgbToHex c.1 c.2.1 c.2.2.1) := by
  have h := C6_color_values_uppercased
    [((1 : ℚ), (0 : ℚ), (0 : ℚ), (1 : ℚ) / 2)]
    ("c0", "RGBA(255,0,0,0.50)") (by with_unfolding_all decide)
  exact h

/-!
## Padding collapse
-/

/-- C7: four equal non-zero padding values collapse to a single number;
values that are not all equal (after the absent-side zero default) give
the 4-tuple in `[top, right, bottom, left]` order; all-absent and
all-zero padding give no field. -/
theorem C7_padding_collapse (raw : RawNodeData) :
    (∀ t : ℚ, t ≠ 0 →
      raw.f.paddingTop = some t → raw.f.paddingRight = some t →
      raw.f.paddingBottom = some t → raw.f.paddingLeft = some t →
      extractPadding raw = some (NumQuad.one t)) ∧
    (¬(raw.f.paddingTop.getD 0 = raw.f.paddingRight.getD 0 ∧
        raw.f.paddingRight.getD 0 = raw.f.paddingBottom.getD 0 ∧
        raw.f.paddingBottom.getD 0 = raw.f.paddingLeft.getD 0) →
      extractPadding raw = some (NumQuad.four (raw.f.paddingTop.getD 0)
        (raw.f.paddingRight.getD 0) (raw.f.paddingBottom.getD 0)
        (raw.f.paddingLeft.getD 0))) ∧
    ((raw.f.paddingTop = none ∧ raw.f.paddingRight = none ∧
        raw.f.paddingBottom = none ∧ raw.f.paddingLeft = none) →
      extractPadding raw = none) ∧
    ((raw.f.paddingTop.getD 0 = 0 ∧ raw.f.paddingRight.getD 0 = 0 ∧
        raw.f.paddingBottom.getD 0 = 0 ∧ raw.f.paddingLeft.getD 0 = 0) →
      extractPadding raw = none) := by
  refine ⟨?_, ?_, ?_, ?_⟩
  · intro t ht h1 h2 h3 h4
    unfold extractPadding
    rw [h1, h2, h3, h4]
    simp [ht]
  · intro hne
    unfold extractPadding
    have hnz : ¬(raw.f.paddingTop.getD 0 = 0 ∧ raw.f.paddingRight.getD 0 = 0 ∧
        raw.f.paddingBottom.getD 0 = 0 ∧ raw.f.paddingLeft.getD 0 = 0) := by
      intro ⟨a, b, c, d⟩
      exact hne ⟨by rw [a, b], by rw [b, c], by rw [c, d]⟩
    have habs : ¬(raw.f.paddingTop = none ∧ raw.f.paddingRight = none ∧
        raw.f.paddingBottom = none ∧ raw.f.paddingLeft = none) := by
      intro ⟨a, b, c, d⟩
      exact hne (by rw [a, b, c, d]; exact ⟨rfl, rfl, rfl⟩)
    rw [if_neg habs, if_neg hnz, if_neg hne]
  · intro ⟨a, b, c, d⟩
    unfold extractPadding
    rw [if_pos ⟨a, b, c, d⟩]
  · intro hz
    unfold extractPadding
    by_cases habs : raw.f.paddingTop = none ∧ raw.f.paddingRight = none ∧
        raw.f.paddingBottom = none ∧ raw.f.paddingLeft = none
    · rw [if_pos habs]
    · rw [if_neg habs, if_pos hz]

theorem C7_padding_collapse_witness :
    extractPadding (RawNodeData.mk
      { id := "1", name := "A", type := "FRAME",
        paddingTop := some 8, paddingRight := some 8,
        paddingBottom := some 8, paddingLeft := some 8 }) =
      some (NumQuad.one 8) ∧
    extractPadding (RawNodeData.mk
      { id := "2", name := "B", type := "FRAME",
        paddingTop := some 1, paddingRight := some 2,
        paddingBottom := some 3, paddingLeft := some 4 }) =
      some (NumQuad.four 1 2 3 4) ∧
    extractPadding (RawNodeData.mk
      { id := "3", name := "C", type := "FRAME" }) = none ∧
    extractPadding (RawNodeData.mk
      { id := "4", name := "D", type := "FRAME",
        paddingTop := some 0, paddingRight := some 0,
        paddingBottom := some 0, paddingLeft := some 0 }) = none := by
  refine ⟨?_, ?_, ?_, ?_⟩
  · exact (C7_padding_collapse _).1 8 (by norm_num) rfl rfl rfl rfl
  · exact (C7_padding_collapse _).2.1 (by with_unfolding_all decide)
  · exact (C7_padding_collapse _).2.2.1 ⟨rfl, rfl, rfl, rfl⟩
  · exact (C7_padding_collapse _).2.2.2 (by with_unfolding_all decide)

/-!
## Border style rules
-/

theorem find_some_ne_nil {α : Type} (p : α → Bool) (l : List α) (a : α)
    (h : l.find? p = some a) : l.length ≠ 0 := by
  cases l with
  | nil => simp [List.find?] at h
  | cons x xs => simp

/-- C5: for a first visible stroke of solid type (carrying its color)
with a non-zero declared stroke weight, the emitted border style is
`solid` when no (or an empty) dash pattern is present; with a dash
pattern present, two equal-length segments give `dashed`, otherwise any
segment of length at most 2 gives `dotted`, and any other irregular
pattern falls back to `dashed` (rules applied in this order, as in the
source and the specification's sentence order). -/
theorem C5_border_style (ss : List Paint) (sw : ℚ) (dash : Option (List ℚ))
    (uT : Bool) (st : TokenExtractor) (stroke : Paint) (c : Color)
    (hfind : ss.find? (fun s => s.visible ≠ some false) = some stroke)
    (htype : stroke.type = "SOLID") (hcolor : stroke.color = some c)
    (hw : sw ≠ 0) :
    ∃ b st2, extractBorder (some ss) (some sw) dash uT st = (some b, st2) ∧
      b.w = sw ∧
      ((dash = none ∨ dash = some []) → b.style = "solid") ∧
      (∀ d1 d2 : ℚ, dash = some [d1, d2] → d1 = d2 → b.style = "dashed") ∧
      (∀ dp, dash = some dp → dp ≠ [] → (¬ ∃ d, dp = [d, d]) →
        (∃ d ∈ dp, d ≤ 2) → b.style = "dotted") ∧
      (∀ dp, dash = some dp → dp ≠ [] → (¬ ∃ d, dp = [d, d]) →
        (∀ d ∈ dp, ¬ d ≤ 2) → b.style = "dashed") := by
  have hcond : ¬(ss.length = 0 ∨ ¬ truthyQ (some sw)) := by
    push_neg
    refine ⟨find_some_ne_nil _ _ _ hfind, ?_⟩
    simp [truthyQ, hw]
  have hsolid : stroke.type = "SOLID" ∧ stroke.color.isSome := by
    exact ⟨htype, by rw [hcolor]; rfl⟩
  refine ⟨⟨sw, (internColor uT st (rgbToHex c.r c.g c.b)).1,
      (match dash with
       | some dp =>
         if dp.length = 0 then "solid"
         else if dp.length = 2 ∧ dp.head? = dp.getLast? then "dashed"
         else if dp.any (fun d => d ≤ 2) then "dotted"
         else "dashed"
       | none => "solid")⟩,
    (internColor uT st (rgbToHex c.r c.g c.b)).2, ?_, rfl, ?_, ?_, ?_, ?_⟩
  · simp only [extractBorder]
    rw [if_neg hcond, hfind]
    dsimp only
    rw [if_pos hsolid, hcolor]
    rfl
  · rintro (h | h) <;> subst h <;> rfl
  · intro d1 d2 hd heq
    subst hd
    subst heq
    simp
  · intro dp hd hne hnotsq hany
    subst hd
    simp only
    rw [if_neg (by simpa using hne)]
    rw [if_neg ?hsq]
    case hsq =>
      rintro ⟨hlen, hhl⟩
      apply hnotsq
      match dp, hlen with
      | [d1, d2], _ =>
        simp at hhl
        exact ⟨d1, by rw [hhl]⟩
    rw [if_pos (by simpa [List.any_eq_true] using hany)]
  · intro dp hd hne hnotsq hall
    subst hd
    simp only
    rw [if_neg (by simpa using hne)]
    rw [if_neg ?hsq2]
    case hsq2 =>
      rintro ⟨hlen, hhl⟩
      apply hnotsq
      match dp, hlen with
      | [d1, d2], _ =>
        simp at hhl
        exact ⟨d1, by rw [hhl]⟩
    rw [if_neg (by simpa [List.any_eq_true] using hall)]

theorem C5_border_style_witness :
    (∃ b st2, extractBorder
        (some [{ type := "SOLID", color := some ⟨1, 0, 0⟩ }]) (some 2) none
        true TokenExtractor.empty = (some b, st2) ∧ b.style = "solid") ∧
    (∃ b st2, extractBorder
        (some [{ type := "SOLID", color := some ⟨1, 0, 0⟩ }]) (some 2)
        (some [4, 4]) true TokenExtractor.empty = (some b, st2) ∧
        b.style = "dashed") ∧
    (∃ b st2, extractBorder
        (some [{ type := "SOLID", color := some ⟨1, 0, 0⟩ }]) (some 2)
        (some [4, 1, 6]) true TokenExtractor.empty = (some b, st2) ∧
        b.style = "dotted") ∧
    (∃ b st2, extractBorder
        (some [{ type := "SOLID", color := some ⟨1, 0, 0⟩ }]) (some 2)
        (some [5, 7]) true TokenExtractor.empty = (some b, st2) ∧
        b.style = "dashed") := by
  refine ⟨?_, ?_, ?_, ?_⟩
  · obtain ⟨b, st2, heq, hw, h1, h2, h3, h4⟩ := C5_border_style
      [{ type := "SOLID", color := some ⟨1, 0, 0⟩ }] 2 none true
      TokenExtractor.empty { type := "SOLID", color := some ⟨1, 0, 0⟩ }
      ⟨1, 0, 0⟩ rfl rfl rfl (by norm_num)
    exact ⟨b, st2, heq, h1 (Or.inl rfl)⟩
  · obtain ⟨b, st2, heq, hw, h1, h2, h3, h4⟩ := C5_border_style
      [{ type := "SOLID", color := some ⟨1, 0, 0⟩ }] 2 (some [4, 4]) true
      TokenExtractor.empty { type := "SOLID", color := some ⟨1, 0, 0⟩ }
      ⟨1, 0, 0⟩ rfl rfl rfl (by norm_num)
    exact ⟨b, st2, heq, h2 4 4 rfl rfl⟩
  · obtain ⟨b, st2, heq, hw, h1, h2, h3, h4⟩ := C5_border_style
      [{ type := "SOLID", color := some ⟨1, 0, 0⟩ }] 2 (some [4, 1, 6]) true
      TokenExtractor.empty { type := "SOLID", color := some ⟨1, 0, 0⟩ }
      ⟨1, 0, 0⟩ rfl rfl rfl (by norm_num)
    refine ⟨b, st2, heq, h3 [4, 1, 6] rfl (by simp) ?_ ?_⟩
    · rintro ⟨d, hd⟩
      simp at hd
    · exact ⟨1, by simp, by norm_num⟩
  · obtain ⟨b, st2, heq, hw, h1, h2, h3, h4⟩ := C5_border_style
      [{ type := "SOLID", color := some ⟨1, 0, 0⟩ }] 2 (some [5, 7]) true
      TokenExtractor.empty { type := "SOLID", color := some ⟨1, 0, 0⟩ }
      ⟨1, 0, 0⟩ rfl rfl rfl (by norm_num)
    refine ⟨b, st2, heq, h4 [5, 7] rfl (by simp) ?_ ?_⟩
    · rintro ⟨d, hd⟩
      have h5 : (5 : ℚ) = d := by
        injection hd
      have h7 : (7 : ℚ) = d := by
        injection hd with _ htl
        injection htl
      rw [← h5] at h7
      norm_num at h7
    · intro d hd
      rcases List.mem_cons.mp hd with h | h
      · subst h
        norm_num
      · rcases List.mem_cons.mp h with h2 | h2
        · subst h2
          norm_num
        · cases h2

/-!
## Pattern name-hint priority
-/

/-- C3: when a node's name matches the grid pattern keywords (the first
entry of the hint table, so it wins outright) and the node has children
but its layout does not wrap, the classifier returns pattern `grid` with
`itemCount` equal to the number of children and no `columns`/`rows`. -/
theorem C3_grid_name_hint (raw : RawNodeData) (cs : List RawNodeData)
    (hname : reTest [rw_ "grid", rw_ "cards", rw_ "products", rw_ "gallery"]
      raw.f.name = true)
    (hch : raw.f.children = some cs)
    (hwrap : raw.f.layoutWrap ≠ some "WRAP") :
    detectPattern raw =
      some ⟨"grid", some (cs.length : ℚ), none, none⟩ := by
  have hfromName : detectPatternFromName raw.f.name = some "grid" := by
    unfold detectPatternFromName PATTERN_NAME_HINTS
    rw [List.find?_cons_of_pos _ (by exact hname)]
    rfl
  unfold detectPattern
  rw [hfromName]
  dsimp only
  rw [hch]
  dsimp only
  rw [if_neg ?hcond]
  case hcond =>
    rintro ⟨-, hw⟩
    exact hwrap hw

theorem C3_grid_name_hint_witness :
    detectPattern (RawNodeData.mk
      { id := "1", name := "ProductGrid", type := "FRAME",
        layoutMode := some "VERTICAL",
        children := some [RawNodeData.mk
            { id := "2", name := "Item1", type := "FRAME" },
          RawNodeData.mk
            { id := "3", name := "Item2", type := "FRAME" }] }) =
      some ⟨"grid", some 2, none, none⟩ := by
  have h := C3_grid_name_hint (RawNodeData.mk
      { id := "1", name := "ProductGrid", type := "FRAME",
        layoutMode := some "VERTICAL",
        children := some [RawNodeData.mk
            { id := "2", name := "Item1", type := "FRAME" },
          RawNodeData.mk
            { id := "3", name := "Item2", type := "FRAME" }] })
    [RawNodeData.mk { id := "2", name := "Item1", type := "FRAME" },
     RawNodeData.mk { id := "3", name := "Item2", type := "FRAME" }]
    (by decide) rfl (by decide)
  simpa using h

/-!
## Breakpoint buckets
-/

theorem bfw_desktop (w : ℚ) (h1 : 1024 ≤ w) (h2 : w ≤ 1919) :
    detectBreakpointFromWidth w = some "desktop" := by
  have ha : ¬(w ≤ 767) := by linarith
  have hb : ¬(w ≤ 1023) := by linarith
  have h0 : (0 : ℚ) ≤ w := by linarith
  have h768 : (768 : ℚ) ≤ w := by linarith
  simp [detectBreakpointFromWidth, BREAKPOINT_WIDTHS, List.find?, ha, hb, h0,
    h768, h1, h2]

theorem bfw_wide (w : ℚ) (h1 : 1920 ≤ w) :
    detectBreakpointFromWidth w = some "wide" := by
  have ha : ¬(w ≤ 767) := by linarith
  have hb : ¬(w ≤ 1023) := by linarith
  have hc : ¬(w ≤ 1919) := by linarith
  have h0 : (0 : ℚ) ≤ w := by linarith
  have h768 : (768 : ℚ) ≤ w := by linarith
  have h1024 : (1024 : ℚ) ≤ w := by linarith
  simp [detectBreakpointFromWidth, BREAKPOINT_WIDTHS, List.find?, ha, hb, hc,
    h0, h768, h1024, h1]

theorem bfw_gap (w : ℚ) (h1 : ¬(w ≤ 1919)) (h2 : ¬(1920 ≤ w)) (h3 : 1024 ≤ w) :
    detectBreakpointFromWidth w = none := by
  have ha : ¬(w ≤ 767) := by linarith
  have hb : ¬(w ≤ 1023) := by linarith
  have h0 : (0 : ℚ) ≤ w := by linarith
  have h768 : (768 : ℚ) ≤ w := by linarith
  simp [detectBreakpointFromWidth, BREAKPOINT_WIDTHS, List.find?, ha, hb, h0,
    h768, h1, h2, h3]

theorem bfw_ge1024 (w : ℚ) (hw : 1024 ≤ w) (bp : String)
    (h : detectBreakpointFromWidth w = some bp) :
    bp = "desktop" ∨ bp = "wide" := by
  by_cases hc : w ≤ 1919
  · left
    rw [bfw_desktop w hw hc] at h
    exact (Option.some.injEq _ _).mp h.symm
  · by_cases hd : (1920 : ℚ) ≤ w
    · right
      rw [bfw_wide w hd] at h
      exact (Option.some.injEq _ _).mp h.symm
    · rw [bfw_gap w hc hd hw] at h
      cases h

/-- C4 (amended): for a node whose name matches no breakpoint keyword,
the responsive analyzer assigns a breakpoint from absolute width only
when the node is at least 1024 units wide, and the assigned label is
always `desktop` or `wide` — never `mobile` and, contrary to the claim,
never `tablet`, because the width gate (≥ 1024) lies entirely above the
tablet bucket (768–1023); every width in 1024–1919 yields `desktop` and
every width at least 1920 yields `wide`. -/
theorem C4_breakpoint_from_width_amended :
    (∀ (raw : RawNodeData) (pl : Option String) (info : ResponsiveInfo)
        (bp : String),
      detectBreakpointFromName raw.f.name = none →
      analyzeResponsive raw pl = some info →
      info.breakpoint = some bp →
      1024 ≤ raw.f.width ∧ (bp = "desktop" ∨ bp = "wide")) ∧
    (∀ w : ℚ, 1024 ≤ w → w ≤ 1919 →
      detectBreakpointFromWidth w = some "desktop") ∧
    (∀ w : ℚ, 1920 ≤ w → detectBreakpointFromWidth w = some "wide") := by
  refine ⟨?_, bfw_desktop, bfw_wide⟩
  intro raw pl info bp hname hresp hbp
  unfold analyzeResponsive at hresp
  rw [hname] at hresp
  dsimp only at hresp
  by_cases hw : raw.f.width ≥ 1024
  · rw [if_pos hw] at hresp
    refine ⟨hw, ?_⟩
    cases heq : detectBreakpointFromWidth raw.f.width with
    | none =>
      rw [heq] at hresp
      dsimp only at hresp
      set fl := if isFluidWidth raw = true then some true else none with hfl
      set gr := (match detectFlexGrow raw pl with
        | some g => if g > 0 then some g else none
        | none => none : Option ℚ) with hgr
      set sh := if raw.f.layoutGrow = some 0 ∧ pl.isSome = true ∧
        pl ≠ some "NONE" then some (0 : ℚ) else none with hsh
      split at hresp
      · cases hresp
      · have hinfo := (Option.some.injEq _ _).mp hresp
        rw [← hinfo] at hbp
        cases hbp
    | some bp0 =>
      rw [heq] at hresp
      dsimp only at hresp
      set fl := if isFluidWidth raw = true then some true else none with hfl
      set gr := (match detectFlexGrow raw pl with
        | some g => if g > 0 then some g else none
        | none => none : Option ℚ) with hgr
      set sh := if raw.f.layoutGrow = some 0 ∧ pl.isSome = true ∧
        pl ≠ some "NONE" then some (0 : ℚ) else none with hsh
      by_cases hm : bp0 ≠ "mobile"
      · rw [if_pos hm] at hresp
        split at hresp
        · cases hresp
        · have hinfo := (Option.some.injEq _ _).mp hresp
          rw [← hinfo] at hbp
          have hbp0 : bp0 = bp := (Option.some.injEq _ _).mp hbp
          rw [← hbp0]
          exact bfw_ge1024 raw.f.width hw bp0 heq
      · rw [if_neg hm] at hresp
        split at hresp
        · cases hresp
        · have hinfo := (Option.some.injEq _ _).mp hresp
          rw [← hinfo] at hbp
          cases hbp
  · rw [if_neg hw] at hresp
    set fl := if isFluidWidth raw = true then some true else none with hfl
    set gr := (match detectFlexGrow raw pl with
      | some g => if g > 0 then some g else none
      | none => none : Option ℚ) with hgr
    set sh := if raw.f.layoutGrow = some 0 ∧ pl.isSome = true ∧
      pl ≠ some "NONE" then some (0 : ℚ) else none with hsh
    split at hresp
    · cases hresp
    · have hinfo := (Option.some.injEq _ _).mp hresp
      rw [← hinfo] at hbp
      cases hbp

/-- C4 counterexample: the claim's tablet bucket is unreachable from
width — no width at all makes the analyzer (on a node whose name matches
no breakpoint keyword) emit the `tablet` breakpoint. -/
theorem C4_counterexample :
    ¬ ∃ (w : ℚ) (info : ResponsiveInfo),
      analyzeResponsive (RawNodeData.mk
        { id := "1", name := "Node", type := "FRAME", width := w })
        none = some info ∧
      info.breakpoint = some "tablet" := by
  rintro ⟨w, info, hresp, hbp⟩
  have hname : detectBreakpointFromName
      (RawNodeData.mk
        { id := "1", name := "Node", type := "FRAME", width := w }).f.name =
      none := rfl
  obtain ⟨-, hcase⟩ := C4_breakpoint_from_width_amended.1 _ none info "tablet"
    hname hresp hbp
  rcases hcase with h | h <;> exact absurd h (by decide)

theorem C4_breakpoint_from_width_amended_witness :
    detectBreakpointFromWidth 1280 = some "desktop" ∧
    detectBreakpointFromWidth 2560 = some "wide" ∧
    (1024 ≤ (1280 : ℚ) ∧ (1280 : ℚ) ≤ 1919) ∧ 1920 ≤ (2560 : ℚ) := by
  refine ⟨?_, ?_, ⟨by norm_num, by norm_num⟩, by norm_num⟩
  · exact C4_breakpoint_from_width_amended.2.1 1280 (by norm_num) (by norm_num)
  · exact C4_breakpoint_from_width_amended.2.2 2560 (by norm_num)

/-!
## Empty selection
-/

/-- C8: with zero root nodes selected the pipeline returns `null`
(no envelope is built at all), which the message handler surfaces as the
single human-readable error message — never an export envelope. -/
theorem C8_empty_selection (jm : JsMath) (options : ExportOptions)
    (rawData : Option RawNodeData) :
    exportSelection jm options [] rawData = none ∧
    handleExportMessage jm options [] rawData =
      UIMessage.error "Please select a frame or component to export." ∧
    ∀ res : ExportResult, handleExportMessage jm options [] rawData ≠
      UIMessage.exportMsg res := by
  refine ⟨rfl, rfl, ?_⟩
  intro res h
  rw [show handleExportMessage jm options [] rawData =
    UIMessage.error "Please select a frame or component to export." from rfl]
    at h
  exact UIMessage.noConfusion h

theorem C8_empty_selection_witness :
    exportSelection ⟨fun _ _ => 0, fun _ => 0⟩ DEFAULT_OPTIONS [] none =
      none ∧
    handleExportMessage ⟨fun _ _ => 0, fun _ => 0⟩ DEFAULT_OPTIONS [] none =
      UIMessage.error "Please select a frame or component to export." ∧
    handleExportMessage ⟨fun _ _ => 0, fun _ => 0⟩ DEFAULT_OPTIONS [] none ≠
      UIMessage.exportMsg ⟨"1.0", [], "", ⟨[], [], []⟩, J.null⟩ := by
  have h := C8_empty_selection ⟨fun _ _ => 0, fun _ => 0⟩ DEFAULT_OPTIONS none
  exact ⟨h.1, h.2.1, h.2.2 _⟩

/-!
## Output tree keys
-/

set_option maxRecDepth 4000 in
/-- C2 (the code as it stands): the export envelope's tree is emitted
with the long property keys (`type`, `name`, `layout`, `gap`, …), not the
short keys the claim (and the export's own `_meta.keys` documentation)
describe — `transformToShortKeys` exists but is never applied on the
export path, as the final conjunct shows by applying it. -/
theorem C2_long_keys_in_export :
    ∃ res : ExportResult,
      exportSelection ⟨fun _ _ => 0, fun _ => 0⟩ DEFAULT_OPTIONS
        [⟨"Box", "FRAME"⟩]
        (some (RawNodeData.mk
          { id := "1:1", name := "Box", type := "FRAME", width := 100,
            height := 50, layoutMode := some "VERTICAL",
            itemSpacing := some 8 })) = some res ∧
      res.tree = J.obj [("type", J.str "frame"), ("name", J.str "Box"),
        ("layout", J.str "col"), ("gap", J.num 8), ("w", J.num 100),
        ("h", J.num 50)] ∧
      res.tree ≠ transformToShortKeys res.tree ∧
      transformToShortKeys res.tree =
        J.obj [("t", J.str "frame"), ("n", J.str "Box"), ("l", J.str "col"),
          ("g", J.num 8), ("w", J.num 100), ("h", J.num 50)] := by
  have hshort : transformToShortKeys
      (J.obj [("type", J.str "frame"), ("name", J.str "Box"),
        ("layout", J.str "col"), ("gap", J.num 8), ("w", J.num 100),
        ("h", J.num 50)]) =
      J.obj [("t", J.str "frame"), ("n", J.str "Box"), ("l", J.str "col"),
        ("g", J.num 8), ("w", J.num 100), ("h", J.num 50)] := by
    simp [transformToShortKeys, shortKeysKVs, shortKeysList, mapShortKey,
      KEY_MAP, List.lookup]
  have htn : transformNode (⟨fun _ _ => 0, fun _ => 0⟩ : JsMath) true
      (RawNodeData.mk
        { id := "1:1", name := "Box", type := "FRAME", width := 100,
          height := 50, layoutMode := some "VERTICAL",
          itemSpacing := some 8 }) TokenExtractor.empty =
      (J.obj [("type", J.str "frame"), ("name", J.str "Box"),
        ("layout", J.str "col"), ("gap", J.num 8), ("w", J.num 100),
        ("h", J.num 50)], TokenExtractor.empty) := by
    simp only [transformNode]
    with_unfolding_all rfl
  refine ⟨⟨"1.0", META, "Box", ⟨[], [], []⟩,
    J.obj [("type", J.str "frame"), ("name", J.str "Box"),
      ("layout", J.str "col"), ("gap", J.num 8), ("w", J.num 100),
      ("h", J.num 50)]⟩, ?_, rfl, ?_, hshort⟩
  · unfold exportSelection transformTree
    simp only [show DEFAULT_OPTIONS.extractTokens = true from rfl]
    rw [htn]
    with_unfolding_all rfl
  · intro h
    rw [hshort] at h
    injection h with hl
    injection hl with hhead
    injection hhead with hk
    exact absurd hk (by decide)

/-!
## The short/long key roundtrip
-/

/-- A key admissible for the roundtrip: a long key of `KEY_MAP`, or a key
unmapped by both `KEY_MAP` and `REVERSE_KEY_MAP`. -/
def keyOK (k : String) : Bool :=
  (KEY_MAP.lookup k).isSome ||
    ((KEY_MAP.lookup k).isNone && (REVERSE_KEY_MAP.lookup k).isNone)

mutual

/-- Every object key occurring anywhere in the value is `keyOK`. -/
def goodKeysB : J → Bool
  | .arr xs => goodKeysList xs
  | .obj kvs => goodKeysKVs kvs
  | _ => true
termination_by j => sizeOf j

/-- `goodKeysB` over array items. -/
def goodKeysList : List J → Bool
  | [] => true
  | x :: xs => goodKeysB x && goodKeysList xs
termination_by xs => sizeOf xs

/-- `goodKeysB` over object entries. -/
def goodKeysKVs : List (String × J) → Bool
  | [] => true
  | (k, v) :: rest => keyOK k && goodKeysB v && goodKeysKVs rest
termination_by kvs => sizeOf kvs

end

/-- Structural induction for the nested inductive `J`. -/
theorem J.inductionOn {motive : J → Prop}
    (hnull : motive .null) (hb : ∀ x, motive (.b x))
    (hnum : ∀ q, motive (.num q)) (hstr : ∀ s, motive (.str s))
    (harr : ∀ xs, (∀ x ∈ xs, motive x) → motive (.arr xs))
    (hobj : ∀ kvs, (∀ p ∈ kvs, motive p.2) → motive (.obj kvs)) :
    ∀ j, motive j
  | .null => hnull
  | .b x => hb x
  | .num q => hnum q
  | .str s => hstr s
  | .arr xs => harr xs (fun x hx =>
      J.inductionOn hnull hb hnum hstr harr hobj x)
  | .obj kvs => hobj kvs (fun p hp =>
      J.inductionOn hnull hb hnum hstr harr hobj p.2)
termination_by j => sizeOf j
decreasing_by
  · have := List.sizeOf_lt_of_mem hx
    simp only [J.arr.sizeOf_spec]
    omega
  · have h1 := List.sizeOf_lt_of_mem hp
    obtain ⟨k, v⟩ := p
    simp only [J.obj.sizeOf_spec, Prod.mk.sizeOf_spec] at *
    omega

/-- Each `KEY_MAP` entry inverts through `REVERSE_KEY_MAP` (the short
forms are pairwise distinct). -/
theorem keymap_roundtrip :
    ∀ p ∈ KEY_MAP, REVERSE_KEY_MAP.lookup p.2 = some p.1 := by
  decide

/-- On an admissible key, `mapLongKey` undoes `mapShortKey`. -/
theorem mapKey_roundtrip (k : String) (hk : keyOK k = true) :
    mapLongKey (mapShortKey k) = k := by
  unfold keyOK at hk
  unfold mapShortKey mapLongKey
  cases hlk : KEY_MAP.lookup k with
  | none =>
    rw [hlk] at hk
    simp only [Option.isSome_none, Bool.false_or, Option.isNone_none,
      Bool.true_and, Option.isNone_iff_eq_none] at hk
    simp only [Option.getD_none, hk]
  | some s =>
    simp only [Option.getD_some]
    rw [keymap_roundtrip (k, s) (lookup_eq_some_mem hlk), Option.getD_some]

/-- Array items roundtrip, given the roundtrip on each item. -/
theorem longKeysList_shortKeysList : ∀ (ys : List J),
    (∀ x ∈ ys, goodKeysB x = true →
      transformToLongKeys (transformToShortKeys x) = x) →
    goodKeysList ys = true →
    longKeysList (shortKeysList ys) = ys := by
  intro ys
  induction ys with
  | nil => intro _ _; simp [shortKeysList, longKeysList]
  | cons x xs ih =>
    intro hih hgood
    rw [goodKeysList, Bool.and_eq_true] at hgood
    obtain ⟨hxg, hxsg⟩ := hgood
    have hx := hih x (List.mem_cons_self x xs) hxg
    have hxs := ih (fun y hy => hih y (List.mem_cons_of_mem x hy)) hxsg
    cases x with
    | arr a =>
      simp only [transformToShortKeys, transformToLongKeys] at hx
      simp only [shortKeysList, longKeysList, transformToShortKeys,
        transformToLongKeys]
      rw [hxs]
      injection hx with ha
      rw [ha]
    | obj o =>
      simp only [transformToShortKeys, transformToLongKeys] at hx
      simp only [shortKeysList, longKeysList, transformToShortKeys,
        transformToLongKeys]
      rw [hxs]
      injection hx with ha
      rw [ha]
    | null => simp only [shortKeysList, longKeysList]; rw [hxs]
    | b v => simp only [shortKeysList, longKeysList]; rw [hxs]
    | num q => simp only [shortKeysList, longKeysList]; rw [hxs]
    | str s => simp only [shortKeysList, longKeysList]; rw [hxs]

/-- Object entries roundtrip, given the roundtrip on each value and
admissible keys. -/
theorem longKeysKVs_shortKeysKVs : ∀ (kvs : List (String × J)),
    (∀ p ∈ kvs, goodKeysB p.2 = true →
      transformToLongKeys (transformToShortKeys p.2) = p.2) →
    goodKeysKVs kvs = true →
    longKeysKVs (shortKeysKVs kvs) = kvs := by
  intro kvs
  induction kvs with
  | nil => intro _ _; simp [shortKeysKVs, longKeysKVs]
  | cons p rest ih =>
    intro hih hgood
    obtain ⟨k, v⟩ := p
    rw [goodKeysKVs, Bool.and_eq_true, Bool.and_eq_true] at hgood
    obtain ⟨⟨hkOK, hvg⟩, hrg⟩ := hgood
    have hv := hih (k, v) (List.mem_cons_self _ _) hvg
    have hr := ih (fun q hq => hih q (List.mem_cons_of_mem _ hq)) hrg
    cases v with
    | arr a =>
      simp only [transformToShortKeys, transformToLongKeys] at hv
      simp only [shortKeysKVs, longKeysKVs, transformToShortKeys,
        transformToLongKeys]
      rw [hr, mapKey_roundtrip k hkOK]
      injection hv with ha
      rw [ha]
    | obj o =>
      simp only [transformToShortKeys, transformToLongKeys] at hv
      simp only [shortKeysKVs, longKeysKVs, transformToShortKeys,
        transformToLongKeys]
      rw [hr, mapKey_roundtrip k hkOK]
      injection hv with ha
      rw [ha]
    | null =>
      simp only [shortKeysKVs, longKeysKVs]
      rw [hr, mapKey_roundtrip k hkOK]
    | b x =>
      simp only [shortKeysKVs, longKeysKVs]
      rw [hr, mapKey_roundtrip k hkOK]
    | num q =>
      simp only [shortKeysKVs, longKeysKVs]
      rw [hr, mapKey_roundtrip k hkOK]
    | str s =>
      simp only [shortKeysKVs, longKeysKVs]
      rw [hr, mapKey_roundtrip k hkOK]

/-- C10: `transformToLongKeys` is a left inverse of
`transformToShortKeys` on every value whose object keys are each either a
long key of `KEY_MAP` or a key unmapped by both `KEY_MAP` and
`REVERSE_KEY_MAP` (the hypothesis `goodKeysB`). -/
theorem C10_short_long_roundtrip (j : J) (h : goodKeysB j = true) :
    transformToLongKeys (transformToShortKeys j) = j := by
  revert h
  induction j using J.inductionOn with
  | hnull => intro _; simp [transformToShortKeys, transformToLongKeys]
  | hb x => intro _; simp [transformToShortKeys, transformToLongKeys]
  | hnum q => intro _; simp [transformToShortKeys, transformToLongKeys]
  | hstr s => intro _; simp [transformToShortKeys, transformToLongKeys]
  | harr xs ih =>
    intro h
    rw [goodKeysB] at h
    simp only [transformToShortKeys, transformToLongKeys]
    rw [longKeysList_shortKeysList xs ih h]
  | hobj kvs ih =>
    intro h
    rw [goodKeysB] at h
    simp only [transformToShortKeys, transformToLongKeys]
    rw [longKeysKVs_shortKeysKVs kvs ih h]

/-- The roundtrip on a concrete nested value: a frame object with a
nested child object and an unmapped key. -/
theorem C10_short_long_roundtrip_witness :
    goodKeysB (J.obj [("type", J.str "frame"), ("name", J.str "Card"),
      ("children", J.arr [J.obj [("type", J.str "text"),
        ("content", J.str "hi"), ("gap", J.num 4)], J.num 7])]) = true ∧
    transformToLongKeys (transformToShortKeys
      (J.obj [("type", J.str "frame"), ("name", J.str "Card"),
        ("children", J.arr [J.obj [("type", J.str "text"),
          ("content", J.str "hi"), ("gap", J.num 4)], J.num 7])])) =
      J.obj [("type", J.str "frame"), ("name", J.str "Card"),
        ("children", J.arr [J.obj [("type", J.str "text"),
          ("content", J.str "hi"), ("gap", J.num 4)], J.num 7])] :=
  ⟨by simp only [goodKeysB, goodKeysKVs, goodKeysList]; decide,
   C10_short_long_roundtrip _
     (by simp only [goodKeysB, goodKeysKVs, goodKeysList]; decide)⟩

/-!
## Token references resolve in the registry
-/

/-- `s` is a token handed out by this kind's table. -/
def KindMap.hasTok (m : KindMap) (s : String) : Prop :=
  ∃ p ∈ m.entries, p.2 = s

/-- `s` is a token handed out by some kind of the registry. -/
def tokMem (st : TokenExtractor) (s : String) : Prop :=
  st.colors.hasTok s ∨ st.fonts.hasTok s ∨ st.shadows.hasTok s

/-- The table grew only by appending entries. -/
def KindMap.grows (m m' : KindMap) : Prop :=
  ∃ l, m'.entries = m.entries ++ l

/-- Registry growth, kind by kind. -/
def TokenExtractor.grows (st st' : TokenExtractor) : Prop :=
  st.colors.grows st'.colors ∧ st.fonts.grows st'.fonts ∧
    st.shadows.grows st'.shadows

/-- A kind table in canonical form: the counter equals the size and the
stored tokens are `pfx ++ "0" … pfx ++ (n-1)` in order. -/
def KindMap.canonicalTok (pfx : String) (m : KindMap) : Prop :=
  m.counter = m.entries.length ∧
  m.entries.map Prod.snd =
    (List.range m.entries.length).map (fun i => pfx ++ Nat.repr i)

/-- Registry canonical form (the invariant of every reachable state). -/
def TokenExtractor.canonicalTok (st : TokenExtractor) : Prop :=
  st.colors.canonicalTok "$c" ∧ st.fonts.canonicalTok "$f" ∧
    st.shadows.canonicalTok "$s"

/-- State evolution along the transformer: entries only appended and
canonical form preserved. -/
def TokenExtractor.evolves (st st' : TokenExtractor) : Prop :=
  TokenExtractor.grows st st' ∧
  (TokenExtractor.canonicalTok st → TokenExtractor.canonicalTok st')

/-- The token references contributed by one entry's value. -/
def valRefs : J → List String
  | .arr a => tokenRefsList a
  | .obj o => tokenRefsKVs o
  | _ => []

theorem tokenRefsKVs_nil : tokenRefsKVs [] = [] := by
  rw [tokenRefsKVs.eq_def]

theorem tokenRefsList_nil : tokenRefsList [] = [] := by
  rw [tokenRefsList.eq_def]

theorem tokenRefs_obj (l : List (String × J)) :
    tokenRefs (J.obj l) = tokenRefsKVs l := by
  rw [tokenRefs.eq_def]

theorem tokenRefs_arr (l : List J) :
    tokenRefs (J.arr l) = tokenRefsList l := by
  rw [tokenRefs.eq_def]

theorem tokenRefsKVs_cons_eq (k : String) (v : J) (rest : List (String × J)) :
    tokenRefsKVs ((k, v) :: rest) =
      (if k = "devInfo" ∨ k = "variantProps" then []
       else if tokenKeys.contains k then
         match v with
         | J.str s => [s]
         | J.arr a => tokenRefs (J.arr a)
         | J.obj o => tokenRefs (J.obj o)
         | _ => []
       else
         match v with
         | J.arr a => tokenRefs (J.arr a)
         | J.obj o => tokenRefs (J.obj o)
         | _ => []) ++ tokenRefsKVs rest := by
  rw [tokenRefsKVs.eq_def]

theorem tokenRefsList_cons_eq (x : J) (xs : List J) :
    tokenRefsList (x :: xs) =
      (match x with
       | J.arr a => tokenRefs (J.arr a)
       | J.obj o => tokenRefs (J.obj o)
       | _ => []) ++ tokenRefsList xs := by
  rw [tokenRefsList.eq_def]

theorem tokenRefsKVs_append (xs ys : List (String × J)) :
    tokenRefsKVs (xs ++ ys) = tokenRefsKVs xs ++ tokenRefsKVs ys := by
  induction xs with
  | nil => simp [tokenRefsKVs_nil]
  | cons p xs ih =>
    obtain ⟨k, v⟩ := p
    rw [List.cons_append, tokenRefsKVs_cons_eq k v (xs ++ ys),
      tokenRefsKVs_cons_eq k v xs, ih, List.append_assoc]

theorem tokenRefsList_append (xs ys : List J) :
    tokenRefsList (xs ++ ys) = tokenRefsList xs ++ tokenRefsList ys := by
  induction xs with
  | nil => simp [tokenRefsList_nil]
  | cons x xs ih =>
    rw [List.cons_append, tokenRefsList_cons_eq x (xs ++ ys),
      tokenRefsList_cons_eq x xs, ih, List.append_assoc]

theorem tokenRefsKVs_cons_skip (k : String) (v : J) (rest : List (String × J))
    (h : k = "devInfo" ∨ k = "variantProps") :
    tokenRefsKVs ((k, v) :: rest) = tokenRefsKVs rest := by
  rw [tokenRefsKVs_cons_eq, if_pos h]
  simp

theorem tokenRefsKVs_cons_tok (k s : String) (rest : List (String × J))
    (h1 : ¬(k = "devInfo" ∨ k = "variantProps"))
    (h2 : tokenKeys.contains k = true) :
    tokenRefsKVs ((k, J.str s) :: rest) = s :: tokenRefsKVs rest := by
  rw [tokenRefsKVs_cons_eq, if_neg h1, h2]
  simp

theorem tokenRefsKVs_cons_val (k : String) (v : J) (rest : List (String × J))
    (h1 : ¬(k = "devInfo" ∨ k = "variantProps"))
    (hv : ∀ s, v ≠ J.str s) :
    tokenRefsKVs ((k, v) :: rest) = valRefs v ++ tokenRefsKVs rest := by
  rw [tokenRefsKVs_cons_eq, if_neg h1]
  cases hc : tokenKeys.contains k with
  | false =>
    cases v <;> simp [valRefs, tokenRefs_obj, tokenRefs_arr]
  | true =>
    cases v with
    | str s => exact absurd rfl (hv s)
    | arr a => simp [valRefs, tokenRefs_arr]
    | obj o => simp [valRefs, tokenRefs_obj]
    | null => simp [valRefs]
    | b x => simp [valRefs]
    | num q => simp [valRefs]

theorem tokenRefsKVs_cons_str_plain (k s : String) (rest : List (String × J))
    (h1 : ¬(k = "devInfo" ∨ k = "variantProps"))
    (h2 : tokenKeys.contains k = false) :
    tokenRefsKVs ((k, J.str s) :: rest) = tokenRefsKVs rest := by
  rw [tokenRefsKVs_cons_eq, if_neg h1, h2]
  simp

theorem kindGrows_refl (m : KindMap) : m.grows m := ⟨[], by simp⟩

theorem kindGrows_trans {m1 m2 m3 : KindMap} (h1 : m1.grows m2)
    (h2 : m2.grows m3) : m1.grows m3 := by
  obtain ⟨l1, h1⟩ := h1
  obtain ⟨l2, h2⟩ := h2
  exact ⟨l1 ++ l2, by rw [h2, h1, List.append_assoc]⟩

theorem TokenExtractor.grows_refl (st : TokenExtractor) : st.grows st :=
  ⟨kindGrows_refl _, kindGrows_refl _, kindGrows_refl _⟩

theorem TokenExtractor.grows_trans {s1 s2 s3 : TokenExtractor}
    (h1 : s1.grows s2) (h2 : s2.grows s3) : s1.grows s3 :=
  ⟨kindGrows_trans h1.1 h2.1, kindGrows_trans h1.2.1 h2.2.1,
   kindGrows_trans h1.2.2 h2.2.2⟩

theorem TokenExtractor.evolves_refl (st : TokenExtractor) : st.evolves st :=
  ⟨TokenExtractor.grows_refl st, id⟩

theorem TokenExtractor.evolves_trans {s1 s2 s3 : TokenExtractor}
    (h1 : s1.evolves s2) (h2 : s2.evolves s3) : s1.evolves s3 :=
  ⟨TokenExtractor.grows_trans h1.1 h2.1, fun hc => h2.2 (h1.2 hc)⟩

theorem KindMap.hasTok_mono {m m' : KindMap} {s : String} (h : m.grows m')
    (ht : m.hasTok s) : m'.hasTok s := by
  obtain ⟨l, hl⟩ := h
  obtain ⟨p, hp, hs⟩ := ht
  exact ⟨p, by rw [hl]; exact List.mem_append_left _ hp, hs⟩

theorem tokMem_mono {st st' : TokenExtractor} {s : String}
    (h : TokenExtractor.grows st st') (ht : tokMem st s) : tokMem st' s := by
  rcases ht with hc | hf | hs
  · exact Or.inl (KindMap.hasTok_mono h.1 hc)
  · exact Or.inr (Or.inl (KindMap.hasTok_mono h.2.1 hf))
  · exact Or.inr (Or.inr (KindMap.hasTok_mono h.2.2 hs))

theorem intern_grows (norm : String → String) (pfx : String) (m : KindMap)
    (v : String) : m.grows (KindMap.intern norm pfx m v).2 := by
  unfold KindMap.intern
  dsimp only
  cases hl : List.lookup (norm v) m.entries with
  | some t => exact kindGrows_refl m
  | none => exact ⟨[(norm v, pfx ++ Nat.repr m.counter)], rfl⟩

theorem intern_hasTok (norm : String → String) (pfx : String) (m : KindMap)
    (v : String) :
    (KindMap.intern norm pfx m v).2.hasTok (KindMap.intern norm pfx m v).1 := by
  unfold KindMap.intern
  dsimp only
  cases hl : List.lookup (norm v) m.entries with
  | some t =>
    exact ⟨(norm v, t), lookup_eq_some_mem hl, rfl⟩
  | none =>
    exact ⟨(norm v, pfx ++ Nat.repr m.counter),
      List.mem_append_right _ (List.mem_singleton.mpr rfl), rfl⟩

theorem intern_canonicalTok (norm : String → String) (pfx : String)
    (m : KindMap) (v : String) (h : m.canonicalTok pfx) :
    (KindMap.intern norm pfx m v).2.canonicalTok pfx := by
  unfold KindMap.intern
  dsimp only
  cases hl : List.lookup (norm v) m.entries with
  | some t => exact h
  | none =>
    obtain ⟨hc, hm⟩ := h
    constructor
    · simp [hc]
    · simp only [List.map_append, List.length_append, List.map_cons,
        List.map_nil, List.length_cons, List.length_nil]
      rw [hm, hc]
      rw [show m.entries.length + 0 + 1 = m.entries.length + 1 by omega,
        List.range_succ, List.map_append]
      simp

theorem addColor_evolves (st : TokenExtractor) (c : String) :
    st.evolves (st.addColor c).2 := by
  unfold TokenExtractor.addColor
  cases hi : st.colors.intern jsToUpper "$c" c with
  | mk t m =>
    refine ⟨⟨?_, kindGrows_refl _, kindGrows_refl _⟩, ?_⟩
    · have := intern_grows jsToUpper "$c" st.colors c
      rw [hi] at this
      exact this
    · intro hc
      refine ⟨?_, hc.2.1, hc.2.2⟩
      have := intern_canonicalTok jsToUpper "$c" st.colors c hc.1
      rw [hi] at this
      exact this

theorem addColor_tok (st : TokenExtractor) (c : String) :
    tokMem (st.addColor c).2 (st.addColor c).1 := by
  unfold TokenExtractor.addColor
  cases hi : st.colors.intern jsToUpper "$c" c with
  | mk t m =>
    have := intern_hasTok jsToUpper "$c" st.colors c
    rw [hi] at this
    exact Or.inl this

theorem addFont_evolves (st : TokenExtractor) (c : String) :
    st.evolves (st.addFont c).2 := by
  unfold TokenExtractor.addFont
  cases hi : st.fonts.intern jsTrim "$f" c with
  | mk t m =>
    refine ⟨⟨kindGrows_refl _, ?_, kindGrows_refl _⟩, ?_⟩
    · have := intern_grows jsTrim "$f" st.fonts c
      rw [hi] at this
      exact this
    · intro hc
      refine ⟨hc.1, ?_, hc.2.2⟩
      have := intern_canonicalTok jsTrim "$f" st.fonts c hc.2.1
      rw [hi] at this
      exact this

theorem addFont_tok (st : TokenExtractor) (c : String) :
    tokMem (st.addFont c).2 (st.addFont c).1 := by
  unfold TokenExtractor.addFont
  cases hi : st.fonts.intern jsTrim "$f" c with
  | mk t m =>
    have := intern_hasTok jsTrim "$f" st.fonts c
    rw [hi] at this
    exact Or.inr (Or.inl this)

theorem addShadow_evolves (st : TokenExtractor) (c : String) :
    st.evolves (st.addShadow c).2 := by
  unfold TokenExtractor.addShadow
  cases hi : st.shadows.intern jsTrim "$s" c with
  | mk t m =>
    refine ⟨⟨kindGrows_refl _, kindGrows_refl _, ?_⟩, ?_⟩
    · have := intern_grows jsTrim "$s" st.shadows c
      rw [hi] at this
      exact this
    · intro hc
      refine ⟨hc.1, hc.2.1, ?_⟩
      have := intern_canonicalTok jsTrim "$s" st.shadows c hc.2.2
      rw [hi] at this
      exact this

theorem addShadow_tok (st : TokenExtractor) (c : String) :
    tokMem (st.addShadow c).2 (st.addShadow c).1 := by
  unfold TokenExtractor.addShadow
  cases hi : st.shadows.intern jsTrim "$s" c with
  | mk t m =>
    have := intern_hasTok jsTrim "$s" st.shadows c
    rw [hi] at this
    exact Or.inr (Or.inr this)

theorem internColor_true (st : TokenExtractor) (c : String) :
    internColor true st c = st.addColor c := by
  simp [internColor]

theorem internFont_true (st : TokenExtractor) (c : String) :
    internFont true st c = st.addFont c := by
  simp [internFont]

theorem internShadow_true (st : TokenExtractor) (c : String) :
    internShadow true st c = st.addShadow c := by
  simp [internShadow]

theorem optField_some (k : String) (j : J) : optField k (some j) = [(k, j)] :=
  rfl

theorem refs_singleton_str (k s : String)
    (h1 : ¬(k = "devInfo" ∨ k = "variantProps"))
    (h2 : tokenKeys.contains k = false) :
    tokenRefsKVs [(k, J.str s)] = [] := by
  rw [tokenRefsKVs_cons_str_plain k s [] h1 h2]
  exact tokenRefsKVs_nil

theorem refs_singleton_val (k : String) (v : J)
    (h1 : ¬(k = "devInfo" ∨ k = "variantProps"))
    (hv : ∀ s, v ≠ J.str s) (hval : valRefs v = []) :
    tokenRefsKVs [(k, v)] = [] := by
  rw [tokenRefsKVs_cons_val k v [] h1 hv, hval, tokenRefsKVs_nil]
  rfl

theorem refs_singleton_skip (k : String) (v : J)
    (h : k = "devInfo" ∨ k = "variantProps") :
    tokenRefsKVs [(k, v)] = [] := by
  rw [tokenRefsKVs_cons_skip k v [] h]
  exact tokenRefsKVs_nil

theorem refs_ite (c : Prop) [Decidable c] (xs ys : List (String × J))
    (hx : tokenRefsKVs xs = []) (hy : tokenRefsKVs ys = []) :
    tokenRefsKVs (if c then xs else ys) = [] := by
  split <;> assumption

theorem refs_app {xs ys : List (String × J)} (hx : tokenRefsKVs xs = [])
    (hy : tokenRefsKVs ys = []) : tokenRefsKVs (xs ++ ys) = [] := by
  rw [tokenRefsKVs_append, hx, hy]
  rfl

theorem refs_optField (k : String) (ov : Option J)
    (h : ∀ j, ov = some j → tokenRefsKVs [(k, j)] = []) :
    tokenRefsKVs (optField k ov) = [] := by
  cases ov with
  | none => exact tokenRefsKVs_nil
  | some j => exact h j rfl

theorem refs_frameTypeFields (raw : RawNodeData) :
    tokenRefsKVs (frameTypeFields raw) = [] := by
  unfold frameTypeFields
  exact refs_singleton_str _ _ (by decide) (by decide)

theorem refs_frameNameFields (raw : RawNodeData) :
    tokenRefsKVs (frameNameFields raw) = [] := by
  unfold frameNameFields
  exact refs_ite _ _ _ (refs_singleton_str _ _ (by decide) (by decide))
    tokenRefsKVs_nil

theorem refs_frameLayoutFields (raw : RawNodeData) :
    tokenRefsKVs (frameLayoutFields raw) = [] := by
  unfold frameLayoutFields
  refine refs_ite _ _ _ ?_ tokenRefsKVs_nil
  refine refs_app (refs_app (refs_app (refs_app (refs_app ?_ ?_) ?_) ?_) ?_) ?_
  · exact refs_singleton_str _ _ (by decide) (by decide)
  · exact refs_ite _ _ _
      (refs_singleton_val _ _ (by decide) (fun s h => J.noConfusion h) rfl)
      tokenRefsKVs_nil
  · refine refs_optField _ _ ?_
    intro j hj
    obtain ⟨nq, hnq, rfl⟩ := Option.map_eq_some'.mp hj
    cases nq with
    | one q =>
      exact refs_singleton_val _ _ (by decide) (fun s h => J.noConfusion h) rfl
    | four a b c d =>
      exact refs_singleton_val _ _ (by decide) (fun s h => J.noConfusion h)
        (by simp [NumQuad.toJ, valRefs, tokenRefsList])
  · cases mapJustify raw.f.primaryAxisAlignItems with
    | none => exact tokenRefsKVs_nil
    | some j =>
      exact refs_ite _ _ _ (refs_singleton_str _ _ (by decide) (by decide))
        tokenRefsKVs_nil
  · cases mapAlign raw.f.counterAxisAlignItems with
    | none => exact tokenRefsKVs_nil
    | some a =>
      exact refs_ite _ _ _ (refs_singleton_str _ _ (by decide) (by decide))
        tokenRefsKVs_nil
  · exact refs_ite _ _ _
      (refs_singleton_val _ _ (by decide) (fun s h => J.noConfusion h) rfl)
      tokenRefsKVs_nil

theorem refs_cons_num (k : String) (q : ℚ) (rest : List (String × J))
    (h1 : ¬(k = "devInfo" ∨ k = "variantProps")) :
    tokenRefsKVs ((k, J.num q) :: rest) = tokenRefsKVs rest := by
  rw [tokenRefsKVs_cons_val k _ rest h1 (fun s h => J.noConfusion h),
    show valRefs (J.num q) = [] from rfl, List.nil_append]

theorem refs_cons_b (k : String) (x : Bool) (rest : List (String × J))
    (h1 : ¬(k = "devInfo" ∨ k = "variantProps")) :
    tokenRefsKVs ((k, J.b x) :: rest) = tokenRefsKVs rest := by
  rw [tokenRefsKVs_cons_val k _ rest h1 (fun s h => J.noConfusion h),
    show valRefs (J.b x) = [] from rfl, List.nil_append]

theorem refs_cons_obj (k : String) (o : List (String × J))
    (rest : List (String × J)) (h1 : ¬(k = "devInfo" ∨ k = "variantProps"))
    (ho : tokenRefsKVs o = []) :
    tokenRefsKVs ((k, J.obj o) :: rest) = tokenRefsKVs rest := by
  rw [tokenRefsKVs_cons_val k _ rest h1 (fun s h => J.noConfusion h),
    show valRefs (J.obj o) = tokenRefsKVs o from rfl, ho, List.nil_append]

theorem refs_cons_arr (k : String) (a : List J) (rest : List (String × J))
    (h1 : ¬(k = "devInfo" ∨ k = "variantProps"))
    (ha : tokenRefsList a = []) :
    tokenRefsKVs ((k, J.arr a) :: rest) = tokenRefsKVs rest := by
  rw [tokenRefsKVs_cons_val k _ rest h1 (fun s h => J.noConfusion h),
    show valRefs (J.arr a) = tokenRefsList a from rfl, ha, List.nil_append]

theorem refs_cons_dim (k : String) (d : Dim) (rest : List (String × J))
    (h1 : ¬(k = "devInfo" ∨ k = "variantProps"))
    (h2 : tokenKeys.contains k = false) :
    tokenRefsKVs ((k, d.toJ) :: rest) = tokenRefsKVs rest := by
  cases d with
  | hug => exact tokenRefsKVs_cons_str_plain _ _ _ h1 h2
  | px n =>
    rw [show Dim.toJ (Dim.px n) = J.num (n : ℚ) from rfl]
    exact refs_cons_num _ _ _ h1

theorem refs_optField_quad (k : String)
    (h1 : ¬(k = "devInfo" ∨ k = "variantProps")) (onq : Option NumQuad) :
    tokenRefsKVs (optField k (onq.map NumQuad.toJ)) = [] := by
  refine refs_optField _ _ ?_
  intro j hj
  obtain ⟨nq, hnq, rfl⟩ := Option.map_eq_some'.mp hj
  cases nq with
  | one q =>
    exact refs_singleton_val _ _ h1 (fun s h => J.noConfusion h) rfl
  | four a b c d =>
    exact refs_singleton_val _ _ h1 (fun s h => J.noConfusion h)
      (by simp [NumQuad.toJ, valRefs, tokenRefsList])

theorem refs_frameWhFields (raw : RawNodeData) :
    tokenRefsKVs (frameWhFields raw) = [] := by
  unfold frameWhFields
  rw [refs_cons_dim _ _ _ (by decide) (by decide),
    refs_cons_dim _ _ _ (by decide) (by decide), tokenRefsKVs_nil]

theorem refs_framePosFields (raw : RawNodeData) :
    tokenRefsKVs (framePosFields raw) = [] := by
  unfold framePosFields
  refine refs_ite _ _ _ ?_ tokenRefsKVs_nil
  rw [tokenRefsKVs_cons_str_plain _ _ _ (by decide) (by decide),
    refs_cons_num _ _ _ (by decide), refs_cons_num _ _ _ (by decide),
    tokenRefsKVs_nil]

theorem refs_frameConstraintsFields (raw : RawNodeData) :
    tokenRefsKVs (frameConstraintsFields raw) = [] := by
  unfold frameConstraintsFields
  cases raw.f.constraints with
  | none => exact tokenRefsKVs_nil
  | some c =>
    refine refs_ite _ _ _ ?_ tokenRefsKVs_nil
    refine refs_cons_obj _ _ _ (by decide) ?_ |>.trans tokenRefsKVs_nil
    rw [tokenRefsKVs_cons_str_plain _ _ _ (by decide) (by decide),
      tokenRefsKVs_cons_str_plain _ _ _ (by decide) (by decide),
      tokenRefsKVs_nil]

theorem refs_frameOpacityFields (raw : RawNodeData) :
    tokenRefsKVs (frameOpacityFields raw) = [] := by
  unfold frameOpacityFields
  cases raw.f.opacity with
  | none => exact tokenRefsKVs_nil
  | some o =>
    refine refs_ite _ _ _ ?_ tokenRefsKVs_nil
    rw [refs_cons_num _ _ _ (by decide), tokenRefsKVs_nil]

theorem refs_frameRadiusFields (raw : RawNodeData) :
    tokenRefsKVs (frameRadiusFields raw) = [] := by
  unfold frameRadiusFields
  exact refs_optField_quad _ (by decide) _

theorem refs_frameBlurFields (raw : RawNodeData) :
    tokenRefsKVs (frameBlurFields raw) = [] := by
  unfold frameBlurFields
  cases (raw.f.effects.getD []).find? (fun e =>
      e.type = "BACKGROUND_BLUR" ∧ e.visible ≠ some false) with
  | none => exact tokenRefsKVs_nil
  | some e =>
    refine refs_ite _ _ _ ?_ tokenRefsKVs_nil
    rw [refs_cons_num _ _ _ (by decide), tokenRefsKVs_nil]

theorem refs_frameBackdropFields (raw : RawNodeData) :
    tokenRefsKVs (frameBackdropFields raw) = [] := by
  unfold frameBackdropFields
  cases (raw.f.effects.getD []).find? (fun e =>
      e.type = "LAYER_BLUR" ∧ e.visible ≠ some false) with
  | none => exact tokenRefsKVs_nil
  | some e =>
    refine refs_ite _ _ _ ?_ tokenRefsKVs_nil
    rw [refs_cons_num _ _ _ (by decide), tokenRefsKVs_nil]

theorem refs_frameBlendFields (raw : RawNodeData) :
    tokenRefsKVs (frameBlendFields raw) = [] := by
  unfold frameBlendFields
  cases raw.f.blendMode with
  | none => exact tokenRefsKVs_nil
  | some m =>
    dsimp only
    cases mapBlendMode m with
    | none => exact tokenRefsKVs_nil
    | some mm =>
      dsimp only
      rw [tokenRefsKVs_cons_str_plain _ _ _ (by decide) (by decide),
        tokenRefsKVs_nil]

theorem refs_frameRotateFields (raw : RawNodeData) :
    tokenRefsKVs (frameRotateFields raw) = [] := by
  unfold frameRotateFields
  refine refs_ite _ _ _ ?_ tokenRefsKVs_nil
  rw [refs_cons_num _ _ _ (by decide), tokenRefsKVs_nil]

theorem refs_frameAspectFields (raw : RawNodeData) :
    tokenRefsKVs (frameAspectFields raw) = [] := by
  unfold frameAspectFields
  refine refs_ite _ _ _ ?_ tokenRefsKVs_nil
  refine refs_ite _ _ _ ?_ tokenRefsKVs_nil
  refine refs_ite _ _ _ ?_ tokenRefsKVs_nil
  rw [refs_cons_num _ _ _ (by decide), tokenRefsKVs_nil]

theorem refs_frameZFields (raw : RawNodeData) :
    tokenRefsKVs (frameZFields raw) = [] := by
  unfold frameZFields
  refine refs_ite _ _ _ ?_ tokenRefsKVs_nil
  rw [refs_cons_num _ _ _ (by decide), tokenRefsKVs_nil]

theorem refs_frameOrderFields (raw : RawNodeData) :
    tokenRefsKVs (frameOrderFields raw) = [] := by
  unfold frameOrderFields
  cases raw.f.orderIndex with
  | none => exact tokenRefsKVs_nil
  | some oi =>
    cases raw.f.siblingCount with
    | none => exact tokenRefsKVs_nil
    | some sc =>
      refine refs_ite _ _ _ ?_ tokenRefsKVs_nil
      refine refs_app (refs_app ?_ ?_) ?_
      · rw [refs_cons_num _ _ _ (by decide), tokenRefsKVs_nil]
      · refine refs_ite _ _ _ ?_ tokenRefsKVs_nil
        rw [refs_cons_b _ _ _ (by decide), tokenRefsKVs_nil]
      · refine refs_ite _ _ _ ?_ tokenRefsKVs_nil
        rw [refs_cons_b _ _ _ (by decide), tokenRefsKVs_nil]

theorem refs_frameOverflowFields (raw : RawNodeData) :
    tokenRefsKVs (frameOverflowFields raw) = [] := by
  unfold frameOverflowFields
  refine refs_ite _ _ _ ?_ tokenRefsKVs_nil
  rw [tokenRefsKVs_cons_str_plain _ _ _ (by decide) (by decide),
    tokenRefsKVs_nil]

theorem refs_frameDevFields (raw : RawNodeData) :
    tokenRefsKVs (frameDevFields raw) = [] := by
  unfold frameDevFields
  refine refs_ite _ _ _ ?_ tokenRefsKVs_nil
  exact refs_singleton_skip _ _ (by decide)

theorem tokenRefsList_cons_val (x : J) (xs : List J) :
    tokenRefsList (x :: xs) = valRefs x ++ tokenRefsList xs := by
  rw [tokenRefsList_cons_eq]
  cases x <;> simp [valRefs, tokenRefs_obj, tokenRefs_arr]

theorem valRefs_eq_tokenRefs (j : J) : valRefs j = tokenRefs j := by
  cases j with
  | arr a => rw [tokenRefs_arr]; rfl
  | obj o => rw [tokenRefs_obj]; rfl
  | null => rw [tokenRefs.eq_def]; rfl
  | b x => rw [tokenRefs.eq_def]; rfl
  | num q => rw [tokenRefs.eq_def]; rfl
  | str s => rw [tokenRefs.eq_def]; rfl

theorem refs_optField_str (k : String)
    (h1 : ¬(k = "devInfo" ∨ k = "variantProps"))
    (h2 : tokenKeys.contains k = false) (os : Option String) :
    tokenRefsKVs (optField k (os.map J.str)) = [] := by
  refine refs_optField _ _ ?_
  intro j hj
  obtain ⟨s, hs, rfl⟩ := Option.map_eq_some'.mp hj
  exact refs_singleton_str _ _ h1 h2

theorem refs_optField_b (k : String)
    (h1 : ¬(k = "devInfo" ∨ k = "variantProps")) (ob : Option Bool) :
    tokenRefsKVs (optField k (ob.map J.b)) = [] := by
  refine refs_optField _ _ ?_
  intro j hj
  obtain ⟨x, hx, rfl⟩ := Option.map_eq_some'.mp hj
  rw [refs_cons_b _ _ _ h1, tokenRefsKVs_nil]

theorem refs_optField_num (k : String)
    (h1 : ¬(k = "devInfo" ∨ k = "variantProps")) (oq : Option ℚ) :
    tokenRefsKVs (optField k (oq.map J.num)) = [] := by
  refine refs_optField _ _ ?_
  intro j hj
  obtain ⟨q, hq, rfl⟩ := Option.map_eq_some'.mp hj
  rw [refs_cons_num _ _ _ h1, tokenRefsKVs_nil]

theorem refs_frameResponsiveFields (raw : RawNodeData) :
    tokenRefsKVs (frameResponsiveFields raw) = [] := by
  unfold frameResponsiveFields
  cases analyzeResponsive raw raw.f.parentLayoutMode with
  | none => exact tokenRefsKVs_nil
  | some info =>
    refine refs_cons_obj _ _ _ (by decide) ?_ |>.trans tokenRefsKVs_nil
    refine refs_app (refs_app (refs_app ?_ ?_) ?_) ?_
    · exact refs_optField_str _ (by decide) (by decide) _
    · exact refs_optField_b _ (by decide) _
    · exact refs_optField_num _ (by decide) _
    · exact refs_optField_num _ (by decide) _

theorem refs_frameInstanceFields (raw : RawNodeData) :
    tokenRefsKVs (frameInstanceFields raw) = [] := by
  unfold frameInstanceFields
  refine refs_ite _ _ _ ?_ tokenRefsKVs_nil
  cases raw.f.mainComponent with
  | none => exact tokenRefsKVs_nil
  | some mc =>
    refine refs_app (refs_app ?_ ?_) ?_
    · exact refs_singleton_str _ _ (by decide) (by decide)
    · cases mc.variantProperties with
      | none => exact tokenRefsKVs_nil
      | some vp =>
        refine refs_ite _ _ _ ?_ tokenRefsKVs_nil
        exact refs_singleton_skip _ _ (by decide)
    · cases mc.description with
      | none => exact tokenRefsKVs_nil
      | some ds =>
        refine refs_ite _ _ _ ?_ tokenRefsKVs_nil
        exact refs_singleton_str _ _ (by decide) (by decide)

theorem refs_frameSemanticFields (raw : RawNodeData) :
    tokenRefsKVs (frameSemanticFields raw) = [] := by
  unfold frameSemanticFields
  cases analyzeSemantics raw with
  | none => exact tokenRefsKVs_nil
  | some sa =>
    refine refs_cons_obj _ _ _ (by decide) ?_ |>.trans tokenRefsKVs_nil
    refine refs_app (refs_app ?_ ?_) ?_
    · exact refs_optField_str _ (by decide) (by decide) _
    · exact refs_optField_b _ (by decide) _
    · exact refs_optField_str _ (by decide) (by decide) _

theorem valRefs_interactionJ (r : Reaction) : valRefs (interactionJ r) = [] := by
  unfold interactionJ
  have hobj : ∀ l, valRefs (J.obj l) = tokenRefsKVs l := fun l => rfl
  rw [hobj]
  refine refs_app (refs_app (refs_app ?_ ?_) ?_) ?_
  · rw [tokenRefsKVs_cons_str_plain _ _ _ (by decide) (by decide),
      tokenRefsKVs_cons_str_plain _ _ _ (by decide) (by decide),
      tokenRefsKVs_nil]
  · cases r.destinationName with
    | none => exact tokenRefsKVs_nil
    | some dn =>
      refine refs_ite _ _ _ ?_ tokenRefsKVs_nil
      exact refs_singleton_str _ _ (by decide) (by decide)
  · cases r.url with
    | none => exact tokenRefsKVs_nil
    | some u =>
      refine refs_ite _ _ _ ?_ tokenRefsKVs_nil
      exact refs_singleton_str _ _ (by decide) (by decide)
  · cases r.transition with
    | none => exact tokenRefsKVs_nil
    | some tr =>
      refine refs_ite _ _ _ ?_ tokenRefsKVs_nil
      exact refs_singleton_str _ _ (by decide) (by decide)

theorem refs_interactions_list (rs : List Reaction) :
    tokenRefsList (rs.map interactionJ) = [] := by
  induction rs with
  | nil => exact tokenRefsList_nil
  | cons r rs ih =>
    rw [List.map_cons, tokenRefsList_cons_val, valRefs_interactionJ,
      List.nil_append, ih]

theorem refs_frameInteractionFields (raw : RawNodeData) :
    tokenRefsKVs (frameInteractionFields raw) = [] := by
  unfold frameInteractionFields
  cases raw.f.reactions with
  | none => exact tokenRefsKVs_nil
  | some rs =>
    refine refs_ite _ _ _ ?_ tokenRefsKVs_nil
    refine refs_cons_arr _ _ _ (by decide) ?_ |>.trans tokenRefsKVs_nil
    exact refs_interactions_list rs

theorem refs_framePatternFields (raw : RawNodeData) :
    tokenRefsKVs (framePatternFields raw) = [] := by
  unfold framePatternFields
  cases detectPattern raw with
  | none => exact tokenRefsKVs_nil
  | some pinfo =>
    refine refs_cons_obj _ _ _ (by decide) ?_ |>.trans tokenRefsKVs_nil
    refine refs_app (refs_app (refs_app ?_ ?_) ?_) ?_
    · exact refs_singleton_str _ _ (by decide) (by decide)
    · exact refs_optField_num _ (by decide) _
    · exact refs_optField_num _ (by decide) _
    · exact refs_optField_num _ (by decide) _

theorem refs_transformImageNode (jm : JsMath) (raw : RawNodeData) :
    tokenRefs (transformImageNode jm raw) = [] := by
  unfold transformImageNode
  rw [tokenRefs_obj]
  refine refs_app (refs_app (refs_app (refs_app (refs_app (refs_app
    (refs_app (refs_app ?_ ?_) ?_) ?_) ?_) ?_) ?_) ?_) ?_
  · exact refs_singleton_str _ _ (by decide) (by decide)
  · refine refs_ite _ _ _ ?_ tokenRefsKVs_nil
    rw [tokenRefsKVs_cons_str_plain _ _ _ (by decide) (by decide),
      tokenRefsKVs_cons_str_plain _ _ _ (by decide) (by decide),
      tokenRefsKVs_nil]
  · rw [refs_cons_dim _ _ _ (by decide) (by decide),
      refs_cons_dim _ _ _ (by decide) (by decide), tokenRefsKVs_nil]
  · exact refs_optField_quad _ (by decide) _
  · cases (raw.f.fills.getD []).find? (fun f => f.type = "IMAGE") with
    | none => exact tokenRefsKVs_nil
    | some imageFill =>
      refine refs_ite _ _ _ ?_ ?_
      · exact refs_singleton_str _ _ (by decide) (by decide)
      refine refs_ite _ _ _ ?_ ?_
      · exact refs_singleton_str _ _ (by decide) (by decide)
      refine refs_ite _ _ _ ?_ tokenRefsKVs_nil
      exact refs_singleton_str _ _ (by decide) (by decide)
  · cases raw.f.imageRef with
    | none => exact tokenRefsKVs_nil
    | some ir =>
      refine refs_ite _ _ _ ?_ tokenRefsKVs_nil
      exact refs_singleton_str _ _ (by decide) (by decide)
  · exact refs_singleton_str _ _ (by decide) (by decide)
  · refine refs_cons_obj _ _ _ (by decide) ?_ |>.trans tokenRefsKVs_nil
    rw [refs_cons_num _ _ _ (by decide), refs_cons_num _ _ _ (by decide),
      tokenRefsKVs_nil]
  · cases raw.f.imageTransform with
    | none => exact tokenRefsKVs_nil
    | some t =>
      refine refs_ite _ _ _ ?_ tokenRefsKVs_nil
      refine refs_ite _ _ _ ?_ tokenRefsKVs_nil
      refine refs_cons_obj _ _ _ (by decide) ?_ |>.trans tokenRefsKVs_nil
      rw [refs_cons_num _ _ _ (by decide), refs_cons_num _ _ _ (by decide),
        refs_cons_num _ _ _ (by decide), refs_cons_num _ _ _ (by decide),
        tokenRefsKVs_nil]

theorem valRefs_obj (l : List (String × J)) : valRefs (J.obj l) = tokenRefsKVs l :=
  rfl

theorem valRefs_arr (l : List J) : valRefs (J.arr l) = tokenRefsList l :=
  rfl

theorem refs_optField_ifnum (k : String)
    (h1 : ¬(k = "devInfo" ∨ k = "variantProps")) (c : Prop) [Decidable c]
    (q : ℚ) :
    tokenRefsKVs (optField k (if c then some (J.num q) else none)) = [] := by
  split
  · rw [show optField k (some (J.num q)) = [(k, J.num q)] from rfl,
      refs_cons_num _ _ _ h1, tokenRefsKVs_nil]
  · exact tokenRefsKVs_nil

theorem gradientStopsJ_refs (stops : List GradientStop) :
    ∀ st : TokenExtractor,
      st.evolves (gradientStopsJ true st stops).2 ∧
      ∀ s ∈ tokenRefsList (gradientStopsJ true st stops).1,
        tokMem (gradientStopsJ true st stops).2 s := by
  induction stops with
  | nil =>
    intro st
    refine ⟨TokenExtractor.evolves_refl st, ?_⟩
    intro s hs
    rw [show (gradientStopsJ true st []).1 = [] from rfl,
      tokenRefsList_nil] at hs
    exact absurd hs (List.not_mem_nil s)
  | cons stop rest ih =>
    intro st
    unfold gradientStopsJ
    dsimp only
    rw [internColor_true]
    cases hadd : st.addColor
        (rgbaToString stop.color.r stop.color.g stop.color.b stop.color.a) with
    | mk c st1 =>
      cases hg : gradientStopsJ true st1 rest with
      | mk js st2 =>
        have hev1 : st.evolves st1 := by
          have := addColor_evolves st
            (rgbaToString stop.color.r stop.color.g stop.color.b stop.color.a)
          rw [hadd] at this
          exact this
        have htok : tokMem st1 c := by
          have := addColor_tok st
            (rgbaToString stop.color.r stop.color.g stop.color.b stop.color.a)
          rw [hadd] at this
          exact this
        have hih := ih st1
        rw [hg] at hih
        refine ⟨TokenExtractor.evolves_trans hev1 hih.1, ?_⟩
        intro s hs
        rw [tokenRefsList_cons_val, valRefs_obj,
          refs_cons_num _ _ _ (by decide),
          tokenRefsKVs_cons_tok _ _ _ (by decide) (by decide),
          tokenRefsKVs_nil] at hs
        rcases List.mem_append.mp hs with h | h
        · rcases List.mem_singleton.mp h with rfl
          exact tokMem_mono hih.1.1 htok
        · exact hih.2 s h

theorem solidColorFields_refs (fills : Option (List Paint))
    (st : TokenExtractor) :
    st.evolves (solidColorFields true fills st).2 ∧
    ∀ s ∈ tokenRefsKVs (solidColorFields true fills st).1,
      tokMem (solidColorFields true fills st).2 s := by
  unfold solidColorFields
  split
  · cases hfind : (fills.getD []).find? (fun f =>
        f.visible ≠ some false ∧ f.type = "SOLID") with
    | none =>
      refine ⟨TokenExtractor.evolves_refl st, ?_⟩
      intro s hs
      rw [tokenRefsKVs_nil] at hs
      exact absurd hs (List.not_mem_nil s)
    | some fill =>
      dsimp only
      cases hc : fill.color with
      | none =>
        refine ⟨TokenExtractor.evolves_refl st, ?_⟩
        intro s hs
        rw [tokenRefsKVs_nil] at hs
        exact absurd hs (List.not_mem_nil s)
      | some c =>
        dsimp only
        rw [internColor_true]
        cases hadd : st.addColor (rgbToHex c.r c.g c.b) with
        | mk tok st1 =>
          dsimp only
          have hev : st.evolves st1 := by
            have := addColor_evolves st (rgbToHex c.r c.g c.b)
            rw [hadd] at this
            exact this
          have htok : tokMem st1 tok := by
            have := addColor_tok st (rgbToHex c.r c.g c.b)
            rw [hadd] at this
            exact this
          refine ⟨hev, ?_⟩
          intro s hs
          rw [tokenRefsKVs_cons_tok _ _ _ (by decide) (by decide),
            tokenRefsKVs_nil] at hs
          rcases List.mem_singleton.mp hs with rfl
          exact htok
  · refine ⟨TokenExtractor.evolves_refl st, ?_⟩
    intro s hs
    rw [tokenRefsKVs_nil] at hs
    exact absurd hs (List.not_mem_nil s)

theorem evolves_refl_and_no_refs (st : TokenExtractor) (l : List (String × J))
    (hl : tokenRefsKVs l = []) :
    st.evolves st ∧ ∀ s ∈ tokenRefsKVs l, tokMem st s :=
  ⟨TokenExtractor.evolves_refl st, fun s hs => by
    rw [hl] at hs
    exact absurd hs (List.not_mem_nil s)⟩

theorem extractBackground_refs (jm : JsMath) (fills : Option (List Paint))
    (st : TokenExtractor) :
    st.evolves (extractBackground jm fills true st).2 ∧
    ∀ s ∈ tokenRefsKVs (optField "bg" (extractBackground jm fills true st).1),
      tokMem (extractBackground jm fills true st).2 s := by
  unfold extractBackground
  cases fills with
  | none => exact evolves_refl_and_no_refs st _ tokenRefsKVs_nil
  | some fs =>
    dsimp only
    split
    · exact evolves_refl_and_no_refs st _ tokenRefsKVs_nil
    · cases hfind : fs.find? (fun f => f.visible ≠ some false) with
      | none => exact evolves_refl_and_no_refs st _ tokenRefsKVs_nil
      | some visibleFill =>
        dsimp only
        split
        · cases hc : visibleFill.color with
          | none => exact evolves_refl_and_no_refs st _ tokenRefsKVs_nil
          | some c =>
            dsimp only
            rw [internColor_true]
            cases hadd : st.addColor (if visibleFill.opacity.getD 1 = 1
                then rgbToHex c.r c.g c.b
                else rgbaToString c.r c.g c.b (visibleFill.opacity.getD 1)) with
            | mk tok st1 =>
              dsimp only
              have hev : st.evolves st1 := by
                have := addColor_evolves st (if visibleFill.opacity.getD 1 = 1
                  then rgbToHex c.r c.g c.b
                  else rgbaToString c.r c.g c.b (visibleFill.opacity.getD 1))
                rw [hadd] at this
                exact this
              have htok : tokMem st1 tok := by
                have := addColor_tok st (if visibleFill.opacity.getD 1 = 1
                  then rgbToHex c.r c.g c.b
                  else rgbaToString c.r c.g c.b (visibleFill.opacity.getD 1))
                rw [hadd] at this
                exact this
              refine ⟨hev, ?_⟩
              intro s hs
              rw [optField_some] at hs
              rw [tokenRefsKVs_cons_tok _ _ _ (by decide) (by decide),
                tokenRefsKVs_nil] at hs
              rcases List.mem_singleton.mp hs with rfl
              exact htok
        · split
          · dsimp only
            cases hg : gradientStopsJ true st
                (visibleFill.gradientStops.getD []) with
            | mk stopsJ st1 =>
              dsimp only
              have hgr := gradientStopsJ_refs
                (visibleFill.gradientStops.getD []) st
              rw [hg] at hgr
              refine ⟨hgr.1, ?_⟩
              intro s hs
              rw [optField_some] at hs
              rw [tokenRefsKVs_cons_val _ _ _ (by decide)
                  (fun s h => J.noConfusion h),
                tokenRefsKVs_nil, List.append_nil, valRefs_obj,
                tokenRefsKVs_append, tokenRefsKVs_append,
                tokenRefsKVs_cons_str_plain _ _ _ (by decide) (by decide),
                tokenRefsKVs_nil,
                refs_optField_ifnum _ (by decide) _ _,
                tokenRefsKVs_cons_val _ _ _ (by decide)
                  (fun s h => J.noConfusion h),
                tokenRefsKVs_nil, List.append_nil, valRefs_arr] at hs
              simp only [List.nil_append, List.append_nil] at hs
              exact hgr.2 s hs
          · exact evolves_refl_and_no_refs st _ tokenRefsKVs_nil

theorem extractBorder_refs (strokes : Option (List Paint))
    (sw : Option ℚ) (dash : Option (List ℚ)) (st : TokenExtractor) :
    st.evolves (extractBorder strokes sw dash true st).2 ∧
    ∀ s ∈ tokenRefsKVs
        (borderFieldsJ (extractBorder strokes sw dash true st).1),
      tokMem (extractBorder strokes sw dash true st).2 s := by
  unfold extractBorder
  cases strokes with
  | none => exact evolves_refl_and_no_refs st _ tokenRefsKVs_nil
  | some ss =>
    dsimp only
    split
    · exact evolves_refl_and_no_refs st _ tokenRefsKVs_nil
    · cases hfind : ss.find? (fun s => s.visible ≠ some false) with
      | none => exact evolves_refl_and_no_refs st _ tokenRefsKVs_nil
      | some visibleStroke =>
        dsimp only
        split
        · cases hc : visibleStroke.color with
          | none => exact evolves_refl_and_no_refs st _ tokenRefsKVs_nil
          | some c =>
            dsimp only
            rw [internColor_true]
            cases hadd : st.addColor (rgbToHex c.r c.g c.b) with
            | mk tok st1 =>
              dsimp only
              have hev : st.evolves st1 := by
                have := addColor_evolves st (rgbToHex c.r c.g c.b)
                rw [hadd] at this
                exact this
              have htok : tokMem st1 tok := by
                have := addColor_tok st (rgbToHex c.r c.g c.b)
                rw [hadd] at this
                exact this
              refine ⟨hev, ?_⟩
              intro s hs
              simp only [borderFieldsJ] at hs
              rw [tokenRefsKVs_cons_val _ _ _ (by decide)
                  (fun s h => J.noConfusion h),
                tokenRefsKVs_nil, List.append_nil, valRefs_obj,
                refs_cons_num _ _ _ (by decide),
                tokenRefsKVs_cons_tok _ _ _ (by decide) (by decide),
                tokenRefsKVs_cons_str_plain _ _ _ (by decide) (by decide),
                tokenRefsKVs_nil] at hs
              rcases List.mem_singleton.mp hs with rfl
              exact htok
        · exact evolves_refl_and_no_refs st _ tokenRefsKVs_nil

theorem extractShadow_refs (effects : Option (List Effect))
    (st : TokenExtractor) :
    st.evolves (extractShadow effects true st).2 ∧
    ∀ s ∈ tokenRefsKVs
        (optField "shadow" ((extractShadow effects true st).1.map J.str)),
      tokMem (extractShadow effects true st).2 s := by
  unfold extractShadow
  cases effects with
  | none => exact evolves_refl_and_no_refs st _ tokenRefsKVs_nil
  | some es =>
    dsimp only
    split
    · exact evolves_refl_and_no_refs st _ tokenRefsKVs_nil
    · split
      · exact evolves_refl_and_no_refs st _ tokenRefsKVs_nil
      · rw [internShadow_true]
        cases hadd : st.addShadow (String.intercalate ", "
            ((es.filter (fun e =>
              (e.type = "DROP_SHADOW" ∨ e.type = "INNER_SHADOW") ∧
                e.visible ≠ some false)).map shadowString)) with
        | mk tok st1 =>
          dsimp only
          have hev : st.evolves st1 := by
            have := addShadow_evolves st (String.intercalate ", "
              ((es.filter (fun e =>
                (e.type = "DROP_SHADOW" ∨ e.type = "INNER_SHADOW") ∧
                  e.visible ≠ some false)).map shadowString))
            rw [hadd] at this
            exact this
          have htok : tokMem st1 tok := by
            have := addShadow_tok st (String.intercalate ", "
              ((es.filter (fun e =>
                (e.type = "DROP_SHADOW" ∨ e.type = "INNER_SHADOW") ∧
                  e.visible ≠ some false)).map shadowString))
            rw [hadd] at this
            exact this
          refine ⟨hev, ?_⟩
          intro s hs
          simp only [Option.map_some'] at hs
          rw [optField_some] at hs
          rw [tokenRefsKVs_cons_tok _ _ _ (by decide) (by decide),
            tokenRefsKVs_nil] at hs
          rcases List.mem_singleton.mp hs with rfl
          exact htok

theorem refs_if_num (c : Prop) [Decidable c] (k : String) (q : ℚ)
    (h1 : ¬(k = "devInfo" ∨ k = "variantProps")) :
    tokenRefsKVs (if c then [(k, J.num q)] else []) = [] := by
  split
  · rw [refs_cons_num _ _ _ h1, tokenRefsKVs_nil]
  · exact tokenRefsKVs_nil

theorem refs_if_b (c : Prop) [Decidable c] (k : String) (x : Bool)
    (h1 : ¬(k = "devInfo" ∨ k = "variantProps")) :
    tokenRefsKVs (if c then [(k, J.b x)] else []) = [] := by
  split
  · rw [refs_cons_b _ _ _ h1, tokenRefsKVs_nil]
  · exact tokenRefsKVs_nil

theorem refs_if_str (c : Prop) [Decidable c] (k s : String)
    (h1 : ¬(k = "devInfo" ∨ k = "variantProps"))
    (h2 : tokenKeys.contains k = false) :
    tokenRefsKVs (if c then [(k, J.str s)] else []) = [] := by
  split
  · exact refs_singleton_str _ _ h1 h2
  · exact tokenRefsKVs_nil

theorem refs_segDecorFields (seg : TextSegment) :
    tokenRefsKVs (segDecorFields seg) = [] := by
  unfold segDecorFields
  refine refs_ite _ _ _ ?_ ?_
  · rw [refs_cons_b _ _ _ (by decide), tokenRefsKVs_nil]
  refine refs_ite _ _ _ ?_ tokenRefsKVs_nil
  rw [refs_cons_b _ _ _ (by decide), tokenRefsKVs_nil]

theorem refs_segLinkFields (seg : TextSegment) :
    tokenRefsKVs (segLinkFields seg) = [] := by
  unfold segLinkFields
  cases seg.hyperlink with
  | none => exact tokenRefsKVs_nil
  | some hl =>
    exact refs_ite _ _ _ (refs_singleton_str _ _ (by decide) (by decide))
      tokenRefsKVs_nil

theorem refs_textLineHFields (raw : RawNodeData) :
    tokenRefsKVs (textLineHFields raw) = [] := by
  unfold textLineHFields
  cases raw.f.lineHeight with
  | none => exact tokenRefsKVs_nil
  | some lh =>
    refine refs_ite _ _ _ ?_ ?_
    · rw [refs_cons_num _ _ _ (by decide), tokenRefsKVs_nil]
    refine refs_ite _ _ _ ?_ tokenRefsKVs_nil
    rw [refs_cons_num _ _ _ (by decide), tokenRefsKVs_nil]

theorem refs_textLetterSFields (raw : RawNodeData) :
    tokenRefsKVs (textLetterSFields raw) = [] := by
  unfold textLetterSFields
  cases raw.f.letterSpacing with
  | none => exact tokenRefsKVs_nil
  | some ls =>
    refine refs_ite _ _ _ ?_ tokenRefsKVs_nil
    refine refs_ite _ _ _ ?_ ?_
    · rw [refs_cons_num _ _ _ (by decide), tokenRefsKVs_nil]
    refine refs_ite _ _ _ ?_ tokenRefsKVs_nil
    rw [refs_cons_num _ _ _ (by decide), tokenRefsKVs_nil]

theorem refs_textAlignFields (raw : RawNodeData) :
    tokenRefsKVs (textAlignFields raw) = [] := by
  unfold textAlignFields
  cases raw.f.textAlignHorizontal with
  | none => exact tokenRefsKVs_nil
  | some ta =>
    refine refs_ite _ _ _ ?_ tokenRefsKVs_nil
    refine refs_ite _ _ _ (refs_singleton_str _ _ (by decide) (by decide)) ?_
    refine refs_ite _ _ _ (refs_singleton_str _ _ (by decide) (by decide)) ?_
    exact refs_ite _ _ _ (refs_singleton_str _ _ (by decide) (by decide))
      tokenRefsKVs_nil

theorem refs_textDecorFields (raw : RawNodeData) :
    tokenRefsKVs (textDecorFields raw) = [] := by
  unfold textDecorFields
  cases raw.f.textDecoration with
  | none => exact tokenRefsKVs_nil
  | some td =>
    refine refs_ite _ _ _ ?_ tokenRefsKVs_nil
    refine refs_ite _ _ _ (refs_singleton_str _ _ (by decide) (by decide)) ?_
    exact refs_ite _ _ _ (refs_singleton_str _ _ (by decide) (by decide))
      tokenRefsKVs_nil

theorem refs_textTransformFields (raw : RawNodeData) :
    tokenRefsKVs (textTransformFields raw) = [] := by
  unfold textTransformFields
  cases raw.f.textCase with
  | none => exact tokenRefsKVs_nil
  | some tc =>
    refine refs_ite _ _ _ ?_ tokenRefsKVs_nil
    refine refs_ite _ _ _ (refs_singleton_str _ _ (by decide) (by decide)) ?_
    refine refs_ite _ _ _ (refs_singleton_str _ _ (by decide) (by decide)) ?_
    exact refs_ite _ _ _ (refs_singleton_str _ _ (by decide) (by decide))
      tokenRefsKVs_nil

theorem refs_textTruncateFields (raw : RawNodeData) :
    tokenRefsKVs (textTruncateFields raw) = [] := by
  unfold textTruncateFields
  refine refs_ite _ _ _ ?_ tokenRefsKVs_nil
  refine refs_ite _ _ _ ?_ ?_
  · rw [refs_cons_num _ _ _ (by decide), tokenRefsKVs_nil]
  · rw [refs_cons_b _ _ _ (by decide), tokenRefsKVs_nil]

theorem refs_textParagraphFields (raw : RawNodeData) :
    tokenRefsKVs (textParagraphFields raw) = [] := by
  unfold textParagraphFields
  exact refs_if_num _ _ _ (by decide)

theorem refs_textAutoResizeFields (raw : RawNodeData) :
    tokenRefsKVs (textAutoResizeFields raw) = [] := by
  unfold textAutoResizeFields
  cases raw.f.textAutoResize with
  | none => exact tokenRefsKVs_nil
  | some ar =>
    refine refs_ite _ _ _ ?_ tokenRefsKVs_nil
    refine refs_ite _ _ _ (refs_singleton_str _ _ (by decide) (by decide)) ?_
    refine refs_ite _ _ _ (refs_singleton_str _ _ (by decide) (by decide)) ?_
    exact refs_ite _ _ _ (refs_singleton_str _ _ (by decide) (by decide))
      tokenRefsKVs_nil

theorem transformSegment_refs (st : TokenExtractor) (seg : TextSegment) :
    st.evolves (transformSegment true st seg).2 ∧
    ∀ s ∈ valRefs (transformSegment true st seg).1,
      tokMem (transformSegment true st seg).2 s := by
  unfold transformSegment
  cases hfn : seg.fontName with
  | none =>
    dsimp only
    cases hcf : solidColorFields true seg.fills st with
    | mk colorFields st2 =>
      have hc := solidColorFields_refs seg.fills st
      rw [hcf] at hc
      refine ⟨hc.1, ?_⟩
      intro s hs
      rw [valRefs_obj] at hs
      simp only [tokenRefsKVs_append] at hs
      rw [refs_singleton_str _ _ (by decide) (by decide),
        refs_if_num _ _ _ (by decide), refs_if_num _ _ _ (by decide),
        refs_segDecorFields, refs_segLinkFields] at hs
      simp only [tokenRefsKVs_nil, List.nil_append, List.append_nil] at hs
      exact hc.2 s hs
  | some fn =>
    dsimp only
    split
    · rw [internFont_true]
      cases hadd : st.addFont fn.family with
      | mk tok st1 =>
        dsimp only
        cases hcf : solidColorFields true seg.fills st1 with
        | mk colorFields st2 =>
          have hev1 : st.evolves st1 := by
            have := addFont_evolves st fn.family
            rw [hadd] at this
            exact this
          have htok : tokMem st1 tok := by
            have := addFont_tok st fn.family
            rw [hadd] at this
            exact this
          have hc := solidColorFields_refs seg.fills st1
          rw [hcf] at hc
          refine ⟨TokenExtractor.evolves_trans hev1 hc.1, ?_⟩
          intro s hs
          rw [valRefs_obj] at hs
          simp only [tokenRefsKVs_append] at hs
          rw [refs_singleton_str _ _ (by decide) (by decide),
            tokenRefsKVs_cons_tok _ _ _ (by decide) (by decide),
            refs_if_b _ _ _ (by decide),
            refs_if_num _ _ _ (by decide), refs_if_num _ _ _ (by decide),
            refs_segDecorFields, refs_segLinkFields] at hs
          simp only [tokenRefsKVs_nil, List.nil_append, List.append_nil] at hs
          rcases List.mem_append.mp hs with h | h
          · rcases List.mem_singleton.mp h with rfl
            exact tokMem_mono hc.1.1 htok
          · exact hc.2 s h
    · cases hcf : solidColorFields true seg.fills st with
      | mk colorFields st2 =>
        have hc := solidColorFields_refs seg.fills st
        rw [hcf] at hc
        refine ⟨hc.1, ?_⟩
        intro s hs
        rw [valRefs_obj] at hs
        simp only [tokenRefsKVs_append] at hs
        rw [refs_singleton_str _ _ (by decide) (by decide),
          refs_if_num _ _ _ (by decide), refs_if_num _ _ _ (by decide),
          refs_segDecorFields, refs_segLinkFields] at hs
        simp only [tokenRefsKVs_nil, List.nil_append, List.append_nil] at hs
        exact hc.2 s hs

theorem transformSegments_refs (segs : List TextSegment) :
    ∀ st : TokenExtractor,
      st.evolves (transformSegments true st segs).2 ∧
      ∀ s ∈ tokenRefsList (transformSegments true st segs).1,
        tokMem (transformSegments true st segs).2 s := by
  induction segs with
  | nil =>
    intro st
    refine ⟨TokenExtractor.evolves_refl st, ?_⟩
    intro s hs
    rw [show (transformSegments true st []).1 = [] from rfl,
      tokenRefsList_nil] at hs
    exact absurd hs (List.not_mem_nil s)
  | cons seg rest ih =>
    intro st
    unfold transformSegments
    cases hseg : transformSegment true st seg with
    | mk j st1 =>
      dsimp only
      cases hrest : transformSegments true st1 rest with
      | mk js st2 =>
        dsimp only
        have h1 := transformSegment_refs st seg
        rw [hseg] at h1
        have h2 := ih st1
        rw [hrest] at h2
        refine ⟨TokenExtractor.evolves_trans h1.1 h2.1, ?_⟩
        intro s hs
        rw [tokenRefsList_cons_val] at hs
        rcases List.mem_append.mp hs with h | h
        · exact tokMem_mono h2.1.1 (h1.2 s h)
        · exact h2.2 s h

theorem transformTextNode_refs (raw : RawNodeData) (st : TokenExtractor) :
    st.evolves (transformTextNode true raw st).2 ∧
    ∀ s ∈ tokenRefs (transformTextNode true raw st).1,
      tokMem (transformTextNode true raw st).2 s := by
  unfold transformTextNode
  have hnoS : ∀ (a : List J) (s : String), J.arr a ≠ J.str s :=
    fun a s h => J.noConfusion h
  cases hfn : raw.f.fontName with
  | none =>
    dsimp only
    cases hcf : solidColorFields true raw.f.fills st with
    | mk colorFields st2 =>
      dsimp only
      have hc := solidColorFields_refs raw.f.fills st
      rw [hcf] at hc
      cases hsegs : raw.f.styledTextSegments with
      | none =>
        dsimp only
        refine ⟨hc.1, ?_⟩
        intro s hs
        rw [tokenRefs_obj] at hs
        simp only [tokenRefsKVs_append] at hs
        rw [tokenRefsKVs_cons_str_plain _ _ _ (by decide) (by decide),
          tokenRefsKVs_cons_str_plain _ _ _ (by decide) (by decide),
          refs_if_str _ _ _ (by decide) (by decide),
          refs_if_num _ _ _ (by decide), refs_if_num _ _ _ (by decide),
          refs_textLineHFields, refs_textLetterSFields, refs_textAlignFields,
          refs_textDecorFields, refs_textTransformFields,
          refs_textTruncateFields, refs_textParagraphFields,
          refs_textAutoResizeFields] at hs
        simp only [tokenRefsKVs_nil, List.nil_append, List.append_nil] at hs
        exact hc.2 s hs
      | some segs =>
        dsimp only
        split
        · cases htr : transformSegments true st2 segs with
          | mk js st3 =>
            dsimp only
            have ht := transformSegments_refs segs st2
            rw [htr] at ht
            refine ⟨TokenExtractor.evolves_trans hc.1 ht.1, ?_⟩
            intro s hs
            rw [tokenRefs_obj] at hs
            simp only [tokenRefsKVs_append] at hs
            rw [tokenRefsKVs_cons_str_plain _ _ _ (by decide) (by decide),
              tokenRefsKVs_cons_str_plain _ _ _ (by decide) (by decide),
              refs_if_str _ _ _ (by decide) (by decide),
              refs_if_num _ _ _ (by decide), refs_if_num _ _ _ (by decide),
              refs_textLineHFields, refs_textLetterSFields,
              refs_textAlignFields, refs_textDecorFields,
              refs_textTransformFields, refs_textTruncateFields,
              refs_textParagraphFields, refs_textAutoResizeFields,
              tokenRefsKVs_cons_val _ _ _ (by decide) (hnoS js),
              valRefs_arr] at hs
            simp only [tokenRefsKVs_nil, List.nil_append,
              List.append_nil] at hs
            rcases List.mem_append.mp hs with h | h
            · exact tokMem_mono ht.1.1 (hc.2 s h)
            · exact ht.2 s h
        · refine ⟨hc.1, ?_⟩
          intro s hs
          rw [tokenRefs_obj] at hs
          simp only [tokenRefsKVs_append] at hs
          rw [tokenRefsKVs_cons_str_plain _ _ _ (by decide) (by decide),
            tokenRefsKVs_cons_str_plain _ _ _ (by decide) (by decide),
            refs_if_str _ _ _ (by decide) (by decide),
            refs_if_num _ _ _ (by decide), refs_if_num _ _ _ (by decide),
            refs_textLineHFields, refs_textLetterSFields, refs_textAlignFields,
            refs_textDecorFields, refs_textTransformFields,
            refs_textTruncateFields, refs_textParagraphFields,
            refs_textAutoResizeFields] at hs
          simp only [tokenRefsKVs_nil, List.nil_append, List.append_nil] at hs
          exact hc.2 s hs
  | some fn =>
    dsimp only
    rw [internFont_true]
    cases hadd : st.addFont fn.family with
    | mk tok st1 =>
      dsimp only
      have hev1 : st.evolves st1 := by
        have := addFont_evolves st fn.family
        rw [hadd] at this
        exact this
      have htok : tokMem st1 tok := by
        have := addFont_tok st fn.family
        rw [hadd] at this
        exact this
      cases hcf : solidColorFields true raw.f.fills st1 with
      | mk colorFields st2 =>
        dsimp only
        have hc := solidColorFields_refs raw.f.fills st1
        rw [hcf] at hc
        cases hsegs : raw.f.styledTextSegments with
        | none =>
          dsimp only
          refine ⟨TokenExtractor.evolves_trans hev1 hc.1, ?_⟩
          intro s hs
          rw [tokenRefs_obj] at hs
          simp only [tokenRefsKVs_append] at hs
          rw [tokenRefsKVs_cons_str_plain _ _ _ (by decide) (by decide),
            tokenRefsKVs_cons_str_plain _ _ _ (by decide) (by decide),
            refs_if_str _ _ _ (by decide) (by decide),
            tokenRefsKVs_cons_tok _ _ _ (by decide) (by decide),
            refs_if_num _ _ _ (by decide), refs_if_num _ _ _ (by decide),
            refs_textLineHFields, refs_textLetterSFields, refs_textAlignFields,
            refs_textDecorFields, refs_textTransformFields,
            refs_textTruncateFields, refs_textParagraphFields,
            refs_textAutoResizeFields] at hs
          simp only [tokenRefsKVs_nil, List.nil_append, List.append_nil] at hs
          rcases List.mem_append.mp hs with h | h
          · rcases List.mem_singleton.mp h with rfl
            exact tokMem_mono hc.1.1 htok
          · exact hc.2 s h
        | some segs =>
          dsimp only
          split
          · cases htr : transformSegments true st2 segs with
            | mk js st3 =>
              dsimp only
              have ht := transformSegments_refs segs st2
              rw [htr] at ht
              refine ⟨TokenExtractor.evolves_trans hev1
                (TokenExtractor.evolves_trans hc.1 ht.1), ?_⟩
              intro s hs
              rw [tokenRefs_obj] at hs
              simp only [tokenRefsKVs_append] at hs
              rw [tokenRefsKVs_cons_str_plain _ _ _ (by decide) (by decide),
                tokenRefsKVs_cons_str_plain _ _ _ (by decide) (by decide),
                refs_if_str _ _ _ (by decide) (by decide),
                tokenRefsKVs_cons_tok _ _ _ (by decide) (by decide),
                refs_if_num _ _ _ (by decide), refs_if_num _ _ _ (by decide),
                refs_textLineHFields, refs_textLetterSFields,
                refs_textAlignFields, refs_textDecorFields,
                refs_textTransformFields, refs_textTruncateFields,
                refs_textParagraphFields, refs_textAutoResizeFields,
                tokenRefsKVs_cons_val _ _ _ (by decide) (hnoS js),
                valRefs_arr] at hs
              simp only [tokenRefsKVs_nil, List.nil_append,
                List.append_nil] at hs
              rcases List.mem_append.mp hs with h | h
              · rcases List.mem_append.mp h with h2 | h2
                · rcases List.mem_singleton.mp h2 with rfl
                  exact tokMem_mono
                    (TokenExtractor.grows_trans hc.1.1 ht.1.1) htok
                · exact tokMem_mono ht.1.1 (hc.2 s h2)
              · exact ht.2 s h
          · refine ⟨TokenExtractor.evolves_trans hev1 hc.1, ?_⟩
            intro s hs
            rw [tokenRefs_obj] at hs
            simp only [tokenRefsKVs_append] at hs
            rw [tokenRefsKVs_cons_str_plain _ _ _ (by decide) (by decide),
              tokenRefsKVs_cons_str_plain _ _ _ (by decide) (by decide),
              refs_if_str _ _ _ (by decide) (by decide),
              tokenRefsKVs_cons_tok _ _ _ (by decide) (by decide),
              refs_if_num _ _ _ (by decide), refs_if_num _ _ _ (by decide),
              refs_textLineHFields, refs_textLetterSFields,
              refs_textAlignFields, refs_textDecorFields,
              refs_textTransformFields, refs_textTruncateFields,
              refs_textParagraphFields, refs_textAutoResizeFields] at hs
            simp only [tokenRefsKVs_nil, List.nil_append,
              List.append_nil] at hs
            rcases List.mem_append.mp hs with h | h
            · rcases List.mem_singleton.mp h with rfl
              exact tokMem_mono hc.1.1 htok
            · exact hc.2 s h

theorem frameParts_refs (jm : JsMath) (raw : RawNodeData)
    (st : TokenExtractor) :
    st.evolves (frameParts jm true raw st).2.2 ∧
    (∀ s ∈ tokenRefsKVs (frameParts jm true raw st).1,
      tokMem (frameParts jm true raw st).2.2 s) ∧
    tokenRefsKVs (frameParts jm true raw st).2.1 = [] := by
  unfold frameParts
  cases hbg : extractBackground jm raw.f.fills true st with
  | mk bg st1 =>
    dsimp only
    cases hbd : extractBorder raw.f.strokes raw.f.strokeWeight
        raw.f.dashPattern true st1 with
    | mk border st2 =>
      dsimp only
      cases hsh : extractShadow raw.f.effects true st2 with
      | mk shadow st3 =>
        dsimp only
        have h1 := extractBackground_refs jm raw.f.fills st
        rw [hbg] at h1
        have h2 := extractBorder_refs raw.f.strokes raw.f.strokeWeight
          raw.f.dashPattern st1
        rw [hbd] at h2
        have h3 := extractShadow_refs raw.f.effects st2
        rw [hsh] at h3
        refine ⟨TokenExtractor.evolves_trans h1.1
          (TokenExtractor.evolves_trans h2.1 h3.1), ?_, ?_⟩
        · intro s hs
          simp only [tokenRefsKVs_append] at hs
          rw [refs_frameTypeFields, refs_frameNameFields,
            refs_frameLayoutFields, refs_frameWhFields, refs_framePosFields,
            refs_frameConstraintsFields, refs_frameOpacityFields,
            refs_frameRadiusFields, refs_frameBlurFields,
            refs_frameBackdropFields, refs_frameBlendFields,
            refs_frameRotateFields, refs_frameAspectFields, refs_frameZFields,
            refs_frameOrderFields, refs_frameResponsiveFields,
            refs_frameDevFields, refs_frameOverflowFields] at hs
          simp only [List.nil_append, List.append_nil] at hs
          rcases List.mem_append.mp hs with h | h
          · rcases List.mem_append.mp h with hb | hb
            · exact tokMem_mono (TokenExtractor.grows_trans h2.1.1 h3.1.1)
                (h1.2 s hb)
            · exact tokMem_mono h3.1.1 (h2.2 s hb)
          · exact h3.2 s h
        · simp only [tokenRefsKVs_append]
          rw [refs_frameInstanceFields, refs_frameSemanticFields,
            refs_frameInteractionFields, refs_framePatternFields]
          rfl

theorem transformNode_refs (jm : JsMath) :
    ∀ (n : ℕ) (raw : RawNodeData), sizeOf raw ≤ n →
      ∀ st : TokenExtractor,
        st.evolves (transformNode jm true raw st).2 ∧
        ∀ s ∈ tokenRefs (transformNode jm true raw st).1,
          tokMem (transformNode jm true raw st).2 s := by
  intro n
  induction n with
  | zero =>
    intro raw h
    have hpos : 0 < sizeOf raw := by
      cases raw with
      | mk d => rw [RawNodeData.mk.sizeOf_spec]; omega
    omega
  | succ n ih =>
    intro raw hle st
    have hch : ∀ cs : List RawNodeData, (∀ c ∈ cs, sizeOf c ≤ n) →
        ∀ st0 : TokenExtractor,
          st0.evolves (transformChildren jm true cs st0).2 ∧
          ∀ s ∈ tokenRefsList (transformChildren jm true cs st0).1,
            tokMem (transformChildren jm true cs st0).2 s := by
      intro cs
      induction cs with
      | nil =>
        intro _ st0
        simp only [transformChildren]
        refine ⟨TokenExtractor.evolves_refl st0, ?_⟩
        intro s hs
        rw [tokenRefsList_nil] at hs
        exact absurd hs (List.not_mem_nil s)
      | cons c rest ihc =>
        intro hsz st0
        simp only [transformChildren]
        cases hc1 : transformNode jm true c st0 with
        | mk j st1 =>
          dsimp only
          cases hc2 : transformChildren jm true rest st1 with
          | mk js st2 =>
            dsimp only
            have h1 := ih c (hsz c (List.mem_cons_self _ _)) st0
            rw [hc1] at h1
            have h2 := ihc (fun x hx => hsz x (List.mem_cons_of_mem _ hx)) st1
            rw [hc2] at h2
            refine ⟨TokenExtractor.evolves_trans h1.1 h2.1, ?_⟩
            intro s hs
            rw [tokenRefsList_cons_val, valRefs_eq_tokenRefs] at hs
            rcases List.mem_append.mp hs with h | h
            · exact tokMem_mono h2.1.1 (h1.2 s h)
            · exact h2.2 s h
    simp only [transformNode]
    split
    · refine ⟨TokenExtractor.evolves_refl st, ?_⟩
      intro s hs
      rw [refs_transformImageNode] at hs
      exact absurd hs (List.not_mem_nil s)
    · split
      · exact transformTextNode_refs raw st
      · dsimp only
        cases hp : frameParts jm true raw st with
        | mk pre rest2 =>
          cases rest2 with
          | mk post st3 =>
            dsimp only
            have hf := frameParts_refs jm raw st
            rw [hp] at hf
            cases hchn : raw.f.children with
            | none =>
              dsimp only
              refine ⟨hf.1, ?_⟩
              intro s hs
              rw [tokenRefs_obj, tokenRefsKVs_append, tokenRefsKVs_append,
                tokenRefsKVs_nil, hf.2.2, List.append_nil,
                List.append_nil] at hs
              exact hf.2.1 s hs
            | some cs =>
              dsimp only
              split
              · cases hcr : transformChildren jm true cs st3 with
                | mk js st4 =>
                  dsimp only
                  have hsz : ∀ c ∈ cs, sizeOf c ≤ n := by
                    intro c hc
                    have hlt := sizeOf_children_lt raw cs hchn
                    have hmem := List.sizeOf_lt_of_mem hc
                    omega
                  have h2 := hch cs hsz st3
                  rw [hcr] at h2
                  refine ⟨TokenExtractor.evolves_trans hf.1 h2.1, ?_⟩
                  intro s hs
                  rw [tokenRefs_obj, tokenRefsKVs_append, tokenRefsKVs_append,
                    hf.2.2, List.append_nil,
                    tokenRefsKVs_cons_val _ _ _ (by decide)
                      (fun s h => J.noConfusion h),
                    tokenRefsKVs_nil, List.append_nil, valRefs_arr] at hs
                  rcases List.mem_append.mp hs with h | h
                  · exact tokMem_mono h2.1.1 (hf.2.1 s h)
                  · exact h2.2 s h
              · refine ⟨hf.1, ?_⟩
                intro s hs
                rw [tokenRefs_obj, tokenRefsKVs_append, tokenRefsKVs_append,
                  tokenRefsKVs_nil, hf.2.2, List.append_nil,
                  List.append_nil] at hs
                exact hf.2.1 s hs

theorem empty_canonicalTok : TokenExtractor.empty.canonicalTok :=
  ⟨⟨rfl, rfl⟩, ⟨rfl, rfl⟩, ⟨rfl, rfl⟩⟩

theorem optimizeTokens_id (t : DesignTokens) : optimizeTokens t = t := by
  unfold optimizeTokens
  cases t with
  | mk cs fs ss =>
    dsimp only
    congr 1
    · cases cs <;> simp
    · cases fs <;> simp
    · cases ss <;> simp

theorem str_append_assoc (a b c : String) : a ++ b ++ c = a ++ (b ++ c) := by
  apply String.ext
  simp [String.data_append]

theorem key_c_ne_dollar (x t : String) : "c" ++ x ≠ "$" ++ t := by
  intro he
  have h2 := congrArg String.data he
  simp [String.data_append] at h2

theorem key_f_ne_dollar (x t : String) : "f" ++ x ≠ "$" ++ t := by
  intro he
  have h2 := congrArg String.data he
  simp [String.data_append] at h2

theorem key_s_ne_dollar (x t : String) : "s" ++ x ≠ "$" ++ t := by
  intro he
  have h2 := congrArg String.data he
  simp [String.data_append] at h2

theorem hasTok_canonical (m : KindMap) (full key1 : String)
    (hfull : full = "$" ++ key1)
    (hdrop : ∀ s : String, (full ++ s).drop 1 = key1 ++ s)
    (hm : m.canonicalTok full) {s : String} (hs : m.hasTok s) :
    ∃ k, s = "$" ++ k ∧
      k ∈ (m.entries.map (fun p => (p.2.drop 1, p.1))).map Prod.fst := by
  obtain ⟨p, hp, hps⟩ := hs
  have hsnd : p.2 ∈ m.entries.map Prod.snd := List.mem_map_of_mem _ hp
  rw [hm.2] at hsnd
  obtain ⟨i, hi, hpi⟩ := List.mem_map.mp hsnd
  refine ⟨p.2.drop 1, ?_, ?_⟩
  · rw [← hps, ← hpi, hdrop, ← str_append_assoc, ← hfull]
  · exact List.mem_map_of_mem _ (List.mem_map_of_mem _ hp)

theorem canonical_key_ne_dollar (m : KindMap) (full key1 : String)
    (hdrop : ∀ s : String, (full ++ s).drop 1 = key1 ++ s)
    (hkey : ∀ x t : String, key1 ++ x ≠ "$" ++ t)
    (hm : m.canonicalTok full) :
    ∀ p ∈ m.entries.map (fun p => (p.2.drop 1, p.1)), ∀ t, p.1 ≠ "$" ++ t := by
  intro p hp t
  obtain ⟨q, hq, rfl⟩ := List.mem_map.mp hp
  have hsnd : q.2 ∈ m.entries.map Prod.snd := List.mem_map_of_mem _ hq
  rw [hm.2] at hsnd
  obtain ⟨i, hi, hpi⟩ := List.mem_map.mp hsnd
  dsimp only
  rw [← hpi, hdrop]
  exact hkey _ t

theorem canonical_getTokens_keys (m : KindMap) (full key1 : String)
    (hdrop : ∀ s : String, (full ++ s).drop 1 = key1 ++ s)
    (hm : m.canonicalTok full) :
    (m.entries.map (fun p => (p.2.drop 1, p.1))).map Prod.fst =
      (List.range (m.entries.map (fun p => (p.2.drop 1, p.1))).length).map
        (fun i => key1 ++ Nat.repr i) := by
  rw [List.length_map, List.map_map]
  have h1 : (Prod.fst ∘ fun p : String × String => (p.2.drop 1, p.1)) =
      ((fun t : String => t.drop 1) ∘ Prod.snd) := rfl
  rw [h1, ← List.map_map, hm.2, List.map_map]
  apply List.map_congr_left
  intro i _
  simp only [Function.comp_apply]
  exact hdrop _

/-- C9: in every envelope exported with `extractTokens = true`, every
token reference in the tree is `$` followed by a key of the drained
dictionary of the matching kind, the dictionary keys carry no `$`, and
after `n` distinct values of a kind have been interned that kind's keys
are exactly `c0 … c(n-1)` (resp. `f…`, `s…`). -/
theorem C9_token_references (jm : JsMath) (options : ExportOptions)
    (selection : List SceneSel) (rawData : Option RawNodeData)
    (res : ExportResult) (hopt : options.extractTokens = true)
    (hres : exportSelection jm options selection rawData = some res) :
    (∀ s ∈ tokenRefs res.tree, ∃ k,
      s = "$" ++ k ∧
      (k ∈ res.tokens.colors.map Prod.fst ∨
       k ∈ res.tokens.fonts.map Prod.fst ∨
       k ∈ res.tokens.shadows.map Prod.fst)) ∧
    (∀ p ∈ res.tokens.colors ++ res.tokens.fonts ++ res.tokens.shadows,
      ∀ t, p.1 ≠ "$" ++ t) ∧
    res.tokens.colors.map Prod.fst =
      (List.range res.tokens.colors.length).map (fun i => "c" ++ Nat.repr i) ∧
    res.tokens.fonts.map Prod.fst =
      (List.range res.tokens.fonts.length).map (fun i => "f" ++ Nat.repr i) ∧
    res.tokens.shadows.map Prod.fst =
      (List.range res.tokens.shadows.length).map (fun i => "s" ++ Nat.repr i)
    := by
  cases selection with
  | nil => exact Option.noConfusion hres
  | cons node rest =>
    cases rawData with
    | none => exact Option.noConfusion hres
    | some raw =>
      unfold exportSelection at hres
      rw [hopt] at hres
      unfold transformTree at hres
      dsimp only at hres
      cases htn : transformNode jm true raw TokenExtractor.empty with
      | mk tree st =>
        rw [htn] at hres
        dsimp only at hres
        rw [if_pos rfl] at hres
        have hres2 := Option.some.inj hres
        subst hres2
        have hmain := transformNode_refs jm (sizeOf raw) raw le_rfl
          TokenExtractor.empty
        rw [htn] at hmain
        have hcanon : st.canonicalTok := hmain.1.2 empty_canonicalTok
        dsimp only
        rw [optimizeTokens_id]
        simp only [TokenExtractor.getTokens]
        refine ⟨?_, ?_, ?_, ?_, ?_⟩
        · intro s hs
          have hmem := hmain.2 s hs
          rcases hmem with h | h | h
          · obtain ⟨k, hk1, hk2⟩ := hasTok_canonical st.colors "$c" "c"
              (by decide) drop_dollar_c hcanon.1 h
            exact ⟨k, hk1, Or.inl hk2⟩
          · obtain ⟨k, hk1, hk2⟩ := hasTok_canonical st.fonts "$f" "f"
              (by decide) drop_dollar_f hcanon.2.1 h
            exact ⟨k, hk1, Or.inr (Or.inl hk2)⟩
          · obtain ⟨k, hk1, hk2⟩ := hasTok_canonical st.shadows "$s" "s"
              (by decide) drop_dollar_s hcanon.2.2 h
            exact ⟨k, hk1, Or.inr (Or.inr hk2)⟩
        · intro p hp
          rcases List.mem_append.mp hp with h | h
          · rcases List.mem_append.mp h with h2 | h2
            · exact canonical_key_ne_dollar st.colors "$c" "c" drop_dollar_c
                key_c_ne_dollar hcanon.1 p h2
            · exact canonical_key_ne_dollar st.fonts "$f" "f" drop_dollar_f
                key_f_ne_dollar hcanon.2.1 p h2
          · exact canonical_key_ne_dollar st.shadows "$s" "s" drop_dollar_s
              key_s_ne_dollar hcanon.2.2 p h
        · exact canonical_getTokens_keys st.colors "$c" "c" drop_dollar_c
            hcanon.1
        · exact canonical_getTokens_keys st.fonts "$f" "f" drop_dollar_f
            hcanon.2.1
        · exact canonical_getTokens_keys st.shadows "$s" "s" drop_dollar_s
            hcanon.2.2

set_option maxRecDepth 4000 in
/-- The reference claims on a concrete export: a text node with an
interned font, whose envelope carries the single reference `$f0` resolved
by the `fonts` dictionary key `f0`. -/
theorem C9_token_references_witness :
    (∀ s ∈ tokenRefs (J.obj [("type", J.str "text"), ("content", J.str ""),
        ("name", J.str "T"), ("font", J.str "$f0")]), ∃ k,
      s = "$" ++ k ∧
      (k ∈ ([] : List String) ∨ k ∈ ["f0"] ∨ k ∈ ([] : List String))) ∧
    (∀ p ∈ [("f0", "Inter")], ∀ t, p.1 ≠ "$" ++ t) ∧
    ([] : List String) = (List.range 0).map (fun i => "c" ++ Nat.repr i) ∧
    ["f0"] = (List.range 1).map (fun i => "f" ++ Nat.repr i) ∧
    ([] : List String) = (List.range 0).map (fun i => "s" ++ Nat.repr i) :=
  C9_token_references ⟨fun _ _ => 0, fun _ => 0⟩ DEFAULT_OPTIONS
    [⟨"T", "TEXT"⟩]
    (some (RawNodeData.mk
      { id := "1:1", name := "T", type := "TEXT",
        width := 10, height := 10,
        fontName := some ⟨"Inter", "Regular"⟩ }))
    ⟨"1.0", META, "T", ⟨[], [("f0", "Inter")], []⟩,
      J.obj [("type", J.str "text"), ("content", J.str ""),
        ("name", J.str "T"), ("font", J.str "$f0")]⟩
    rfl
    (by
      have htn : transformNode (⟨fun _ _ => 0, fun _ => 0⟩ : JsMath) true
          (RawNodeData.mk
            { id := "1:1", name := "T", type := "TEXT",
              width := 10, height := 10,
              fontName := some ⟨"Inter", "Regular"⟩ })
          TokenExtractor.empty =
          (J.obj [("type", J.str "text"), ("content", J.str ""),
            ("name", J.str "T"), ("font", J.str "$f0")],
           ⟨⟨[], 0⟩, ⟨[("Inter", "$f0")], 1⟩, ⟨[], 0⟩⟩) := by
        simp only [transformNode]
        with_unfolding_all rfl
      unfold exportSelection transformTree
      simp only [show DEFAULT_OPTIONS.extractTokens = true from rfl]
      rw [htn]
      with_unfolding_all rfl)
